import Mathlib

/-!
# Dark-mode pull cord (`001-dark-mode-pull-cord/main.js`)

A shallow embedding of the widget's module state and of the functions that
mutate it, followed by theorems about the drag gesture, the post-release
physics, the click-pull tween and the mode toggle.

JavaScript numbers are embedded as elements of a linearly ordered field `K`
(exact arithmetic, no rounding); `Math.sqrt`, `Math.exp` and the
number-to-string conversion are supplied by a `Host`.  Every function below is
computable for a computable `K` (for instance `ℚ`); the theorems that need the
analytic facts about `sqrt` and `exp` are stated at `K = ℝ` with `Real.sqrt`
and `Real.exp`.  The bounds on the stretched cord depend on the values
`Math.exp` returns in double precision, which underflow to 0; there the
exponential is a parameter of the host, constrained only by what the bound
needs, and the underflow is the function
`fun x => if x ≤ -746 then 0 else Real.exp x`.
-/

namespace PullCord

/-! ## Constants (main.js lines 2-29) -/

def LIGHT_COLOR : String := "#F3F4F5"
def DARK_COLOR : String := "#1D1D1F"

section Constants
variable {K : Type} [LinearOrderedField K]

abbrev TOGGLE_THRESHOLD : K := 75
abbrev CORD_LENGTH : K := 50
abbrev CORD_MAX_LENGTH : K := 100
abbrev CIRCLE_ANIMATION_DURATION : K := 0.5
abbrev CIRCLE_START_OFFSET : K := 50
abbrev CLICK_PULL_DOWN_DURATION : K := 75
abbrev CLICK_PULL_UP_DURATION : K := 150
abbrev GRAVITY : K := 0.4
abbrev DAMPING : K := 0.95
abbrev SNAP_BACK_FORCE : K := 0.2
abbrev ANCHOR_X : K := 50
abbrev ANCHOR_Y : K := 0

/-- The ease-in quad `CLICK_PULL_DOWN_EASE = (t) => t * t`. -/
def CLICK_PULL_DOWN_EASE (t : K) : K := t * t

/-- The ease-out quad `CLICK_PULL_UP_EASE = (t) => 1 - (1 - t) * (1 - t)`. -/
def CLICK_PULL_UP_EASE (t : K) : K := 1 - (1 - t) * (1 - t)

end Constants

/-! ## State -/

/-- The library functions the module calls: `Math.sqrt`, `Math.exp`, and the
conversion of a number to a string used when a style value is assembled. -/
structure Host (K : Type) where
  sqrt : K → K
  exp : K → K
  numStr : K → String

/-- The layout readings an event handler takes from the page:
`container.getBoundingClientRect()` and the window's inner size. -/
structure View (K : Type) where
  rectLeft : K
  rectTop : K
  innerWidth : K
  innerHeight : K

/-- The inline styles and the body class written by `toggleMode` and by its
deferred cleanup. -/
structure Dom where
  cordPathStroke : String
  cordHandleFill : String
  cordPathNewStroke : String
  cordHandleNewFill : String
  circleLeft : String
  circleTop : String
  circleWidth : String
  circleHeight : String
  circleBackground : String
  circleTransition : String
  svgNewTransition : String
  svgNewClipPath : String
  bodyDarkMode : Bool
deriving DecidableEq, Repr

/-- The variables closed over by `animateDown` and `animateUp` inside one call
of `animatePull` (`pullDistance` is the constant `TOGGLE_THRESHOLD`). -/
structure PullClosure (K : Type) where
  startY : K
  downStartTime : Option K
  upStartTime : Option K
deriving DecidableEq, Repr

/-- A callback handed to `requestAnimationFrame`. -/
inductive FrameCallback (K : Type) where
  | animateDown (c : PullClosure K)
  | animateUp (c : PullClosure K)
  | animate
deriving DecidableEq, Repr

/-- The module state (main.js lines 31-45 and 227), the two host queues
(frame callbacks in request order, pending `setTimeout` cleanups), and a
counter of `toggleMode` invocations kept for the statements about how often
the toggle fires. -/
structure State (K : Type) where
  isDragging : Bool
  isDarkMode : Bool
  handleX : K
  handleY : K
  velocityX : K
  velocityY : K
  isAnimating : Bool
  hasCrossedThreshold : Bool
  grabOffsetX : K
  grabOffsetY : K
  didDrag : Bool
  dom : Dom
  frameQueue : List (FrameCallback K)
  timers : Nat
  toggleCalls : Nat

section Model
variable {K : Type} [LinearOrderedField K]

/-- The state after `createElements` (lines 31-41, 94): no inline colour or
reveal styling, the duplicate SVG clipped to an empty circle. -/
def initialState : State K where
  isDragging := false
  isDarkMode := false
  handleX := ANCHOR_X
  handleY := CORD_LENGTH
  velocityX := 0
  velocityY := 0
  isAnimating := false
  hasCrossedThreshold := false
  grabOffsetX := 0
  grabOffsetY := 0
  didDrag := false
  dom :=
    { cordPathStroke := "", cordHandleFill := "", cordPathNewStroke := "",
      cordHandleNewFill := "", circleLeft := "", circleTop := "", circleWidth := "",
      circleHeight := "", circleBackground := "", circleTransition := "",
      svgNewTransition := "", svgNewClipPath := "circle(0px at 0px 0px)",
      bodyDarkMode := false }
  frameQueue := []
  timers := 0
  toggleCalls := 0

/-! ## The mode toggle (lines 359-423) -/

/-- The transition string shared by the reveal circle's width and height. -/
def circleTransitionStr (h : Host K) : String :=
  "width " ++ h.numStr CIRCLE_ANIMATION_DURATION ++ "s cubic-bezier(0.5, 0, 0.75, 0), height "
    ++ h.numStr CIRCLE_ANIMATION_DURATION ++ "s cubic-bezier(0.5, 0, 0.75, 0)"

/-- The clip-path string `circle(<r>px at <cx>px <cy>px)`. -/
def clipCircleStr (h : Host K) (r cx cy : K) : String :=
  "circle(" ++ h.numStr r ++ "px at " ++ h.numStr cx ++ "px " ++ h.numStr cy ++ "px)"

/-- The function `toggleMode`: flips `isDarkMode`, writes the reveal styling
(the values left when the function returns) and schedules one cleanup with
`setTimeout`. -/
def toggleMode (h : Host K) (v : View K) (s : State K) : State K :=
  let isDarkMode := !s.isDarkMode
  let newBgColor := if isDarkMode then DARK_COLOR else LIGHT_COLOR
  let newCordColor := if isDarkMode then LIGHT_COLOR else DARK_COLOR
  let oldCordColor := if isDarkMode then DARK_COLOR else LIGHT_COLOR
  let anchorScreenX := v.rectLeft + ANCHOR_X
  let clipCenterX : K := ANCHOR_X
  let clipCenterY : K := -CIRCLE_START_OFFSET
  let maxDimension := max v.innerWidth v.innerHeight * 3
  let maxRadius := maxDimension / 2
  { s with
    isDarkMode := isDarkMode
    dom :=
      { s.dom with
        cordPathStroke := oldCordColor
        cordHandleFill := oldCordColor
        cordPathNewStroke := newCordColor
        cordHandleNewFill := newCordColor
        circleLeft := h.numStr anchorScreenX ++ "px"
        circleTop := h.numStr (-CIRCLE_START_OFFSET) ++ "px"
        circleWidth := h.numStr maxDimension ++ "px"
        circleHeight := h.numStr maxDimension ++ "px"
        circleBackground := newBgColor
        circleTransition := circleTransitionStr h
        svgNewTransition :=
          "clip-path " ++ h.numStr CIRCLE_ANIMATION_DURATION ++ "s cubic-bezier(0.5, 0, 0.75, 0)"
        svgNewClipPath := clipCircleStr h maxRadius clipCenterX clipCenterY }
    timers := s.timers + 1
    toggleCalls := s.toggleCalls + 1 }

/-- The body of the arrow function passed to `setTimeout` (lines 410-422); it
reads `isDarkMode` when it runs. -/
def cleanup (s : State K) : State K :=
  { s with
    dom :=
      { s.dom with
        bodyDarkMode := s.isDarkMode
        cordPathStroke := ""
        cordHandleFill := ""
        cordPathNewStroke := ""
        cordHandleNewFill := ""
        circleTransition := "none"
        circleWidth := "0"
        circleHeight := "0"
        svgNewTransition := "none"
        svgNewClipPath := "circle(0px at 0px 0px)" } }

/-- One pending `setTimeout` cleanup fires (nothing happens when none is pending). -/
def fireTimeout (s : State K) : State K :=
  if s.timers = 0 then s else cleanup { s with timers := s.timers - 1 }

/-! ## The drag gesture (lines 131-225) -/

/-- The function `startDrag`. -/
def startDrag (clientX clientY : K) (v : View K) (s : State K) : State K :=
  let grabX := clientX - v.rectLeft
  let grabY := clientY - v.rectTop
  { s with
    isDragging := true
    didDrag := false
    hasCrossedThreshold := false
    grabOffsetX := grabX - s.handleX
    grabOffsetY := grabY - s.handleY }

/-- The decayed grab offset of lines 158-160. -/
def decayedOffset (g : K) : K := g * (1 - 0.1)

/-- The `rawX` of line 163. -/
def rawX (clientX : K) (v : View K) (s : State K) : K :=
  clientX - v.rectLeft - decayedOffset s.grabOffsetX

/-- The `rawY` of line 164. -/
def rawY (clientY : K) (v : View K) (s : State K) : K :=
  max 0 (clientY - v.rectTop - decayedOffset s.grabOffsetY)

/-- The `rawDistance` of lines 167-169. -/
def rawDistance (h : Host K) (clientX clientY : K) (v : View K) (s : State K) : K :=
  let rawDx := rawX clientX v s - ANCHOR_X
  let rawDy := rawY clientY v s - ANCHOR_Y
  h.sqrt (rawDx * rawDx + rawDy * rawDy)

/-- The `actualDistance` of lines 180-186, as a function of the raw distance. -/
def actualDistance (h : Host K) (rawDistance : K) : K :=
  let stretchAmount := rawDistance - CORD_LENGTH
  let maxStretch : K := CORD_MAX_LENGTH - CORD_LENGTH
  let rubberStretch := maxStretch * (1 - h.exp (-stretchAmount / maxStretch))
  CORD_LENGTH + rubberStretch

/-- The function `onDrag`. -/
def onDrag (h : Host K) (clientX clientY : K) (v : View K) (s : State K) : State K :=
  if !s.isDragging then s else
  let rX := rawX clientX v s
  let rY := rawY clientY v s
  let rawDx := rX - ANCHOR_X
  let rawDy := rY - ANCHOR_Y
  let rawDist := rawDistance h clientX clientY v s
  let s1 : State K :=
    { s with
      didDrag := true
      grabOffsetX := decayedOffset s.grabOffsetX
      grabOffsetY := decayedOffset s.grabOffsetY }
  let s2 : State K :=
    if rawDist > TOGGLE_THRESHOLD ∧ !s1.hasCrossedThreshold then
      toggleMode h v { s1 with hasCrossedThreshold := true }
    else s1
  if rawDist > CORD_LENGTH then
    let dirX := rawDx / rawDist
    let dirY := rawDy / rawDist
    { s2 with
      handleX := ANCHOR_X + dirX * actualDistance h rawDist
      handleY := ANCHOR_Y + dirY * actualDistance h rawDist }
  else
    { s2 with handleX := rX, handleY := rY }

/-- The function `startPhysicsAnimation`: sets `isAnimating` and requests the
first `animate` frame. -/
def startPhysicsAnimation (s : State K) : State K :=
  { s with isAnimating := true, frameQueue := s.frameQueue ++ [FrameCallback.animate] }

/-- The function `endDrag`. -/
def endDrag (h : Host K) (s : State K) : State K :=
  if !s.isDragging then s else
  let s1 : State K := { s with isDragging := false }
  if !s1.didDrag then s1 else
  let dx := s1.handleX - ANCHOR_X
  let dy := s1.handleY - ANCHOR_Y
  let distance := h.sqrt (dx * dx + dy * dy)
  let s2 : State K :=
    if distance > CORD_LENGTH then
      let stretchAmount := distance - CORD_LENGTH
      let dirX := dx / distance
      let dirY := dy / distance
      { s1 with
        velocityX := -dirX * stretchAmount * SNAP_BACK_FORCE
        velocityY := -dirY * stretchAmount * SNAP_BACK_FORCE }
    else s1
  startPhysicsAnimation s2

/-! ## The click-pull tween (lines 229-290) -/

/-- The test `!t` on a start time: true for `null` and for the number `0`. -/
def startTimeUnset (t : Option K) : Bool :=
  match t with
  | none => true
  | some x => decide (x = 0)

/-- The value of a start time after `if (!t) t = currentTime`. -/
def startTimeOr (t : Option K) (currentTime : K) : K :=
  match t with
  | none => currentTime
  | some x => if x = 0 then currentTime else x

/-- The `progress` of `animateDown` at `currentTime` (lines 251-253). -/
def downProgress (c : PullClosure K) (currentTime : K) : K :=
  let downStartTime := startTimeOr c.downStartTime currentTime
  let elapsed := currentTime - downStartTime
  min (elapsed / CLICK_PULL_DOWN_DURATION) 1

/-- The `progress` of `animateUp` at `currentTime` (lines 270-272). -/
def upProgress (c : PullClosure K) (currentTime : K) : K :=
  let upStartTime := startTimeOr c.upStartTime currentTime
  let elapsed := currentTime - upStartTime
  min (elapsed / CLICK_PULL_UP_DURATION) 1

/-- The frame callback `animateDown`. -/
def animateDown (h : Host K) (v : View K) (c : PullClosure K) (currentTime : K)
    (s : State K) : State K :=
  let pullDistance : K := TOGGLE_THRESHOLD
  let c1 : PullClosure K :=
    { c with downStartTime := some (startTimeOr c.downStartTime currentTime) }
  let progress := downProgress c currentTime
  let eased := CLICK_PULL_DOWN_EASE progress
  let s1 : State K :=
    { s with
      handleY := c.startY + (pullDistance - c.startY) * eased
      handleX := ANCHOR_X }
  if progress < 1 then
    { s1 with frameQueue := s1.frameQueue ++ [FrameCallback.animateDown c1] }
  else
    let s2 := toggleMode h v s1
    { s2 with frameQueue := s2.frameQueue ++ [FrameCallback.animateUp c1] }

/-- The frame callback `animateUp`. -/
def animateUp (c : PullClosure K) (currentTime : K) (s : State K) : State K :=
  let pullDistance : K := TOGGLE_THRESHOLD
  let c1 : PullClosure K :=
    { c with upStartTime := some (startTimeOr c.upStartTime currentTime) }
  let progress := upProgress c currentTime
  let eased := CLICK_PULL_UP_EASE progress
  let s1 : State K :=
    { s with
      handleY := pullDistance + (CORD_LENGTH - pullDistance) * eased
      handleX := ANCHOR_X }
  if progress < 1 then
    { s1 with frameQueue := s1.frameQueue ++ [FrameCallback.animateUp c1] }
  else
    { s1 with handleY := CORD_LENGTH, isAnimating := false }

/-- The function `animatePull`. -/
def animatePull (s : State K) : State K :=
  if s.isAnimating then s else
  { s with
    isAnimating := true
    frameQueue := s.frameQueue ++
      [FrameCallback.animateDown { startY := s.handleY, downStartTime := none, upStartTime := none }] }

/-- The function `handleClick`. -/
def handleClick (s : State K) : State K :=
  if s.didDrag then { s with didDrag := false } else animatePull s

/-! ## Post-release physics (lines 292-357) -/

/-- The settle test of lines 334-340. -/
def isSettled (s : State K) : Bool :=
  let restX : K := ANCHOR_X
  let restY : K := ANCHOR_Y + CORD_LENGTH
  decide (|s.velocityX| < 0.05) && decide (|s.velocityY| < 0.05) &&
    decide (|s.handleX - restX| < 0.5) && decide (|s.handleY - restY| < 0.5)

/-- Lines 301-331 of `animate`: gravity, damping, the position update and the
rest-length constraint. -/
def integrate (h : Host K) (s : State K) : State K :=
  let velocityY := s.velocityY + GRAVITY
  let velocityX := s.velocityX * DAMPING
  let velocityY := velocityY * DAMPING
  let handleX := s.handleX + velocityX
  let handleY := s.handleY + velocityY
  let newDx := handleX - ANCHOR_X
  let newDy := handleY - ANCHOR_Y
  let newDistance := h.sqrt (newDx * newDx + newDy * newDy)
  if newDistance > CORD_LENGTH then
    let newDirX := newDx / newDistance
    let newDirY := newDy / newDistance
    let velDot := velocityX * newDirX + velocityY * newDirY
    if velDot > 0 then
      { s with
        handleX := ANCHOR_X + newDirX * CORD_LENGTH
        handleY := ANCHOR_Y + newDirY * CORD_LENGTH
        velocityX := velocityX - velDot * newDirX
        velocityY := velocityY - velDot * newDirY }
    else
      { s with
        handleX := ANCHOR_X + newDirX * CORD_LENGTH
        handleY := ANCHOR_Y + newDirY * CORD_LENGTH
        velocityX := velocityX
        velocityY := velocityY }
  else
    { s with handleX := handleX, handleY := handleY, velocityX := velocityX, velocityY := velocityY }

/-- The frame callback `animate` of `startPhysicsAnimation`. -/
def animate (h : Host K) (s : State K) : State K :=
  if s.isDragging then { s with isAnimating := false } else
  let s1 := integrate h s
  if isSettled s1 then
    { s1 with
      handleX := ANCHOR_X
      handleY := ANCHOR_Y + CORD_LENGTH
      velocityX := 0
      velocityY := 0
      isAnimating := false }
  else
    { s1 with frameQueue := s1.frameQueue ++ [FrameCallback.animate] }

/-! ## Events -/

/-- Runs one frame callback with the frame's timestamp. -/
def runCallback (h : Host K) (v : View K) (currentTime : K) (s : State K)
    (cb : FrameCallback K) : State K :=
  match cb with
  | FrameCallback.animateDown c => animateDown h v c currentTime s
  | FrameCallback.animateUp c => animateUp c currentTime s
  | FrameCallback.animate => animate h s

/-- One animation frame: the callbacks requested so far run in request order
with the same timestamp; what they request runs in a later frame. -/
def runFrame (h : Host K) (v : View K) (currentTime : K) (s : State K) : State K :=
  s.frameQueue.foldl (runCallback h v currentTime) { s with frameQueue := [] }

/-- What the page can deliver to the module. -/
inductive Event (K : Type) where
  | startDrag (clientX clientY : K) (v : View K)
  | onDrag (clientX clientY : K) (v : View K)
  | endDrag
  | click
  | frame (currentTime : K) (v : View K)
  | timeout

/-- The module's reaction to one event. -/
def step (h : Host K) (s : State K) (e : Event K) : State K :=
  match e with
  | Event.startDrag x y v => startDrag x y v s
  | Event.onDrag x y v => onDrag h x y v s
  | Event.endDrag => endDrag h s
  | Event.click => handleClick s
  | Event.frame t v => runFrame h v t s
  | Event.timeout => fireTimeout s

/-- The state after a sequence of events. -/
def run (h : Host K) (s : State K) (es : List (Event K)) : State K :=
  es.foldl (step h) s

/-- The distance of the handle from the anchor, as `endDrag`, `animate` and
`render` compute it. -/
def handleDistance (h : Host K) (s : State K) : K :=
  let dx := s.handleX - ANCHOR_X
  let dy := s.handleY - ANCHOR_Y
  h.sqrt (dx * dx + dy * dy)

/-! ## Drag sessions -/

/-- A pointer or touch event: the client coordinates it carries and the layout
readings taken while it is handled. -/
structure Pointer (K : Type) where
  clientX : K
  clientY : K
  view : View K

/-- The handler `onDrag` applied to a pointer event. -/
def onDragP (h : Host K) (s : State K) (p : Pointer K) : State K :=
  onDrag h p.clientX p.clientY p.view s

/-- The raw distance `onDrag` computes for a pointer event in state `s`. -/
def rawDistanceP (h : Host K) (s : State K) (p : Pointer K) : K :=
  rawDistance h p.clientX p.clientY p.view s

/-- The state after a sequence of `onDrag` updates. -/
def updates (h : Host K) (s : State K) (ps : List (Pointer K)) : State K :=
  ps.foldl (onDragP h) s

/-- The raw distances computed by the successive `onDrag` updates of a session. -/
def rawDistances (h : Host K) : State K → List (Pointer K) → List K
  | _, [] => []
  | s, p :: ps => rawDistanceP h s p :: rawDistances h (onDragP h s p) ps

/-- A whole drag session: `startDrag`, the `onDrag` updates, `endDrag`. -/
def dragSession (h : Host K) (s : State K) (p0 : Pointer K) (ps : List (Pointer K)) : State K :=
  endDrag h (updates h (startDrag p0.clientX p0.clientY p0.view s) ps)

/-- A layout used in the worked examples: container at the page origin in a
1024 by 768 window. -/
def sampleView : View K := { rectLeft := 0, rectTop := 0, innerWidth := 1024, innerHeight := 768 }

/-! ## Runs of the click-pull tween -/

/-- A frame delivered by the host: its timestamp and the layout at that time. -/
structure Frame (K : Type) where
  time : K
  view : View K

/-- The state after `animatePull` is called in `s` and the listed frames are
delivered, with no other event in between. -/
def pullRun (h : Host K) (s : State K) (frames : List (Frame K)) : State K :=
  frames.foldl (fun st f => runFrame h f.view f.time st) (animatePull s)

/-- The timestamps a run would measure its duration with: the timestamp of
the first frame delivered, and the timestamp of the frame in which `animateUp`
clears `isAnimating` (none while the tween is still running). -/
def pullEndTime (h : Host K) : State K → List (Frame K) → Option K
  | _, [] => none
  | s, f :: fs =>
    if (runFrame h f.view f.time s).isAnimating then pullEndTime h (runFrame h f.view f.time s) fs
    else some f.time

/-- The measured duration of a click-pull run: from the timestamp of the first
frame delivered to the timestamp of the frame that clears `isAnimating`. -/
def pullDuration (h : Host K) (s : State K) (frames : List (Frame K)) : Option K :=
  match frames with
  | [] => none
  | f :: _ => (pullEndTime h (animatePull s) frames).map fun t => t - f.time

/-- A host for arithmetic over the rationals; the click-pull tween and the
mode toggle call neither `Math.sqrt` nor `Math.exp`. -/
def ratHost : Host ℚ := { sqrt := fun x => x, exp := fun x => x, numStr := fun _ => "" }

/-- Frames at 1000, 1080, 1096 and 1250 ms. -/
def sampleFrames : List (Frame ℚ) :=
  [⟨1000, sampleView⟩, ⟨1080, sampleView⟩, ⟨1096, sampleView⟩, ⟨1250, sampleView⟩]

/-- The pull-down phase of a click-pull run that started with `n` toggles
counted: one `animateDown` frame is requested and no toggle has happened. -/
def InPullDown (n : Nat) (e : State K) : Prop :=
  ∃ c, e.frameQueue = [FrameCallback.animateDown c] ∧ e.isAnimating = true ∧ e.toggleCalls = n

/-- The pull-up phase: one `animateUp` frame is requested and the toggle has
happened once. -/
def InPullUp (n : Nat) (e : State K) : Prop :=
  ∃ c, e.frameQueue = [FrameCallback.animateUp c] ∧ e.isAnimating = true ∧ e.toggleCalls = n + 1

/-- The completed run: nothing requested, `isAnimating` cleared, the handle
at rest, the toggle counted once. -/
def PullDone (n : Nat) (e : State K) : Prop :=
  e.frameQueue = [] ∧ e.isAnimating = false ∧ e.toggleCalls = n + 1 ∧
    e.handleX = ANCHOR_X ∧ e.handleY = CORD_LENGTH

/-- A click on the resting cord (press, release, click), then a drag with
movement that is released before the click-pull tween has run a frame. -/
def clickThenDrag : List (Event K) :=
  [Event.startDrag 50 50 sampleView, Event.endDrag, Event.click,
   Event.startDrag 50 50 sampleView, Event.onDrag 50 60 sampleView, Event.endDrag]

/-- Two drags with movement, both released before a frame is delivered. -/
def dragTwice : List (Event K) :=
  [Event.startDrag 50 50 sampleView, Event.onDrag 50 60 sampleView, Event.endDrag,
   Event.startDrag 50 50 sampleView, Event.onDrag 50 60 sampleView, Event.endDrag]

/-- A click on the resting cord, then a press that starts a drag, then two
frames 30 ms apart while the drag is active. -/
def clickThenPress : List (Event K) :=
  [Event.startDrag 50 50 sampleView, Event.endDrag, Event.click,
   Event.startDrag 50 50 sampleView, Event.frame 1000 sampleView, Event.frame 1030 sampleView]

/-! ## Runs of the physics loop -/

/-- The state after the listed frames are delivered, with no other event in
between. -/
def runFrames (h : Host K) (s : State K) (frames : List (Frame K)) : State K :=
  frames.foldl (fun st f => runFrame h f.view f.time st) s

/-- The handle is within the rest length of the anchor (squared form of
`handleDistance ≤ CORD_LENGTH`). -/
def WithinRest (s : State K) : Prop :=
  (s.handleX - ANCHOR_X) * (s.handleX - ANCHOR_X)
    + (s.handleY - ANCHOR_Y) * (s.handleY - ANCHOR_Y) ≤ 2500

/-- The energy that the physics step dissipates: kinetic energy plus the
height of the handle above the rest point, weighted by `GRAVITY / DAMPING`. -/
def energy (s : State K) : K :=
  (s.velocityX * s.velocityX + s.velocityY * s.velocityY) / 2 + 8 / 19 * (50 - s.handleY)

/-- The settled state written by `animate` (lines 343-347), with nothing
requested. -/
def AtRest (s : State K) : Prop :=
  s.handleX = ANCHOR_X ∧ s.handleY = ANCHOR_Y + CORD_LENGTH ∧ s.velocityX = 0 ∧
    s.velocityY = 0 ∧ s.isAnimating = false ∧ s.frameQueue = []

/-- A state of the physics loop used in the worked example: released at
(50, 20) with velocity (3, -2). -/
def sampleRelease : State K :=
  { startPhysicsAnimation initialState with handleY := 20, velocityX := 3, velocityY := -2 }

/-! ## The cord curve (`render`, lines 425-474) -/

/-- The `slackAmount` of line 434 (`transitionZone` is the constant 10). -/
def slackAmount (h : Host K) (s : State K) : K :=
  CORD_LENGTH - handleDistance h s

/-- The `slackRatio` of line 435. -/
def slackRatio (h : Host K) (s : State K) : K :=
  let transitionZone : K := 10
  max 0 (min 1 (slackAmount h s / transitionZone))

/-- The `drapeAmount` of line 438. -/
def drapeAmount (h : Host K) (s : State K) : K :=
  if slackAmount h s > 0 then slackAmount h s * 0.7 * slackRatio h s else 0

/-- The `straightCtrl1X` of line 445. -/
def straightCtrl1X (s : State K) : K := ANCHOR_X + (s.handleX - ANCHOR_X) * 0.33

/-- The `straightCtrl1Y` of line 446. -/
def straightCtrl1Y (s : State K) : K := ANCHOR_Y + (s.handleY - ANCHOR_Y) * 0.33

/-- The `straightCtrl2X` of line 447. -/
def straightCtrl2X (s : State K) : K := ANCHOR_X + (s.handleX - ANCHOR_X) * 0.66

/-- The `straightCtrl2Y` of line 448. -/
def straightCtrl2Y (s : State K) : K := ANCHOR_Y + (s.handleY - ANCHOR_Y) * 0.66

/-- The `drapedCtrl1X` of line 451. -/
def drapedCtrl1X : K := ANCHOR_X

/-- The `drapedCtrl1Y` of line 452. -/
def drapedCtrl1Y (h : Host K) (s : State K) : K :=
  ANCHOR_Y + CORD_LENGTH * 0.5 + drapeAmount h s * 0.5

/-- The `drapedCtrl2X` of line 453. -/
def drapedCtrl2X (s : State K) : K := s.handleX

/-- The `drapedCtrl2Y` of line 454. -/
def drapedCtrl2Y (h : Host K) (s : State K) : K := s.handleY + drapeAmount h s

/-- The `ctrl1X` of line 457. -/
def ctrl1X (h : Host K) (s : State K) : K :=
  straightCtrl1X s + (drapedCtrl1X - straightCtrl1X s) * slackRatio h s

/-- The `ctrl1Y` of line 458. -/
def ctrl1Y (h : Host K) (s : State K) : K :=
  straightCtrl1Y s + (drapedCtrl1Y h s - straightCtrl1Y s) * slackRatio h s

/-- The `ctrl2X` of line 459. -/
def ctrl2X (h : Host K) (s : State K) : K :=
  straightCtrl2X s + (drapedCtrl2X s - straightCtrl2X s) * slackRatio h s

/-- The `ctrl2Y` of line 460. -/
def ctrl2Y (h : Host K) (s : State K) : K :=
  straightCtrl2Y s + (drapedCtrl2Y h s - straightCtrl2Y s) * slackRatio h s

/-- The cubic curve `M anchor C ctrl1, ctrl2, handle` that `render` writes to
both cord paths; the circles are placed at its end point. -/
structure Curve (K : Type) where
  startX : K
  startY : K
  c1X : K
  c1Y : K
  c2X : K
  c2Y : K
  endX : K
  endY : K

/-- The function `render`, as the geometry it draws for the current handle. -/
def render (h : Host K) (s : State K) : Curve K :=
  { startX := ANCHOR_X, startY := ANCHOR_Y,
    c1X := ctrl1X h s, c1Y := ctrl1Y h s, c2X := ctrl2X h s, c2Y := ctrl2Y h s,
    endX := s.handleX, endY := s.handleY }

/-! ## Direction normalisation with a checked division -/

/-- Division that fails on a zero divisor. -/
def checkedDiv (a b : K) : Option K := if b = 0 then none else some (a / b)

/-- The function `onDrag` with the two quotients of lines 189-190 computed by
`checkedDiv`. -/
def onDragChecked (h : Host K) (clientX clientY : K) (v : View K) (s : State K) :
    Option (State K) :=
  if !s.isDragging then some s else
  let rX := rawX clientX v s
  let rY := rawY clientY v s
  let rawDx := rX - ANCHOR_X
  let rawDy := rY - ANCHOR_Y
  let rawDist := rawDistance h clientX clientY v s
  let s1 : State K :=
    { s with
      didDrag := true
      grabOffsetX := decayedOffset s.grabOffsetX
      grabOffsetY := decayedOffset s.grabOffsetY }
  let s2 : State K :=
    if rawDist > TOGGLE_THRESHOLD ∧ !s1.hasCrossedThreshold then
      toggleMode h v { s1 with hasCrossedThreshold := true }
    else s1
  if rawDist > CORD_LENGTH then
    (checkedDiv rawDx rawDist).bind fun dirX =>
    (checkedDiv rawDy rawDist).bind fun dirY =>
    some { s2 with
      handleX := ANCHOR_X + dirX * actualDistance h rawDist
      handleY := ANCHOR_Y + dirY * actualDistance h rawDist }
  else
    some { s2 with handleX := rX, handleY := rY }

/-- The function `endDrag` with the two quotients of lines 217-218 computed by
`checkedDiv`. -/
def endDragChecked (h : Host K) (s : State K) : Option (State K) :=
  if !s.isDragging then some s else
  let s1 : State K := { s with isDragging := false }
  if !s1.didDrag then some s1 else
  let dx := s1.handleX - ANCHOR_X
  let dy := s1.handleY - ANCHOR_Y
  let distance := h.sqrt (dx * dx + dy * dy)
  if distance > CORD_LENGTH then
    let stretchAmount := distance - CORD_LENGTH
    (checkedDiv dx distance).bind fun dirX =>
    (checkedDiv dy distance).bind fun dirY =>
    some (startPhysicsAnimation
      { s1 with
        velocityX := -dirX * stretchAmount * SNAP_BACK_FORCE
        velocityY := -dirY * stretchAmount * SNAP_BACK_FORCE })
  else some (startPhysicsAnimation s1)

/-- Lines 301-331 of `animate` with the two quotients of lines 320-321
computed by `checkedDiv`. -/
def integrateChecked (h : Host K) (s : State K) : Option (State K) :=
  let velocityY := s.velocityY + GRAVITY
  let velocityX := s.velocityX * DAMPING
  let velocityY := velocityY * DAMPING
  let handleX := s.handleX + velocityX
  let handleY := s.handleY + velocityY
  let newDx := handleX - ANCHOR_X
  let newDy := handleY - ANCHOR_Y
  let newDistance := h.sqrt (newDx * newDx + newDy * newDy)
  if newDistance > CORD_LENGTH then
    (checkedDiv newDx newDistance).bind fun newDirX =>
    (checkedDiv newDy newDistance).bind fun newDirY =>
    let velDot := velocityX * newDirX + velocityY * newDirY
    if velDot > 0 then
      some { s with
        handleX := ANCHOR_X + newDirX * CORD_LENGTH
        handleY := ANCHOR_Y + newDirY * CORD_LENGTH
        velocityX := velocityX - velDot * newDirX
        velocityY := velocityY - velDot * newDirY }
    else
      some { s with
        handleX := ANCHOR_X + newDirX * CORD_LENGTH
        handleY := ANCHOR_Y + newDirY * CORD_LENGTH
        velocityX := velocityX
        velocityY := velocityY }
  else
    some { s with
      handleX := handleX, handleY := handleY, velocityX := velocityX, velocityY := velocityY }

/-- A state with the handle on the anchor itself. -/
def handleOnAnchor : State K :=
  { (initialState : State K) with handleX := ANCHOR_X, handleY := ANCHOR_Y, isDragging := true }

/-- A state with a slack cord: the handle at (50, 20). -/
def slackState : State K := { (initialState : State K) with handleY := 20 }

/-! ## The quantities of one physics step -/

/-- The `velocityX` after line 305. -/
def steppedVelocityX (s : State K) : K := s.velocityX * DAMPING

/-- The `velocityY` after lines 302 and 306. -/
def steppedVelocityY (s : State K) : K := (s.velocityY + GRAVITY) * DAMPING

/-- The `newDx` of line 314. -/
def newDx (s : State K) : K := s.handleX + steppedVelocityX s - ANCHOR_X

/-- The `newDy` of line 315. -/
def newDy (s : State K) : K := s.handleY + steppedVelocityY s - ANCHOR_Y

/-- The `newDistance` of line 316. -/
def newDistance (h : Host K) (s : State K) : K :=
  h.sqrt (newDx s * newDx s + newDy s * newDy s)

/-- A dragged state released while stretched: the handle at (50 + 48, 64),
at distance 80 from the anchor. -/
def stretchedState : State K :=
  { (initialState : State K) with handleX := 98, handleY := 64, isDragging := true, didDrag := true }

/-- A slack drag released at (50, 20), one physics frame, then a second slack
drag started while that physics run is in flight and released at (50, 30). -/
def staleVelocityDrag : List (Event K) :=
  [Event.startDrag 50 50 sampleView, Event.onDrag 50 20 sampleView, Event.endDrag,
   Event.frame 1000 sampleView,
   Event.startDrag 50 20.38 sampleView, Event.frame 1016 sampleView,
   Event.onDrag 50 30 sampleView, Event.endDrag]

end Model

end PullCord

namespace PullCord

/-! ## Frame lemmas for the mode toggle -/

section ToggleFrame
variable {K : Type} [LinearOrderedField K]

@[simp] theorem toggleMode_handleX (h : Host K) (v : View K) (s : State K) :
    (toggleMode h v s).handleX = s.handleX := rfl

@[simp] theorem toggleMode_handleY (h : Host K) (v : View K) (s : State K) :
    (toggleMode h v s).handleY = s.handleY := rfl

@[simp] theorem toggleMode_isDarkMode (h : Host K) (v : View K) (s : State K) :
    (toggleMode h v s).isDarkMode = !s.isDarkMode := rfl

@[simp] theorem toggleMode_timers (h : Host K) (v : View K) (s : State K) :
    (toggleMode h v s).timers = s.timers + 1 := rfl

@[simp] theorem toggleMode_toggleCalls (h : Host K) (v : View K) (s : State K) :
    (toggleMode h v s).toggleCalls = s.toggleCalls + 1 := rfl

@[simp] theorem toggleMode_frameQueue (h : Host K) (v : View K) (s : State K) :
    (toggleMode h v s).frameQueue = s.frameQueue := rfl

@[simp] theorem toggleMode_isDragging (h : Host K) (v : View K) (s : State K) :
    (toggleMode h v s).isDragging = s.isDragging := rfl

@[simp] theorem toggleMode_isAnimating (h : Host K) (v : View K) (s : State K) :
    (toggleMode h v s).isAnimating = s.isAnimating := rfl

@[simp] theorem toggleMode_hasCrossedThreshold (h : Host K) (v : View K) (s : State K) :
    (toggleMode h v s).hasCrossedThreshold = s.hasCrossedThreshold := rfl

@[simp] theorem toggleMode_didDrag (h : Host K) (v : View K) (s : State K) :
    (toggleMode h v s).didDrag = s.didDrag := rfl

@[simp] theorem toggleMode_velocityX (h : Host K) (v : View K) (s : State K) :
    (toggleMode h v s).velocityX = s.velocityX := rfl

@[simp] theorem toggleMode_velocityY (h : Host K) (v : View K) (s : State K) :
    (toggleMode h v s).velocityY = s.velocityY := rfl

@[simp] theorem toggleMode_grabOffsetX (h : Host K) (v : View K) (s : State K) :
    (toggleMode h v s).grabOffsetX = s.grabOffsetX := rfl

@[simp] theorem toggleMode_grabOffsetY (h : Host K) (v : View K) (s : State K) :
    (toggleMode h v s).grabOffsetY = s.grabOffsetY := rfl

end ToggleFrame

/-! ## The rubber band over the reals -/

/-- Over the reals the rubber-band distance is the closed form of the comment
on line 184. -/
theorem actualDistance_real (fmt : ℝ → String) (d : ℝ) :
    actualDistance (Host.mk Real.sqrt Real.exp fmt) d
      = 50 + 50 * (1 - Real.exp (-(d - 50) / 50)) := by
  simp only [actualDistance]
  norm_num

theorem actualDistance_real_lt (fmt : ℝ → String) (d : ℝ) :
    actualDistance (Host.mk Real.sqrt Real.exp fmt) d < 100 := by
  rw [actualDistance_real]
  have := Real.exp_pos (-(d - 50) / 50)
  linarith

theorem actualDistance_real_gt (fmt : ℝ → String) (d : ℝ) (hd : 50 < d) :
    50 < actualDistance (Host.mk Real.sqrt Real.exp fmt) d := by
  rw [actualDistance_real]
  have : Real.exp (-(d - 50) / 50) < 1 := by
    rw [Real.exp_lt_one_iff]
    have h1 : 0 < (d - 50) / 50 := div_pos (by linarith) (by norm_num)
    have h2 : -(d - 50) / 50 = -((d - 50) / 50) := neg_div _ _
    linarith
  linarith

/-- Scaling a vector of length `r > 0` to length `a ≥ 0`. -/
theorem sqrt_rescale (dx dy a : ℝ) (hr : 0 < Real.sqrt (dx * dx + dy * dy)) (ha : 0 ≤ a) :
    Real.sqrt ((dx / Real.sqrt (dx * dx + dy * dy) * a) * (dx / Real.sqrt (dx * dx + dy * dy) * a)
      + (dy / Real.sqrt (dx * dx + dy * dy) * a) * (dy / Real.sqrt (dx * dx + dy * dy) * a)) = a := by
  have hpos : 0 < dx * dx + dy * dy := Real.sqrt_pos.mp hr
  have hsq : Real.sqrt (dx * dx + dy * dy) * Real.sqrt (dx * dx + dy * dy) = dx * dx + dy * dy :=
    Real.mul_self_sqrt hpos.le
  have hne : Real.sqrt (dx * dx + dy * dy) ≠ 0 := hr.ne'
  have : (dx / Real.sqrt (dx * dx + dy * dy) * a) * (dx / Real.sqrt (dx * dx + dy * dy) * a)
      + (dy / Real.sqrt (dx * dx + dy * dy) * a) * (dy / Real.sqrt (dx * dx + dy * dy) * a)
      = a * a := by
    field_simp
    nlinarith [hsq]
  rw [this]
  exact Real.sqrt_mul_self ha

/-! ## Where `onDrag` leaves the handle -/

section DragHandle
variable {K : Type} [LinearOrderedField K]

theorem onDrag_handle_of_gt (h : Host K) (x y : K) (v : View K) (s : State K)
    (hs : s.isDragging = true) (hgt : CORD_LENGTH < rawDistance h x y v s) :
    (onDrag h x y v s).handleX
        = ANCHOR_X + (rawX x v s - ANCHOR_X) / rawDistance h x y v s
            * actualDistance h (rawDistance h x y v s) ∧
    (onDrag h x y v s).handleY
        = ANCHOR_Y + (rawY y v s - ANCHOR_Y) / rawDistance h x y v s
            * actualDistance h (rawDistance h x y v s) := by
  unfold onDrag
  simp only [hs, Bool.not_true, Bool.false_eq_true, if_false, gt_iff_lt, hgt, if_true,
    and_self]

theorem onDrag_handle_of_le (h : Host K) (x y : K) (v : View K) (s : State K)
    (hs : s.isDragging = true) (hle : rawDistance h x y v s ≤ CORD_LENGTH) :
    (onDrag h x y v s).handleX = rawX x v s ∧ (onDrag h x y v s).handleY = rawY y v s := by
  unfold onDrag
  simp only [hs, Bool.not_true, Bool.false_eq_true, if_false, gt_iff_lt, not_lt.mpr hle,
    and_self]

end DragHandle

theorem onDrag_handleDistance_of_gt (fmt : ℝ → String) (x y : ℝ) (v : View ℝ) (s : State ℝ)
    (hs : s.isDragging = true)
    (hd : 50 < rawDistance (Host.mk Real.sqrt Real.exp fmt) x y v s) :
    handleDistance (Host.mk Real.sqrt Real.exp fmt)
        (onDrag (Host.mk Real.sqrt Real.exp fmt) x y v s)
      = actualDistance (Host.mk Real.sqrt Real.exp fmt)
          (rawDistance (Host.mk Real.sqrt Real.exp fmt) x y v s) := by
  obtain ⟨hx, hy⟩ := onDrag_handle_of_gt (Host.mk Real.sqrt Real.exp fmt) x y v s hs hd
  have hA := actualDistance_real_gt fmt _ hd
  unfold handleDistance
  rw [hx, hy]
  simp only [rawDistance] at hd ⊢
  have hr : 0 < Real.sqrt ((rawX x v s - ANCHOR_X) * (rawX x v s - ANCHOR_X)
      + (rawY y v s - ANCHOR_Y) * (rawY y v s - ANCHOR_Y)) := by linarith
  have := sqrt_rescale (rawX x v s - ANCHOR_X) (rawY y v s - ANCHOR_Y) _ hr
    (le_of_lt (lt_trans (by norm_num) hA))
  simp only [rawDistance] at this
  simpa using this

theorem onDrag_handleDistance_of_le (fmt : ℝ → String) (x y : ℝ) (v : View ℝ) (s : State ℝ)
    (hs : s.isDragging = true)
    (hd : rawDistance (Host.mk Real.sqrt Real.exp fmt) x y v s ≤ 50) :
    handleDistance (Host.mk Real.sqrt Real.exp fmt)
        (onDrag (Host.mk Real.sqrt Real.exp fmt) x y v s)
      = rawDistance (Host.mk Real.sqrt Real.exp fmt) x y v s := by
  obtain ⟨hx, hy⟩ := onDrag_handle_of_le (Host.mk Real.sqrt Real.exp fmt) x y v s hs hd
  unfold handleDistance rawDistance
  rw [hx, hy]

/-- In exact real arithmetic (`Math.exp` as `Real.exp`, which is never 0) the
handle stays strictly below `CORD_MAX_LENGTH` after `onDrag`, at the
rubber-banded distance when the raw distance exceeds 50 and at the raw
distance otherwise. -/
theorem onDrag_distance_lt_max (fmt : ℝ → String) (x y : ℝ) (v : View ℝ) (s : State ℝ)
    (hs : s.isDragging = true) :
    handleDistance (Host.mk Real.sqrt Real.exp fmt)
        (onDrag (Host.mk Real.sqrt Real.exp fmt) x y v s) < CORD_MAX_LENGTH ∧
    (∀ d : ℝ, 50 < d →
      actualDistance (Host.mk Real.sqrt Real.exp fmt) d
          = 50 + 50 * (1 - Real.exp (-(d - 50) / 50)) ∧
      actualDistance (Host.mk Real.sqrt Real.exp fmt) d < 100) ∧
    (50 < rawDistance (Host.mk Real.sqrt Real.exp fmt) x y v s →
      handleDistance (Host.mk Real.sqrt Real.exp fmt)
          (onDrag (Host.mk Real.sqrt Real.exp fmt) x y v s)
        = actualDistance (Host.mk Real.sqrt Real.exp fmt)
            (rawDistance (Host.mk Real.sqrt Real.exp fmt) x y v s)) ∧
    (rawDistance (Host.mk Real.sqrt Real.exp fmt) x y v s ≤ 50 →
      handleDistance (Host.mk Real.sqrt Real.exp fmt)
          (onDrag (Host.mk Real.sqrt Real.exp fmt) x y v s)
        = rawDistance (Host.mk Real.sqrt Real.exp fmt) x y v s) := by
  refine ⟨?_, fun d _ => ⟨actualDistance_real fmt d, actualDistance_real_lt fmt d⟩,
    onDrag_handleDistance_of_gt fmt x y v s hs, onDrag_handleDistance_of_le fmt x y v s hs⟩
  rcases lt_or_le 50 (rawDistance (Host.mk Real.sqrt Real.exp fmt) x y v s) with hd | hd
  · rw [onDrag_handleDistance_of_gt fmt x y v s hs hd]
    exact actualDistance_real_lt fmt _
  · rw [onDrag_handleDistance_of_le fmt x y v s hs hd]
    show rawDistance (Host.mk Real.sqrt Real.exp fmt) x y v s < 100
    linarith

/-- In exact real arithmetic (`Math.exp` as `Real.exp`, strictly increasing)
the rubber-band mapping is strictly increasing on raw distances above 50. -/
theorem actualDistance_strictly_increasing (fmt : ℝ → String) (d1 d2 : ℝ)
    (h1 : 50 < d1) (h12 : d1 < d2) :
    actualDistance (Host.mk Real.sqrt Real.exp fmt) d1
        = 50 + 50 * (1 - Real.exp (-(d1 - 50) / 50)) ∧
    actualDistance (Host.mk Real.sqrt Real.exp fmt) d2
        = 50 + 50 * (1 - Real.exp (-(d2 - 50) / 50)) ∧
    50 < actualDistance (Host.mk Real.sqrt Real.exp fmt) d1 ∧
    actualDistance (Host.mk Real.sqrt Real.exp fmt) d1
        < actualDistance (Host.mk Real.sqrt Real.exp fmt) d2 := by
  refine ⟨actualDistance_real fmt d1, actualDistance_real fmt d2,
    actualDistance_real_gt fmt d1 h1, ?_⟩
  rw [actualDistance_real, actualDistance_real]
  have hlt : Real.exp (-(d2 - 50) / 50) < Real.exp (-(d1 - 50) / 50) := by
    rw [Real.exp_lt_exp]
    have e1 : -(d1 - 50) / 50 = -((d1 - 50) / 50) := neg_div _ _
    have e2 : -(d2 - 50) / 50 = -((d2 - 50) / 50) := neg_div _ _
    have : (d1 - 50) / 50 < (d2 - 50) / 50 :=
      div_lt_div_of_pos_right (by linarith) (by norm_num)
    linarith
  linarith

/-! ## The threshold flag along a drag session -/

section DragToggle
variable {K : Type} [LinearOrderedField K]

theorem onDragP_flags (h : Host K) (s : State K) (p : Pointer K) (hs : s.isDragging = true) :
    (onDragP h s p).isDragging = true ∧
    (onDragP h s p).hasCrossedThreshold
      = (s.hasCrossedThreshold || decide (TOGGLE_THRESHOLD < rawDistanceP h s p)) ∧
    (onDragP h s p).toggleCalls
      = if TOGGLE_THRESHOLD < rawDistanceP h s p ∧ s.hasCrossedThreshold = false
        then s.toggleCalls + 1 else s.toggleCalls := by
  unfold onDragP rawDistanceP onDrag
  simp only [hs, Bool.not_true, Bool.false_eq_true, if_false, gt_iff_lt]
  by_cases hd : TOGGLE_THRESHOLD < rawDistance h p.clientX p.clientY p.view s <;>
    by_cases hc : s.hasCrossedThreshold = true <;>
    by_cases hl : CORD_LENGTH < rawDistance h p.clientX p.clientY p.view s <;>
    simp [hd, hc, hl, hs]

theorem endDrag_toggleCalls (h : Host K) (s : State K) :
    (endDrag h s).toggleCalls = s.toggleCalls := by
  unfold endDrag startPhysicsAnimation
  by_cases h1 : s.isDragging = true <;> by_cases h2 : s.didDrag = true <;>
    simp [h1, h2]
  split_ifs <;> rfl

theorem updates_cons (h : Host K) (s : State K) (p : Pointer K) (ps : List (Pointer K)) :
    updates h s (p :: ps) = updates h (onDragP h s p) ps := rfl

theorem updates_isDragging (h : Host K) (ps : List (Pointer K)) :
    ∀ s : State K, s.isDragging = true → (updates h s ps).isDragging = true := by
  induction ps with
  | nil => intro s hs; exact hs
  | cons p ps ih =>
    intro s hs
    rw [updates_cons]
    exact ih _ (onDragP_flags h s p hs).1

/-- Once the flag is set no further update of the session toggles. -/
theorem updates_after_crossing (h : Host K) (ps : List (Pointer K)) :
    ∀ s : State K, s.isDragging = true → s.hasCrossedThreshold = true →
      (updates h s ps).toggleCalls = s.toggleCalls ∧
      (updates h s ps).hasCrossedThreshold = true := by
  induction ps with
  | nil => intro s _ hc; exact ⟨rfl, hc⟩
  | cons p ps ih =>
    intro s hs hc
    obtain ⟨h1, h2, h3⟩ := onDragP_flags h s p hs
    rw [updates_cons]
    have hc' : (onDragP h s p).hasCrossedThreshold = true := by rw [h2, hc]; rfl
    obtain ⟨i1, i2⟩ := ih _ h1 hc'
    refine ⟨?_, i2⟩
    rw [i1, h3, hc]
    simp

/-- While the flag is clear, the session has toggled exactly when some raw
distance so far exceeded the threshold, and then exactly once. -/
theorem updates_before_crossing (h : Host K) (ps : List (Pointer K)) :
    ∀ s : State K, s.isDragging = true → s.hasCrossedThreshold = false →
      ((∀ d ∈ rawDistances h s ps, d ≤ TOGGLE_THRESHOLD) ∧
        (updates h s ps).toggleCalls = s.toggleCalls ∧
        (updates h s ps).hasCrossedThreshold = false) ∨
      ((∃ d ∈ rawDistances h s ps, TOGGLE_THRESHOLD < d) ∧
        (updates h s ps).toggleCalls = s.toggleCalls + 1 ∧
        (updates h s ps).hasCrossedThreshold = true) := by
  induction ps with
  | nil =>
    intro s _ hc
    left
    exact ⟨by simp [rawDistances], rfl, hc⟩
  | cons p ps ih =>
    intro s hs hc
    obtain ⟨h1, h2, h3⟩ := onDragP_flags h s p hs
    rw [updates_cons]
    by_cases hd : TOGGLE_THRESHOLD < rawDistanceP h s p
    · right
      have hc' : (onDragP h s p).hasCrossedThreshold = true := by rw [h2, hc]; simp [hd]
      obtain ⟨i1, i2⟩ := updates_after_crossing h ps _ h1 hc'
      refine ⟨⟨_, by simp [rawDistances], hd⟩, ?_, i2⟩
      rw [i1, h3]
      simp [hd, hc]
    · have hc' : (onDragP h s p).hasCrossedThreshold = false := by rw [h2, hc]; simp [hd]
      have ht : (onDragP h s p).toggleCalls = s.toggleCalls := by rw [h3]; simp [hd]
      rcases ih _ h1 hc' with ⟨a, b, c⟩ | ⟨⟨d, hdm, hdl⟩, b, c⟩
      · left
        refine ⟨?_, by rw [b, ht], c⟩
        intro d hdm
        simp only [rawDistances, List.mem_cons] at hdm
        rcases hdm with rfl | hdm
        · exact not_lt.mp hd
        · exact a d hdm
      · right
        refine ⟨⟨d, by simp [rawDistances, hdm], hdl⟩, by rw [b, ht], c⟩

end DragToggle

section DragSession
variable {K : Type} [LinearOrderedField K]

/-- The update at the first index whose raw distance exceeds the threshold is
the one that toggles. -/
theorem updates_first_crossing (h : Host K) (ps : List (Pointer K)) :
    ∀ (s : State K) (i : Nat) (d : K), s.isDragging = true → s.hasCrossedThreshold = false →
      (rawDistances h s ps)[i]? = some d → TOGGLE_THRESHOLD < d →
      (∀ j e, j < i → (rawDistances h s ps)[j]? = some e → e ≤ TOGGLE_THRESHOLD) →
      (updates h s (ps.take i)).toggleCalls = s.toggleCalls ∧
      (updates h s (ps.take (i + 1))).toggleCalls = s.toggleCalls + 1 := by
  induction ps with
  | nil => intro s i d _ _ hi; simp [rawDistances] at hi
  | cons p ps ih =>
    intro s i d hs hc hi hd hbefore
    obtain ⟨h1, h2, h3⟩ := onDragP_flags h s p hs
    cases i with
    | zero =>
      simp only [rawDistances, List.getElem?_cons_zero, Option.some.injEq] at hi
      subst hi
      refine ⟨rfl, ?_⟩
      simp only [List.take_succ_cons, List.take_zero, updates, List.foldl_cons, List.foldl_nil]
      rw [h3]
      simp [hd, hc]
    | succ i =>
      have hp : rawDistanceP h s p ≤ TOGGLE_THRESHOLD :=
        hbefore 0 _ (Nat.succ_pos i) (by simp [rawDistances])
      have hc' : (onDragP h s p).hasCrossedThreshold = false := by
        rw [h2, hc]; simp [not_lt.mpr hp]
      have ht : (onDragP h s p).toggleCalls = s.toggleCalls := by
        rw [h3]; simp [not_lt.mpr hp]
      have hi' : (rawDistances h (onDragP h s p) ps)[i]? = some d := by
        simpa [rawDistances] using hi
      have hb' : ∀ j e, j < i → (rawDistances h (onDragP h s p) ps)[j]? = some e →
          e ≤ TOGGLE_THRESHOLD := by
        intro j e hj hje
        exact hbefore (j + 1) e (Nat.succ_lt_succ hj) (by simpa [rawDistances] using hje)
      obtain ⟨a, b⟩ := ih _ i d h1 hc' hi' hd hb'
      rw [ht] at a b
      exact ⟨by simpa [updates] using a, by simpa [updates] using b⟩

end DragSession

/-- C2: within one drag session (`startDrag`, any finite sequence of `onDrag`
updates, `endDrag`) `toggleMode` is invoked at most once; it is invoked
exactly once iff some update of the session has raw distance above
`TOGGLE_THRESHOLD = 75`, and then by the first such update (no call before
it, one call after it). -/
theorem dragSession_toggles_at_most_once {K : Type} [LinearOrderedField K]
    (h : Host K) (s : State K) (p0 : Pointer K) (ps : List (Pointer K)) :
    (dragSession h s p0 ps).toggleCalls ≤ s.toggleCalls + 1 ∧
    ((dragSession h s p0 ps).toggleCalls = s.toggleCalls + 1 ↔
      ∃ d ∈ rawDistances h (startDrag p0.clientX p0.clientY p0.view s) ps, 75 < d) ∧
    ((dragSession h s p0 ps).toggleCalls = s.toggleCalls ↔
      ∀ d ∈ rawDistances h (startDrag p0.clientX p0.clientY p0.view s) ps, d ≤ 75) ∧
    (∀ (i : Nat) (d : K),
      (rawDistances h (startDrag p0.clientX p0.clientY p0.view s) ps)[i]? = some d → 75 < d →
      (∀ j e, j < i →
        (rawDistances h (startDrag p0.clientX p0.clientY p0.view s) ps)[j]? = some e → e ≤ 75) →
      (updates h (startDrag p0.clientX p0.clientY p0.view s) (ps.take i)).toggleCalls
          = s.toggleCalls ∧
      (updates h (startDrag p0.clientX p0.clientY p0.view s) (ps.take (i + 1))).toggleCalls
          = s.toggleCalls + 1) := by
  have hs0 : (startDrag p0.clientX p0.clientY p0.view s).isDragging = true := rfl
  have hc0 : (startDrag p0.clientX p0.clientY p0.view s).hasCrossedThreshold = false := rfl
  have ht0 : (startDrag p0.clientX p0.clientY p0.view s).toggleCalls = s.toggleCalls := rfl
  have hend : (dragSession h s p0 ps).toggleCalls
      = (updates h (startDrag p0.clientX p0.clientY p0.view s) ps).toggleCalls :=
    endDrag_toggleCalls h _
  refine ⟨?_, ?_, ?_, ?_⟩
  · rw [hend]
    rcases updates_before_crossing h ps _ hs0 hc0 with ⟨_, b, _⟩ | ⟨_, b, _⟩ <;> omega
  · rw [hend]
    rcases updates_before_crossing h ps _ hs0 hc0 with ⟨a, b, _⟩ | ⟨a, b, _⟩
    · rw [b, ht0]
      constructor
      · intro hk; omega
      · rintro ⟨d, hdm, hd⟩
        exact absurd (a d hdm) (not_le.mpr hd)
    · rw [b, ht0]
      exact ⟨fun _ => a, fun _ => rfl⟩
  · rw [hend]
    rcases updates_before_crossing h ps _ hs0 hc0 with ⟨a, b, _⟩ | ⟨⟨d, hdm, hd⟩, b, _⟩
    · rw [b, ht0]
      exact ⟨fun _ => a, fun _ => rfl⟩
    · rw [b, ht0]
      constructor
      · intro hk; omega
      · intro hall
        exact absurd (hall d hdm) (not_le.mpr hd)
  · intro i d hi hd hbefore
    have := updates_first_crossing h ps _ i d hs0 hc0 hi hd hbefore
    rw [ht0] at this
    exact this

/-! ## The rest-length constraint of the physics step -/

theorem sqrt_rest : Real.sqrt ((50 - 50) * (50 - 50) + (0 + 50 - 0) * (0 + 50 - 0)) = (50 : ℝ) := by
  have : ((50 : ℝ) - 50) * (50 - 50) + (0 + 50 - 0) * (0 + 50 - 0) = 50 * 50 := by norm_num
  rw [this]
  exact Real.sqrt_mul_self (by norm_num)

theorem integrate_distance_le (fmt : ℝ → String) (s : State ℝ) :
    handleDistance (Host.mk Real.sqrt Real.exp fmt)
      (integrate (Host.mk Real.sqrt Real.exp fmt) s) ≤ CORD_LENGTH := by
  unfold integrate
  simp only [gt_iff_lt]
  split_ifs with h1 h2
  · simp only [handleDistance]
    have hr : 0 < Real.sqrt ((s.handleX + s.velocityX * DAMPING - ANCHOR_X)
          * (s.handleX + s.velocityX * DAMPING - ANCHOR_X)
        + (s.handleY + (s.velocityY + GRAVITY) * DAMPING - ANCHOR_Y)
          * (s.handleY + (s.velocityY + GRAVITY) * DAMPING - ANCHOR_Y)) :=
      lt_trans (by norm_num) h1
    have := sqrt_rescale _ _ (50 : ℝ) hr (by norm_num)
    simp only [add_sub_cancel_left]
    exact le_of_eq this
  · simp only [handleDistance]
    have hr : 0 < Real.sqrt ((s.handleX + s.velocityX * DAMPING - ANCHOR_X)
          * (s.handleX + s.velocityX * DAMPING - ANCHOR_X)
        + (s.handleY + (s.velocityY + GRAVITY) * DAMPING - ANCHOR_Y)
          * (s.handleY + (s.velocityY + GRAVITY) * DAMPING - ANCHOR_Y)) :=
      lt_trans (by norm_num) h1
    have := sqrt_rescale _ _ (50 : ℝ) hr (by norm_num)
    simp only [add_sub_cancel_left]
    exact le_of_eq this
  · simp only [handleDistance]
    exact not_lt.mp h1

/-! ## The hand-off from a drag to the physics loop -/

section HandOff
variable {K : Type} [LinearOrderedField K]

theorem onDrag_didDrag (h : Host K) (x y : K) (v : View K) (s : State K)
    (hs : s.isDragging = true) : (onDrag h x y v s).didDrag = true := by
  unfold onDrag
  simp only [hs, Bool.not_true, Bool.false_eq_true, if_false]
  split_ifs <;> rfl

theorem onDrag_isDragging (h : Host K) (x y : K) (v : View K) (s : State K) :
    (onDrag h x y v s).isDragging = s.isDragging := by
  unfold onDrag
  dsimp only
  split_ifs <;> rfl

theorem onDrag_frameQueue (h : Host K) (x y : K) (v : View K) (s : State K) :
    (onDrag h x y v s).frameQueue = s.frameQueue := by
  unfold onDrag
  dsimp only
  split_ifs <;> rfl

theorem onDrag_isAnimating (h : Host K) (x y : K) (v : View K) (s : State K) :
    (onDrag h x y v s).isAnimating = s.isAnimating := by
  unfold onDrag
  dsimp only
  split_ifs <;> rfl

theorem onDrag_velocity (h : Host K) (x y : K) (v : View K) (s : State K) :
    (onDrag h x y v s).velocityX = s.velocityX ∧ (onDrag h x y v s).velocityY = s.velocityY := by
  unfold onDrag
  dsimp only
  split_ifs <;> exact ⟨rfl, rfl⟩

theorem endDrag_handle (h : Host K) (s : State K) :
    (endDrag h s).handleX = s.handleX ∧ (endDrag h s).handleY = s.handleY := by
  unfold endDrag startPhysicsAnimation
  dsimp only
  split_ifs <;> exact ⟨rfl, rfl⟩

/-- A drag with movement ends by starting the physics loop. -/
theorem endDrag_of_dragged (h : Host K) (s : State K)
    (hs : s.isDragging = true) (hd : s.didDrag = true) :
    (endDrag h s).isDragging = false ∧ (endDrag h s).isAnimating = true ∧
    (endDrag h s).frameQueue = s.frameQueue ++ [FrameCallback.animate] := by
  unfold endDrag startPhysicsAnimation
  simp only [hs, hd, Bool.not_true, Bool.false_eq_true, if_false]
  split_ifs <;> simp

theorem handleDistance_congr (h : Host K) (s t : State K)
    (hx : s.handleX = t.handleX) (hy : s.handleY = t.handleY) :
    handleDistance h s = handleDistance h t := by
  unfold handleDistance
  rw [hx, hy]

end HandOff

/-- The raw distance of the worked drag: pressed on the resting handle, pulled
straight down to y = 150. -/
theorem rawDistance_sample (fmt : ℝ → String) :
    rawDistance (Host.mk Real.sqrt Real.exp fmt) 50 150 sampleView
      (startDrag 50 50 sampleView initialState) = 150 := by
  have h0 : max (0 : ℝ) (150 - 0 - (50 - 0 - 50) * (1 - 0.1)) = 150 := by norm_num
  simp only [rawDistance, rawX, rawY, decayedOffset, startDrag, initialState, sampleView, h0]
  have : ((50 : ℝ) - 0 - (50 - 0 - 50) * (1 - 0.1) - 50) * (50 - 0 - (50 - 0 - 50) * (1 - 0.1) - 50)
      + (150 - 0) * (150 - 0) = 150 * 150 := by norm_num
  rw [this]
  exact Real.sqrt_mul_self (by norm_num)

/-- The state in which the worked drag hands over to the physics loop. -/
theorem dragSession_sample (fmt : ℝ → String) :
    (dragSession (Host.mk Real.sqrt Real.exp fmt) initialState
        ⟨50, 50, sampleView⟩ [⟨50, 150, sampleView⟩]).isDragging = false ∧
    (dragSession (Host.mk Real.sqrt Real.exp fmt) initialState
        ⟨50, 50, sampleView⟩ [⟨50, 150, sampleView⟩]).isAnimating = true ∧
    (dragSession (Host.mk Real.sqrt Real.exp fmt) initialState
        ⟨50, 50, sampleView⟩ [⟨50, 150, sampleView⟩]).frameQueue = [FrameCallback.animate] ∧
    CORD_LENGTH < handleDistance (Host.mk Real.sqrt Real.exp fmt)
      (dragSession (Host.mk Real.sqrt Real.exp fmt) initialState
        ⟨50, 50, sampleView⟩ [⟨50, 150, sampleView⟩]) := by
  have hs0 : (startDrag 50 50 sampleView (initialState : State ℝ)).isDragging = true := rfl
  have hdrag := onDrag_isDragging (Host.mk Real.sqrt Real.exp fmt) 50 150 sampleView
    (startDrag 50 50 sampleView initialState)
  have hdid := onDrag_didDrag (Host.mk Real.sqrt Real.exp fmt) 50 150 sampleView
    (startDrag 50 50 sampleView initialState) hs0
  have hq := onDrag_frameQueue (Host.mk Real.sqrt Real.exp fmt) 50 150 sampleView
    (startDrag 50 50 sampleView initialState)
  obtain ⟨e1, e2, e3⟩ := endDrag_of_dragged (Host.mk Real.sqrt Real.exp fmt) _
    (hdrag.trans hs0) hdid
  obtain ⟨ex, ey⟩ := endDrag_handle (Host.mk Real.sqrt Real.exp fmt)
    (onDrag (Host.mk Real.sqrt Real.exp fmt) 50 150 sampleView
      (startDrag 50 50 sampleView initialState))
  refine ⟨e1, e2, ?_, ?_⟩
  · show (endDrag _ (onDrag _ 50 150 sampleView (startDrag 50 50 sampleView initialState))).frameQueue
      = [FrameCallback.animate]
    rw [e3, hq]
    rfl
  · have hr := rawDistance_sample fmt
    have hgt : (50 : ℝ) < rawDistance (Host.mk Real.sqrt Real.exp fmt) 50 150 sampleView
        (startDrag 50 50 sampleView initialState) := by rw [hr]; norm_num
    have hd := onDrag_handleDistance_of_gt fmt 50 150 sampleView _ hs0 hgt
    have hA := actualDistance_real_gt fmt _ hgt
    have hc := handleDistance_congr (Host.mk Real.sqrt Real.exp fmt) _ _ ex ey
    show (50 : ℝ) < handleDistance _
      (endDrag _ (onDrag _ 50 150 sampleView (startDrag 50 50 sampleView initialState)))
    rw [hc, hd]
    exact hA

/-- C3, as stated, fails at the hand-off: when the worked drag (handle pulled
to raw distance 150) is released, the physics loop is in control
(`isAnimating`, one `animate` frame requested, no drag) and the handle is
still further than the rest length from the anchor. -/
theorem handoff_beyond_rest_length :
    (dragSession (Host.mk Real.sqrt Real.exp (fun _ => "")) initialState
        ⟨50, 50, sampleView⟩ [⟨50, 150, sampleView⟩]).isDragging = false ∧
    (dragSession (Host.mk Real.sqrt Real.exp (fun _ => "")) initialState
        ⟨50, 50, sampleView⟩ [⟨50, 150, sampleView⟩]).isAnimating = true ∧
    (dragSession (Host.mk Real.sqrt Real.exp (fun _ => "")) initialState
        ⟨50, 50, sampleView⟩ [⟨50, 150, sampleView⟩]).frameQueue = [FrameCallback.animate] ∧
    ¬ handleDistance (Host.mk Real.sqrt Real.exp (fun _ => ""))
      (dragSession (Host.mk Real.sqrt Real.exp (fun _ => "")) initialState
        ⟨50, 50, sampleView⟩ [⟨50, 150, sampleView⟩]) ≤ CORD_LENGTH := by
  obtain ⟨a, b, c, d⟩ := dragSession_sample (fun _ => "")
  exact ⟨a, b, c, not_le.mpr d⟩

/-- C3, amended: the hand-off in `endDrag` does not move the handle (it stays
where the drag left it, so its distance from the anchor is the one the drag
left); every step of the physics `animate` function that runs while no drag is
active leaves the handle at distance at most the rest length
`CORD_LENGTH = 50` from the anchor, for every handle position and velocity
before the step. -/
theorem animate_distance_le_rest (fmt : ℝ → String) (s : State ℝ)
    (hs : s.isDragging = false) :
    handleDistance (Host.mk Real.sqrt Real.exp fmt)
      (animate (Host.mk Real.sqrt Real.exp fmt) s) ≤ CORD_LENGTH ∧
    (∀ t : State ℝ,
      (endDrag (Host.mk Real.sqrt Real.exp fmt) t).handleX = t.handleX ∧
      (endDrag (Host.mk Real.sqrt Real.exp fmt) t).handleY = t.handleY ∧
      handleDistance (Host.mk Real.sqrt Real.exp fmt)
          (endDrag (Host.mk Real.sqrt Real.exp fmt) t)
        = handleDistance (Host.mk Real.sqrt Real.exp fmt) t) := by
  constructor
  · unfold animate
    simp only [hs, Bool.false_eq_true, if_false]
    split_ifs with h1
    · simp only [handleDistance]
      exact le_of_eq sqrt_rest
    · exact integrate_distance_le fmt s
  · intro t
    obtain ⟨a, b⟩ := endDrag_handle (Host.mk Real.sqrt Real.exp fmt) t
    exact ⟨a, b, handleDistance_congr _ _ _ a b⟩

/-- Witness for the amended C3: the first physics step after the worked drag. -/
theorem animate_distance_le_rest_witness :
    (dragSession (Host.mk Real.sqrt Real.exp (fun _ => "")) initialState
        ⟨50, 50, sampleView⟩ [⟨50, 150, sampleView⟩]).isDragging = false ∧
    handleDistance (Host.mk Real.sqrt Real.exp (fun _ => ""))
      (animate (Host.mk Real.sqrt Real.exp (fun _ => ""))
        (dragSession (Host.mk Real.sqrt Real.exp (fun _ => "")) initialState
          ⟨50, 50, sampleView⟩ [⟨50, 150, sampleView⟩])) ≤ CORD_LENGTH :=
  ⟨(dragSession_sample (fun _ => "")).1,
    (animate_distance_le_rest (fun _ => "") _ (dragSession_sample (fun _ => "")).1).1⟩

/-! ## The click-pull tween, frame by frame -/

section PullFrames
variable {K : Type} [LinearOrderedField K]

theorem runFrame_down (h : Host K) (v : View K) (t : K) (s : State K) (c : PullClosure K)
    (hq : s.frameQueue = [FrameCallback.animateDown c]) :
    runFrame h v t s = animateDown h v c t { s with frameQueue := [] } := by
  simp [runFrame, runCallback, hq]

theorem runFrame_up (h : Host K) (v : View K) (t : K) (s : State K) (c : PullClosure K)
    (hq : s.frameQueue = [FrameCallback.animateUp c]) :
    runFrame h v t s = animateUp c t { s with frameQueue := [] } := by
  simp [runFrame, runCallback, hq]

theorem runFrame_idle (h : Host K) (v : View K) (t : K) (s : State K)
    (hq : s.frameQueue = []) : runFrame h v t s = s := by
  cases s
  simp_all [runFrame]

/-- A pull-down frame below progress 1 requests another pull-down frame and
does not toggle. -/
theorem animateDown_of_lt (h : Host K) (v : View K) (c : PullClosure K) (t : K) (s : State K)
    (hp : downProgress c t < 1) :
    (animateDown h v c t s).frameQueue = s.frameQueue ++
      [FrameCallback.animateDown
        { c with downStartTime := some (startTimeOr c.downStartTime t) }] ∧
    (animateDown h v c t s).toggleCalls = s.toggleCalls ∧
    (animateDown h v c t s).isAnimating = s.isAnimating ∧
    (animateDown h v c t s).isDarkMode = s.isDarkMode := by
  unfold animateDown
  simp [hp]

/-- The pull-down frame that reaches progress 1 toggles once and requests the
first pull-up frame. -/
theorem animateDown_of_not_lt (h : Host K) (v : View K) (c : PullClosure K) (t : K)
    (s : State K) (hp : ¬ downProgress c t < 1) :
    (animateDown h v c t s).frameQueue = s.frameQueue ++
      [FrameCallback.animateUp
        { c with downStartTime := some (startTimeOr c.downStartTime t) }] ∧
    (animateDown h v c t s).toggleCalls = s.toggleCalls + 1 ∧
    (animateDown h v c t s).isAnimating = s.isAnimating ∧
    (animateDown h v c t s).isDarkMode = !s.isDarkMode := by
  unfold animateDown
  simp [hp]

theorem animateUp_of_lt (c : PullClosure K) (t : K) (s : State K)
    (hp : upProgress c t < 1) :
    (animateUp c t s).frameQueue = s.frameQueue ++
      [FrameCallback.animateUp { c with upStartTime := some (startTimeOr c.upStartTime t) }] ∧
    (animateUp c t s).toggleCalls = s.toggleCalls ∧
    (animateUp c t s).isAnimating = s.isAnimating := by
  unfold animateUp
  simp [hp]

theorem animateUp_of_not_lt (c : PullClosure K) (t : K) (s : State K)
    (hp : ¬ upProgress c t < 1) :
    (animateUp c t s).frameQueue = s.frameQueue ∧
    (animateUp c t s).toggleCalls = s.toggleCalls ∧
    (animateUp c t s).isAnimating = false ∧
    (animateUp c t s).handleX = ANCHOR_X ∧ (animateUp c t s).handleY = CORD_LENGTH := by
  unfold animateUp
  simp [hp]

theorem downProgress_le_one (c : PullClosure K) (t : K) : downProgress c t ≤ 1 :=
  min_le_right _ _

theorem upProgress_le_one (c : PullClosure K) (t : K) : upProgress c t ≤ 1 :=
  min_le_right _ _

end PullFrames

section PullPhases
variable {K : Type} [LinearOrderedField K]

theorem pullPhase_frame (h : Host K) (n : Nat) (f : Frame K) (e : State K)
    (he : InPullDown n e ∨ InPullUp n e ∨ PullDone n e) :
    InPullDown n (runFrame h f.view f.time e) ∨ InPullUp n (runFrame h f.view f.time e) ∨
      PullDone n (runFrame h f.view f.time e) := by
  rcases he with ⟨c, hq, ha, ht⟩ | ⟨c, hq, ha, ht⟩ | ⟨hq, ha, ht, hx, hy⟩
  · rw [runFrame_down h f.view f.time e c hq]
    by_cases hp : downProgress c f.time < 1
    · obtain ⟨a, b, d, _⟩ := animateDown_of_lt h f.view c f.time { e with frameQueue := [] } hp
      left
      exact ⟨_, by simpa using a, by simpa [ha] using d, by simpa [ht] using b⟩
    · obtain ⟨a, b, d, _⟩ := animateDown_of_not_lt h f.view c f.time { e with frameQueue := [] } hp
      right; left
      exact ⟨_, by simpa using a, by simpa [ha] using d, by simpa [ht] using b⟩
  · rw [runFrame_up h f.view f.time e c hq]
    by_cases hp : upProgress c f.time < 1
    · obtain ⟨a, b, d⟩ := animateUp_of_lt c f.time { e with frameQueue := [] } hp
      right; left
      exact ⟨_, by simpa using a, by simpa [ha] using d, by simpa [ht] using b⟩
    · obtain ⟨a, b, d, x, y⟩ := animateUp_of_not_lt c f.time { e with frameQueue := [] } hp
      right; right
      exact ⟨by simpa using a, d, by simpa [ht] using b, x, y⟩
  · rw [runFrame_idle h f.view f.time e hq]
    right; right
    exact ⟨hq, ha, ht, hx, hy⟩

theorem pullPhase_frames (h : Host K) (n : Nat) (frames : List (Frame K)) :
    ∀ e : State K, (InPullDown n e ∨ InPullUp n e ∨ PullDone n e) →
      (InPullDown n (frames.foldl (fun st f => runFrame h f.view f.time st) e) ∨
        InPullUp n (frames.foldl (fun st f => runFrame h f.view f.time st) e) ∨
        PullDone n (frames.foldl (fun st f => runFrame h f.view f.time st) e)) := by
  induction frames with
  | nil => intro e he; exact he
  | cons f fs ih =>
    intro e he
    exact ih _ (pullPhase_frame h n f e he)

omit [LinearOrderedField K] in
theorem animatePull_inPullDown (s : State K) (ha : s.isAnimating = false)
    (hq : s.frameQueue = []) : InPullDown s.toggleCalls (animatePull s) := by
  refine ⟨{ startY := s.handleY, downStartTime := none, upStartTime := none }, ?_, ?_, ?_⟩ <;>
    simp [animatePull, ha, hq]

theorem pullRun_phase (h : Host K) (s : State K) (frames : List (Frame K))
    (ha : s.isAnimating = false) (hq : s.frameQueue = []) :
    InPullDown s.toggleCalls (pullRun h s frames) ∨ InPullUp s.toggleCalls (pullRun h s frames) ∨
      PullDone s.toggleCalls (pullRun h s frames) :=
  pullPhase_frames h _ frames _ (Or.inl (animatePull_inPullDown s ha hq))

end PullPhases

/-- C6: one run of the click-pull animation (`animatePull` called with
`isAnimating = false` and no other loop requested, then any frames) is at
every moment in its pull-down phase with no toggle yet, in its pull-up phase
with exactly one toggle, or complete with exactly one toggle; a run that has
cleared `isAnimating` has invoked `toggleMode` exactly once; the toggle
happens in the pull-down frame whose progress is 1, which requests the first
pull-up frame, and pull-up frames do not toggle; and `animatePull` called
while `isAnimating` is true returns the state unchanged (nothing requested). -/
theorem pull_toggles_exactly_once {K : Type} [LinearOrderedField K]
    (h : Host K) (s : State K) (frames : List (Frame K))
    (ha : s.isAnimating = false) (hq : s.frameQueue = []) :
    (InPullDown s.toggleCalls (pullRun h s frames) ∨ InPullUp s.toggleCalls (pullRun h s frames) ∨
      PullDone s.toggleCalls (pullRun h s frames)) ∧
    ((pullRun h s frames).isAnimating = false →
      (pullRun h s frames).toggleCalls = s.toggleCalls + 1) ∧
    (pullRun h s frames).toggleCalls ≤ s.toggleCalls + 1 ∧
    (∀ (f : Frame K) (c : PullClosure K),
      (pullRun h s frames).frameQueue = [FrameCallback.animateDown c] →
      (downProgress c f.time < 1 →
        InPullDown s.toggleCalls (pullRun h s (frames ++ [f]))) ∧
      (downProgress c f.time = 1 →
        InPullUp s.toggleCalls (pullRun h s (frames ++ [f])))) ∧
    (∀ (f : Frame K) (c : PullClosure K),
      (pullRun h s frames).frameQueue = [FrameCallback.animateUp c] →
      (pullRun h s frames).toggleCalls = s.toggleCalls + 1 ∧
      (pullRun h s (frames ++ [f])).toggleCalls = s.toggleCalls + 1) ∧
    (∀ s' : State K, s'.isAnimating = true → animatePull s' = s') := by
  have hph := pullRun_phase h s frames ha hq
  have hstep : ∀ f : Frame K, pullRun h s (frames ++ [f])
      = runFrame h f.view f.time (pullRun h s frames) := by
    intro f
    simp [pullRun, List.foldl_append]
  refine ⟨hph, ?_, ?_, ?_, ?_, ?_⟩
  · intro hdone
    rcases hph with ⟨c, _, a, _⟩ | ⟨c, _, a, _⟩ | ⟨_, _, t, _⟩
    · rw [a] at hdone; exact absurd hdone (by simp)
    · rw [a] at hdone; exact absurd hdone (by simp)
    · exact t
  · rcases hph with ⟨c, _, _, t⟩ | ⟨c, _, _, t⟩ | ⟨_, _, t, _⟩ <;> omega
  · intro f c hc
    have hdown : (pullRun h s frames).isAnimating = true ∧
        (pullRun h s frames).toggleCalls = s.toggleCalls := by
      rcases hph with ⟨c', _, a, t⟩ | ⟨c', q, _, _⟩ | ⟨q, _, _, _⟩
      · exact ⟨a, t⟩
      · rw [q] at hc; simp at hc
      · rw [q] at hc; simp at hc
    constructor
    · intro hp
      rw [hstep, runFrame_down h f.view f.time _ c hc]
      obtain ⟨a, b, d, _⟩ := animateDown_of_lt h f.view c f.time
        { pullRun h s frames with frameQueue := [] } hp
      exact ⟨_, by simpa using a, by simpa [hdown.1] using d, by simpa [hdown.2] using b⟩
    · intro hp
      rw [hstep, runFrame_down h f.view f.time _ c hc]
      obtain ⟨a, b, d, _⟩ := animateDown_of_not_lt h f.view c f.time
        { pullRun h s frames with frameQueue := [] } (by rw [hp]; exact lt_irrefl 1)
      exact ⟨_, by simpa using a, by simpa [hdown.1] using d, by simpa [hdown.2] using b⟩
  · intro f c hc
    have hup : (pullRun h s frames).toggleCalls = s.toggleCalls + 1 := by
      rcases hph with ⟨c', q, _, _⟩ | ⟨c', _, _, t⟩ | ⟨_, _, t, _⟩
      · rw [q] at hc; simp at hc
      · exact t
      · exact t
    refine ⟨hup, ?_⟩
    rw [hstep, runFrame_up h f.view f.time _ c hc]
    by_cases hp : upProgress c f.time < 1
    · obtain ⟨_, b, _⟩ := animateUp_of_lt c f.time { pullRun h s frames with frameQueue := [] } hp
      simpa [hup] using b
    · obtain ⟨_, b, _⟩ := animateUp_of_not_lt c f.time
        { pullRun h s frames with frameQueue := [] } hp
      simpa [hup] using b
  · intro s' hs'
    simp [animatePull, hs']

/-- Witness for C6: a click on the resting cord followed by the sample frames
runs to completion with one toggle. -/
theorem pull_toggles_exactly_once_witness :
    (initialState : State ℚ).isAnimating = false ∧ (initialState : State ℚ).frameQueue = [] ∧
    (pullRun ratHost initialState sampleFrames).isAnimating = false ∧
    (pullRun ratHost initialState sampleFrames).toggleCalls = 1 :=
  have hdone : (pullRun ratHost initialState sampleFrames).isAnimating = false := by
    norm_num [pullRun, animatePull, initialState, sampleFrames, runFrame, runCallback,
      animateDown, animateUp, downProgress, upProgress, startTimeOr]
  ⟨rfl, rfl, hdone,
    (pull_toggles_exactly_once ratHost initialState sampleFrames rfl rfl).2.1 hdone⟩

/-! ## The duration of the click-pull tween -/

section PullDuration
variable {K : Type} [LinearOrderedField K]

theorem startTimeOr_ge (o : Option K) (t L : K) (ht : L ≤ t)
    (ho : o = none ∨ ∃ x, o = some x ∧ L ≤ x) : L ≤ startTimeOr o t := by
  rcases ho with rfl | ⟨x, rfl, hx⟩
  · exact ht
  · simp only [startTimeOr]
    split_ifs
    · exact ht
    · exact hx

theorem le_of_downProgress_not_lt (c : PullClosure K) (t : K)
    (hp : ¬ downProgress c t < 1) : startTimeOr c.downStartTime t + 75 ≤ t := by
  have h1 : (1 : K) ≤ (t - startTimeOr c.downStartTime t) / CLICK_PULL_DOWN_DURATION := by
    by_contra hlt
    exact hp (lt_of_le_of_lt (min_le_left _ _) (not_le.mp hlt))
  rw [le_div_iff₀ (by norm_num : (0 : K) < CLICK_PULL_DOWN_DURATION)] at h1
  have h2 : (1 : K) * 75 ≤ t - startTimeOr c.downStartTime t := h1
  linarith

theorem le_of_upProgress_not_lt (c : PullClosure K) (t : K)
    (hp : ¬ upProgress c t < 1) : startTimeOr c.upStartTime t + 150 ≤ t := by
  have h1 : (1 : K) ≤ (t - startTimeOr c.upStartTime t) / CLICK_PULL_UP_DURATION := by
    by_contra hlt
    exact hp (lt_of_le_of_lt (min_le_left _ _) (not_le.mp hlt))
  rw [le_div_iff₀ (by norm_num : (0 : K) < CLICK_PULL_UP_DURATION)] at h1
  have h2 : (1 : K) * 150 ≤ t - startTimeOr c.upStartTime t := h1
  linarith

/-- From the pull-up phase with its clock not started before `L`, and no later
frame before `L`, the run ends no earlier than `L + 150`. -/
theorem pullEndTime_up (h : Host K) (fs : List (Frame K)) :
    ∀ (e : State K) (c : PullClosure K) (L T : K),
      e.frameQueue = [FrameCallback.animateUp c] → e.isAnimating = true →
      (c.upStartTime = none ∨ ∃ y, c.upStartTime = some y ∧ L ≤ y) →
      (∀ f ∈ fs, L ≤ f.time) → pullEndTime h e fs = some T → L + 150 ≤ T := by
  induction fs with
  | nil => intro e c L T _ _ _ _ hT; simp [pullEndTime] at hT
  | cons f fs ih =>
    intro e c L T hq ha hc hL hT
    have hf : L ≤ f.time := hL f (List.mem_cons_self _ _)
    have hst := startTimeOr_ge c.upStartTime f.time L hf hc
    simp only [pullEndTime] at hT
    rw [runFrame_up h f.view f.time e c hq] at hT
    by_cases hp : upProgress c f.time < 1
    · obtain ⟨a, _, d⟩ := animateUp_of_lt c f.time { e with frameQueue := [] } hp
      have d' : (animateUp c f.time { e with frameQueue := [] }).isAnimating = true := by
        rw [d]; exact ha
      rw [d'] at hT
      simp only [if_true] at hT
      exact ih _ { c with upStartTime := some (startTimeOr c.upStartTime f.time) } L T
        (by simpa using a) d' (Or.inr ⟨_, rfl, hst⟩)
        (fun g hg => hL g (List.mem_cons_of_mem _ hg)) hT
    · obtain ⟨_, _, d, _⟩ := animateUp_of_not_lt c f.time { e with frameQueue := [] } hp
      rw [d] at hT
      simp only [Bool.false_eq_true, if_false, Option.some.injEq] at hT
      have := le_of_upProgress_not_lt c f.time hp
      rw [← hT]
      linarith

/-- From the pull-down phase with its clock not started before `L`, over
non-decreasing timestamps none of which is before `L`, the run ends no earlier
than `L + 225`. -/
theorem pullEndTime_down (h : Host K) (fs : List (Frame K)) :
    ∀ (e : State K) (c : PullClosure K) (L T : K),
      e.frameQueue = [FrameCallback.animateDown c] → e.isAnimating = true →
      (c.downStartTime = none ∨ ∃ x, c.downStartTime = some x ∧ L ≤ x) →
      c.upStartTime = none →
      (∀ f ∈ fs, L ≤ f.time) → fs.Pairwise (fun a b => a.time ≤ b.time) →
      pullEndTime h e fs = some T → L + 225 ≤ T := by
  induction fs with
  | nil => intro e c L T _ _ _ _ _ _ hT; simp [pullEndTime] at hT
  | cons f fs ih =>
    intro e c L T hq ha hc hu hL hsorted hT
    have hf : L ≤ f.time := hL f (List.mem_cons_self _ _)
    have hst := startTimeOr_ge c.downStartTime f.time L hf hc
    obtain ⟨hhead, htail⟩ := List.pairwise_cons.mp hsorted
    simp only [pullEndTime] at hT
    rw [runFrame_down h f.view f.time e c hq] at hT
    by_cases hp : downProgress c f.time < 1
    · obtain ⟨a, _, d, _⟩ := animateDown_of_lt h f.view c f.time { e with frameQueue := [] } hp
      have d' : (animateDown h f.view c f.time { e with frameQueue := [] }).isAnimating = true := by
        rw [d]; exact ha
      rw [d'] at hT
      simp only [if_true] at hT
      exact ih _ { c with downStartTime := some (startTimeOr c.downStartTime f.time) } L T
        (by simpa using a) d' (Or.inr ⟨_, rfl, hst⟩) hu
        (fun g hg => hL g (List.mem_cons_of_mem _ hg)) htail hT
    · obtain ⟨a, _, d, _⟩ := animateDown_of_not_lt h f.view c f.time
        { e with frameQueue := [] } hp
      have d' : (animateDown h f.view c f.time { e with frameQueue := [] }).isAnimating = true := by
        rw [d]; exact ha
      rw [d'] at hT
      simp only [if_true] at hT
      have hend := le_of_downProgress_not_lt c f.time hp
      have hup := pullEndTime_up h fs _
        { c with downStartTime := some (startTimeOr c.downStartTime f.time) } (L + 75) T
        (by simpa using a) d' (Or.inl hu)
        (fun g hg => le_trans (by linarith) (hhead g hg)) hT
      linarith

end PullDuration

/-- C7, as stated, fails: with frames at 1000, 1080, 1096 and 1250 ms the
click-pull animation started on the resting cord lasts 250 ms from its first
pull-down frame to the frame that clears `isAnimating`, not 225 ms. -/
theorem pull_duration_not_225 :
    pullDuration ratHost initialState sampleFrames = some 250 ∧
    pullDuration ratHost initialState sampleFrames ≠ some 225 := by
  have h : pullDuration ratHost initialState sampleFrames = some 250 := by
    norm_num [pullDuration, pullEndTime, animatePull, initialState, sampleFrames, runFrame,
      runCallback, animateDown, animateUp, downProgress, upProgress, startTimeOr]
  refine ⟨h, ?_⟩
  rw [h]
  norm_num

/-- C7, amended: for every non-decreasing sequence of frame timestamps
delivered to a click-pull animation, the duration from the timestamp of the
first pull-down frame to the timestamp of the frame that snaps the handle to
rest and clears `isAnimating` is at least 225 ms (75 ms pull-down plus 150 ms
pull-up). -/
theorem pull_duration_ge_225 {K : Type} [LinearOrderedField K]
    (h : Host K) (s : State K) (frames : List (Frame K)) (d : K)
    (ha : s.isAnimating = false) (hq : s.frameQueue = [])
    (hsorted : frames.Pairwise (fun a b => a.time ≤ b.time))
    (hd : pullDuration h s frames = some d) : 225 ≤ d := by
  cases frames with
  | nil => simp [pullDuration] at hd
  | cons f fs =>
    simp only [pullDuration, Option.map_eq_some'] at hd
    obtain ⟨T, hT, rfl⟩ := hd
    obtain ⟨hhead, _⟩ := List.pairwise_cons.mp hsorted
    have hall : ∀ g ∈ f :: fs, f.time ≤ g.time := by
      intro g hg
      rcases List.mem_cons.mp hg with rfl | hg
      · exact le_refl _
      · exact hhead g hg
    have := pullEndTime_down h (f :: fs) (animatePull s)
      { startY := s.handleY, downStartTime := none, upStartTime := none } f.time T
      (by simp [animatePull, ha, hq]) (by simp [animatePull, ha]) (Or.inl rfl) rfl hall hsorted hT
    linarith

/-- Witness for the amended C7: the sample frames. -/
theorem pull_duration_ge_225_witness :
    (initialState : State ℚ).isAnimating = false ∧ (initialState : State ℚ).frameQueue = [] ∧
    sampleFrames.Pairwise (fun a b => a.time ≤ b.time) ∧
    pullDuration ratHost initialState sampleFrames = some 250 ∧ (225 : ℚ) ≤ 250 :=
  have hs : sampleFrames.Pairwise (fun a b => a.time ≤ b.time) := by
    norm_num [sampleFrames]
  have hd : pullDuration ratHost initialState sampleFrames = some 250 := by
    norm_num [pullDuration, pullEndTime, animatePull, initialState, sampleFrames, runFrame,
      runCallback, animateDown, animateUp, downProgress, upProgress, startTimeOr]
  ⟨rfl, rfl, hs, hd, pull_duration_ge_225 ratHost initialState sampleFrames 250 rfl rfl hs hd⟩

/-! ## Toggling twice, and toggling during a reveal -/

/-- C8: for every initial mode, two `toggleMode` calls return `isDarkMode` to
its original value, whether the first deferred cleanup runs before or after
the second call; and once both cleanups have run the committed body class is
the original mode, the pending-cleanup count is back where it was, and the
transition styling is at its cleared values (inline stroke and fill empty,
reveal circle width and height `0`, transitions `none`, duplicate SVG clipped
to a circle of radius 0). -/
theorem toggle_twice_restores {K : Type} [LinearOrderedField K]
    (h : Host K) (v1 v2 : View K) (s : State K) :
    (toggleMode h v2 (toggleMode h v1 s)).isDarkMode = s.isDarkMode ∧
    (toggleMode h v2 (fireTimeout (toggleMode h v1 s))).isDarkMode = s.isDarkMode ∧
    (∀ e : State K,
      (e = fireTimeout (fireTimeout (toggleMode h v2 (toggleMode h v1 s))) ∨
        e = fireTimeout (toggleMode h v2 (fireTimeout (toggleMode h v1 s)))) →
      e.isDarkMode = s.isDarkMode ∧ e.dom.bodyDarkMode = s.isDarkMode ∧
      e.timers = s.timers ∧ e.toggleCalls = s.toggleCalls + 2 ∧
      e.dom.cordPathStroke = "" ∧ e.dom.cordHandleFill = "" ∧
      e.dom.cordPathNewStroke = "" ∧ e.dom.cordHandleNewFill = "" ∧
      e.dom.circleWidth = "0" ∧ e.dom.circleHeight = "0" ∧
      e.dom.circleTransition = "none" ∧ e.dom.svgNewTransition = "none" ∧
      e.dom.svgNewClipPath = "circle(0px at 0px 0px)") := by
  refine ⟨by simp, by simp [fireTimeout, cleanup], ?_⟩
  rintro e (rfl | rfl) <;> simp [fireTimeout, cleanup, toggleMode]

/-- C9, as stated, fails: a second `toggleMode` call made while the first
call's cleanup is still pending flips `isDarkMode` again and schedules a
second cleanup. -/
theorem toggle_during_reveal_not_rejected :
    (toggleMode ratHost sampleView initialState).timers = 1 ∧
    (toggleMode ratHost sampleView initialState).isDarkMode = true ∧
    (toggleMode ratHost sampleView (toggleMode ratHost sampleView initialState)).isDarkMode
      = false ∧
    (toggleMode ratHost sampleView (toggleMode ratHost sampleView initialState)).timers = 2 ∧
    (toggleMode ratHost sampleView (toggleMode ratHost sampleView initialState)).toggleCalls
      = 2 := by
  refine ⟨rfl, rfl, rfl, rfl, rfl⟩

/-- C9, amended: `toggleMode` has no transition-in-progress guard; a toggle
request received while any number of cleanups are pending is carried out like
any other: `isDarkMode` is flipped, the reveal styling is set to its start
values again, and one more cleanup is scheduled. -/
theorem toggle_during_reveal_accepted {K : Type} [LinearOrderedField K]
    (h : Host K) (v : View K) (s : State K) :
    (toggleMode h v s).isDarkMode = (!s.isDarkMode) ∧
    (toggleMode h v s).timers = s.timers + 1 ∧
    (toggleMode h v s).dom.circleWidth = h.numStr (max v.innerWidth v.innerHeight * 3) ++ "px" ∧
    (toggleMode h v s).dom.circleHeight = h.numStr (max v.innerWidth v.innerHeight * 3) ++ "px" ∧
    (toggleMode h v s).dom.circleTransition = circleTransitionStr h ∧
    (toggleMode h v s).dom.svgNewClipPath
      = clipCircleStr h (max v.innerWidth v.innerHeight * 3 / 2) ANCHOR_X (-CIRCLE_START_OFFSET) ∧
    (toggleMode h v s).dom.bodyDarkMode = s.dom.bodyDarkMode :=
  ⟨rfl, rfl, rfl, rfl, rfl, rfl, rfl⟩

/-! ## Control loops that overlap -/

section Overlap
variable {K : Type} [LinearOrderedField K]

/-- A drag with movement on a state with no active drag appends one `animate`
request and leaves the other requests in place. -/
theorem drag_release_frameQueue (h : Host K) (x0 y0 x1 y1 : K) (v0 v1 : View K) (s : State K) :
    (endDrag h (onDrag h x1 y1 v1 (startDrag x0 y0 v0 s))).frameQueue
        = s.frameQueue ++ [FrameCallback.animate] ∧
    (endDrag h (onDrag h x1 y1 v1 (startDrag x0 y0 v0 s))).isAnimating = true ∧
    (endDrag h (onDrag h x1 y1 v1 (startDrag x0 y0 v0 s))).isDragging = false := by
  have hs : (startDrag x0 y0 v0 s).isDragging = true := rfl
  obtain ⟨a, b, c⟩ := endDrag_of_dragged h (onDrag h x1 y1 v1 (startDrag x0 y0 v0 s))
    ((onDrag_isDragging h x1 y1 v1 _).trans hs) (onDrag_didDrag h x1 y1 v1 _ hs)
  refine ⟨?_, b, a⟩
  rw [c, onDrag_frameQueue]
  rfl

end Overlap

/-- C5 fails on the code at three event sequences.  After a click followed by
a drag released before the next frame, a click-pull frame and a physics frame
are both requested.  After two drags released before the next frame, two
physics frames are requested.  After a click followed by a press, the
click-pull loop keeps running while the drag is active: the frame at 1030 ms
moves the handle to y = 54 and requests a further pull-down frame. -/
theorem control_loops_overlap (h : Host ℚ) :
    (run h initialState clickThenDrag).frameQueue
      = [FrameCallback.animateDown
          { startY := (50 : ℚ), downStartTime := none, upStartTime := none },
         FrameCallback.animate] ∧
    (run h initialState dragTwice).frameQueue
      = [FrameCallback.animate, FrameCallback.animate] ∧
    (run h initialState clickThenPress).isDragging = true ∧
    (run h initialState clickThenPress).handleY = 54 ∧
    (run h initialState clickThenPress).frameQueue
      = [FrameCallback.animateDown
          { startY := (50 : ℚ), downStartTime := some 1000, upStartTime := none }] := by
  refine ⟨?_, ?_, ?_, ?_, ?_⟩
  · have := (drag_release_frameQueue h 50 50 50 60 sampleView sampleView
      (handleClick (endDrag h (startDrag 50 50 sampleView initialState)))).1
    simp only [run, clickThenDrag, List.foldl_cons, List.foldl_nil, step]
    rw [this]
    simp [handleClick, animatePull, endDrag, startDrag, initialState]
  · obtain ⟨a, _, _⟩ := drag_release_frameQueue h 50 50 50 60 sampleView sampleView initialState
    have b := (drag_release_frameQueue h 50 50 50 60 sampleView sampleView
      (endDrag h (onDrag h 50 60 sampleView (startDrag 50 50 sampleView initialState)))).1
    simp only [run, dragTwice, List.foldl_cons, List.foldl_nil, step]
    rw [b, a]
    rfl
  · norm_num [run, clickThenPress, step, handleClick, animatePull, endDrag, startDrag,
      initialState, runFrame, runCallback, animateDown, downProgress, startTimeOr]
  · norm_num [run, clickThenPress, step, handleClick, animatePull, endDrag, startDrag,
      initialState, runFrame, runCallback, animateDown, downProgress, startTimeOr,
      CLICK_PULL_DOWN_EASE]
  · norm_num [run, clickThenPress, step, handleClick, animatePull, endDrag, startDrag,
      initialState, runFrame, runCallback, animateDown, downProgress, startTimeOr]

/-! ## Energy dissipation of the physics step -/

theorem proj_energy_poly (a b nx ny r : ℝ) (hn : nx * nx + ny * ny = 1) (hr : 50 < r)
    (hin : (r * nx - a) * (r * nx - a) + (r * ny - b) * (r * ny - b) ≤ 2500) :
    0 < a * nx + b * ny ∧
    (1 + 1 / 2500) *
        (((a - (a * nx + b * ny) * nx) * (a - (a * nx + b * ny) * nx)
          + (b - (a * nx + b * ny) * ny) * (b - (a * nx + b * ny) * ny)) / 2
          + 8 / 19 * (50 - 50 * ny))
      ≤ ((20 / 19 * a) * (20 / 19 * a) + (20 / 19 * b - 2 / 5) * (20 / 19 * b - 2 / 5)) / 2
          + 8 / 19 * (50 - (r * ny - b)) := by
  obtain ⟨w, hw⟩ : ∃ w, w = a * nx + b * ny := ⟨_, rfl⟩
  obtain ⟨τ, hτ⟩ : ∃ τ, τ = a * ny - b * nx := ⟨_, rfl⟩
  have hab : a * a + b * b = w * w + τ * τ := by
    have : (a * nx + b * ny) * (a * nx + b * ny) + (a * ny - b * nx) * (a * ny - b * nx)
        = (a * a + b * b) * (nx * nx + ny * ny) := by ring
    rw [hn] at this
    rw [hw, hτ]; linarith
  have h1 : (r - w) * (r - w) + τ * τ ≤ 2500 := by
    have : (r * nx - a) * (r * nx - a) + (r * ny - b) * (r * ny - b)
        = r * r * (nx * nx + ny * ny) - 2 * r * (a * nx + b * ny) + (a * a + b * b) := by ring
    rw [this, hn, ← hw, hab] at hin
    linarith
  have hrw : r - 50 ≤ w := by
    by_contra hc
    push_neg at hc
    nlinarith [mul_self_nonneg τ]
  have hwpos : 0 < w := by linarith
  have hny1 : ny ≤ 1 := by nlinarith [mul_self_nonneg nx, mul_self_nonneg (ny - 1)]
  have hny2 : -1 ≤ ny := by nlinarith [mul_self_nonneg nx, mul_self_nonneg (ny + 1)]
  have hv : (a - w * nx) * (a - w * nx) + (b - w * ny) * (b - w * ny) = τ * τ := by
    have : (a - w * nx) * (a - w * nx) + (b - w * ny) * (b - w * ny)
        = (a * a + b * b) - 2 * w * (a * nx + b * ny) + w * w * (nx * nx + ny * ny) := by ring
    rw [this, hn, ← hw, hab]; ring
  have hE : ((20 / 19 * a) * (20 / 19 * a) + (20 / 19 * b - 2 / 5) * (20 / 19 * b - 2 / 5)) / 2
      + 8 / 19 * (50 - (r * ny - b))
      = 200 / 361 * (w * w + τ * τ) + 2 / 25 + 8 / 19 * (50 - r * ny) := by
    rw [← hab]; ring
  rw [← hw, hv, hE]
  refine ⟨hwpos, ?_⟩
  rcases le_or_lt ny 0 with h0 | h0
  · have : 0 ≤ (r - 50) * (-ny) := mul_nonneg (by linarith) (by linarith)
    nlinarith [mul_self_nonneg τ, mul_self_nonneg w]
  · have hk : (r - 50) * ny ≤ w * ny := mul_le_mul_of_nonneg_right hrw h0.le
    rcases le_or_lt (1 / 50) w with hw50 | hw50
    · have : 0 ≤ (w - 1 / 50) * (1 - ny) := mul_nonneg (by linarith) (by linarith)
      nlinarith [mul_self_nonneg τ, mul_self_nonneg (20 / 19 * w - 2 / 5)]
    · have h2 : w * ny ≤ 1 / 50 := by
        have : 0 ≤ w * (1 - ny) := mul_nonneg hwpos.le (by linarith)
        linarith
      have h3 := mul_self_nonneg τ
      have h4 := mul_self_nonneg w
      linarith

theorem free_energy_poly (a b Y : ℝ) (hY : -50 ≤ Y) :
    (1 + 1 / 2500) * ((a * a + b * b) / 2 + 8 / 19 * (50 - Y))
      ≤ ((20 / 19 * a) * (20 / 19 * a) + (20 / 19 * b - 2 / 5) * (20 / 19 * b - 2 / 5)) / 2
          + 8 / 19 * (50 - (Y - b)) := by
  nlinarith [mul_self_nonneg a, mul_self_nonneg b]

/-- The energy of a state in terms of the damped velocity of the next step. -/
theorem energy_eq (s : State ℝ) (Y : ℝ) (hY : Y = s.handleY + (s.velocityY + GRAVITY) * DAMPING) :
    energy s
      = ((20 / 19 * (s.velocityX * DAMPING)) * (20 / 19 * (s.velocityX * DAMPING))
          + (20 / 19 * ((s.velocityY + GRAVITY) * DAMPING) - 2 / 5)
            * (20 / 19 * ((s.velocityY + GRAVITY) * DAMPING) - 2 / 5)) / 2
        + 8 / 19 * (50 - (Y - (s.velocityY + GRAVITY) * DAMPING)) := by
  have h1 : 20 / 19 * (s.velocityX * DAMPING) = s.velocityX := by
    simp only [DAMPING]; norm_num; ring
  have h2 : 20 / 19 * ((s.velocityY + GRAVITY) * DAMPING) - 2 / 5 = s.velocityY := by
    simp only [DAMPING, GRAVITY]; norm_num; ring
  rw [h1, h2, hY]
  simp only [energy]
  ring

theorem unit_dir (X Y : ℝ) (hr : 0 < Real.sqrt (X * X + Y * Y)) :
    X / Real.sqrt (X * X + Y * Y) * (X / Real.sqrt (X * X + Y * Y))
      + Y / Real.sqrt (X * X + Y * Y) * (Y / Real.sqrt (X * X + Y * Y)) = 1 := by
  have hpos : 0 < X * X + Y * Y := Real.sqrt_pos.mp hr
  have hsq : Real.sqrt (X * X + Y * Y) * Real.sqrt (X * X + Y * Y) = X * X + Y * Y :=
    Real.mul_self_sqrt hpos.le
  rw [div_mul_div_comm, div_mul_div_comm, ← add_div, hsq, div_self hpos.ne']

theorem integrate_energy (fmt : ℝ → String) (s : State ℝ) (hin : WithinRest s) :
    WithinRest (integrate (Host.mk Real.sqrt Real.exp fmt) s) ∧
    (1 + 1 / 2500) * energy (integrate (Host.mk Real.sqrt Real.exp fmt) s) ≤ energy s := by
  obtain ⟨a, ha⟩ : ∃ a, a = s.velocityX * DAMPING := ⟨_, rfl⟩
  obtain ⟨b, hb⟩ : ∃ b, b = (s.velocityY + GRAVITY) * DAMPING := ⟨_, rfl⟩
  obtain ⟨X, hX⟩ : ∃ X, X = s.handleX + a - ANCHOR_X := ⟨_, rfl⟩
  obtain ⟨Y, hY⟩ : ∃ Y, Y = s.handleY + b - ANCHOR_Y := ⟨_, rfl⟩
  have hY' : Y = s.handleY + (s.velocityY + GRAVITY) * DAMPING := by rw [hY, hb]; simp
  have hEs := energy_eq s Y hY'
  rw [← ha, ← hb] at hEs
  unfold integrate
  simp only [gt_iff_lt, ← ha, ← hb, ← hX, ← hY]
  by_cases h1 : CORD_LENGTH < Real.sqrt (X * X + Y * Y)
  · have hr : 0 < Real.sqrt (X * X + Y * Y) := lt_trans (by norm_num) h1
    have hn := unit_dir X Y hr
    have hrx : Real.sqrt (X * X + Y * Y) * (X / Real.sqrt (X * X + Y * Y)) = X :=
      mul_div_cancel₀ _ hr.ne'
    have hry : Real.sqrt (X * X + Y * Y) * (Y / Real.sqrt (X * X + Y * Y)) = Y :=
      mul_div_cancel₀ _ hr.ne'
    have hpre : (Real.sqrt (X * X + Y * Y) * (X / Real.sqrt (X * X + Y * Y)) - a)
          * (Real.sqrt (X * X + Y * Y) * (X / Real.sqrt (X * X + Y * Y)) - a)
        + (Real.sqrt (X * X + Y * Y) * (Y / Real.sqrt (X * X + Y * Y)) - b)
          * (Real.sqrt (X * X + Y * Y) * (Y / Real.sqrt (X * X + Y * Y)) - b) ≤ 2500 := by
      rw [hrx, hry, hX, hY]
      have := hin
      simp only [WithinRest] at this
      convert this using 2 <;> ring
    obtain ⟨hw, hE⟩ := proj_energy_poly a b _ _ _ hn h1 hpre
    rw [hry] at hE
    simp only [h1, hw, if_true]
    constructor
    · simp only [WithinRest]
      have : (ANCHOR_X + X / Real.sqrt (X * X + Y * Y) * CORD_LENGTH - ANCHOR_X)
            * (ANCHOR_X + X / Real.sqrt (X * X + Y * Y) * CORD_LENGTH - ANCHOR_X)
          + (ANCHOR_Y + Y / Real.sqrt (X * X + Y * Y) * CORD_LENGTH - ANCHOR_Y)
            * (ANCHOR_Y + Y / Real.sqrt (X * X + Y * Y) * CORD_LENGTH - ANCHOR_Y)
          = 2500 * (X / Real.sqrt (X * X + Y * Y) * (X / Real.sqrt (X * X + Y * Y))
              + Y / Real.sqrt (X * X + Y * Y) * (Y / Real.sqrt (X * X + Y * Y))) := by
        simp only [CORD_LENGTH]; ring
      rw [this, hn]; norm_num
    · rw [hEs]
      simp only [energy]
      convert hE using 3
      simp only [ANCHOR_Y, CORD_LENGTH]; ring
  · have hle : Real.sqrt (X * X + Y * Y) ≤ 50 := not_lt.mp h1
    have hq : X * X + Y * Y ≤ 2500 := by
      have h0 : 0 ≤ X * X + Y * Y := by nlinarith [mul_self_nonneg X, mul_self_nonneg Y]
      have := Real.mul_self_sqrt h0
      have hs0 := Real.sqrt_nonneg (X * X + Y * Y)
      nlinarith
    simp only [h1, if_false]
    constructor
    · simp only [WithinRest]
      rw [← hX, ← hY]; exact hq
    · rw [hEs]
      simp only [energy]
      have hYge : -50 ≤ Y := by nlinarith [mul_self_nonneg X, mul_self_nonneg (Y + 50)]
      have := free_energy_poly a b Y hYge
      convert this using 3
      rw [hY]; simp

/-- A state within the rest length whose energy is below 1/1000 passes the
settle test of `animate`. -/
theorem isSettled_of_energy_lt (s : State ℝ) (hin : WithinRest s) (hE : energy s < 1 / 1000) :
    isSettled s = true := by
  simp only [WithinRest, ANCHOR_X, ANCHOR_Y, sub_zero] at hin
  simp only [energy] at hE
  have hy50 : s.handleY ≤ 50 := by
    nlinarith [mul_self_nonneg (s.handleX - 50), mul_self_nonneg (s.handleY - 50)]
  have hyn : -50 ≤ s.handleY := by
    nlinarith [mul_self_nonneg (s.handleX - 50), mul_self_nonneg (s.handleY + 50)]
  have hvx := mul_self_nonneg s.velocityX
  have hvy := mul_self_nonneg s.velocityY
  have hy : 50 - s.handleY < 19 / 8000 := by linarith
  have hx2 : (s.handleX - 50) * (s.handleX - 50) < 1 / 4 := by nlinarith
  have hvx2 : s.velocityX * s.velocityX < 1 / 400 := by linarith
  have hvy2 : s.velocityY * s.velocityY < 1 / 400 := by linarith
  have key : ∀ u c : ℝ, 0 < c → u * u < c * c → |u| < c := by
    intro u c hc hu
    exact abs_lt.mpr ⟨by nlinarith, by nlinarith⟩
  have b1 : |s.velocityX| < 0.05 := key _ _ (by norm_num) (by norm_num; linarith)
  have b2 : |s.velocityY| < 0.05 := key _ _ (by norm_num) (by norm_num; linarith)
  have b3 : |s.handleX - ANCHOR_X| < 0.5 := key _ _ (by norm_num) (by norm_num; linarith)
  have b4 : |s.handleY - (ANCHOR_Y + CORD_LENGTH)| < 0.5 := by
    rw [abs_lt]
    constructor <;> norm_num <;> linarith
  simp only [isSettled, b1, b2, b3, b4, decide_True, Bool.and_self]

theorem integrate_frame (h : Host ℝ) (s : State ℝ) :
    (integrate h s).isDragging = s.isDragging ∧ (integrate h s).frameQueue = s.frameQueue ∧
    (integrate h s).isAnimating = s.isAnimating := by
  unfold integrate
  dsimp only
  split_ifs <;> exact ⟨rfl, rfl, rfl⟩

/-- After one integration step from any state the handle is within the rest
length and the speed is at most the damped speed. -/
theorem integrate_first (fmt : ℝ → String) (s : State ℝ) :
    WithinRest (integrate (Host.mk Real.sqrt Real.exp fmt) s) ∧
    (integrate (Host.mk Real.sqrt Real.exp fmt) s).velocityX
        * (integrate (Host.mk Real.sqrt Real.exp fmt) s).velocityX
      + (integrate (Host.mk Real.sqrt Real.exp fmt) s).velocityY
        * (integrate (Host.mk Real.sqrt Real.exp fmt) s).velocityY
      ≤ (s.velocityX * DAMPING) * (s.velocityX * DAMPING)
        + ((s.velocityY + GRAVITY) * DAMPING) * ((s.velocityY + GRAVITY) * DAMPING) := by
  obtain ⟨a, ha⟩ : ∃ a, a = s.velocityX * DAMPING := ⟨_, rfl⟩
  obtain ⟨b, hb⟩ : ∃ b, b = (s.velocityY + GRAVITY) * DAMPING := ⟨_, rfl⟩
  obtain ⟨X, hX⟩ : ∃ X, X = s.handleX + a - ANCHOR_X := ⟨_, rfl⟩
  obtain ⟨Y, hY⟩ : ∃ Y, Y = s.handleY + b - ANCHOR_Y := ⟨_, rfl⟩
  unfold integrate
  simp only [gt_iff_lt, ← ha, ← hb, ← hX, ← hY]
  have hproj : ∀ nx ny : ℝ, nx * nx + ny * ny = 1 →
      (ANCHOR_X + nx * CORD_LENGTH - ANCHOR_X) * (ANCHOR_X + nx * CORD_LENGTH - ANCHOR_X)
        + (ANCHOR_Y + ny * CORD_LENGTH - ANCHOR_Y) * (ANCHOR_Y + ny * CORD_LENGTH - ANCHOR_Y)
        ≤ 2500 := by
    intro nx ny hn
    have : (ANCHOR_X + nx * CORD_LENGTH - ANCHOR_X) * (ANCHOR_X + nx * CORD_LENGTH - ANCHOR_X)
        + (ANCHOR_Y + ny * CORD_LENGTH - ANCHOR_Y) * (ANCHOR_Y + ny * CORD_LENGTH - ANCHOR_Y)
        = 2500 * (nx * nx + ny * ny) := by
      simp only [CORD_LENGTH]; ring
    rw [this, hn]; norm_num
  by_cases h1 : CORD_LENGTH < Real.sqrt (X * X + Y * Y)
  · have hr : 0 < Real.sqrt (X * X + Y * Y) := lt_trans (by norm_num) h1
    have hn := unit_dir X Y hr
    simp only [h1, if_true]
    split_ifs with hw
    · refine ⟨hproj _ _ hn, ?_⟩
      dsimp only
      obtain ⟨nx, hnx⟩ : ∃ nx, nx = X / Real.sqrt (X * X + Y * Y) := ⟨_, rfl⟩
      obtain ⟨ny, hny⟩ : ∃ ny, ny = Y / Real.sqrt (X * X + Y * Y) := ⟨_, rfl⟩
      rw [← hnx, ← hny] at hn ⊢
      have : (a - (a * nx + b * ny) * nx) * (a - (a * nx + b * ny) * nx)
          + (b - (a * nx + b * ny) * ny) * (b - (a * nx + b * ny) * ny)
          = a * a + b * b - (a * nx + b * ny) * (a * nx + b * ny) * (2 - (nx * nx + ny * ny)) := by
        ring
      rw [this, hn]
      nlinarith [mul_self_nonneg (a * nx + b * ny)]
    · exact ⟨hproj _ _ hn, le_refl _⟩
  · have hle : Real.sqrt (X * X + Y * Y) ≤ 50 := not_lt.mp h1
    have hq : X * X + Y * Y ≤ 2500 := by
      have h0 : 0 ≤ X * X + Y * Y := by nlinarith [mul_self_nonneg X, mul_self_nonneg Y]
      have := Real.mul_self_sqrt h0
      have hs0 := Real.sqrt_nonneg (X * X + Y * Y)
      nlinarith
    simp only [h1, if_false]
    refine ⟨?_, le_refl _⟩
    simp only [WithinRest]
    rw [← hX, ← hY]; exact hq

/-- The energy after the first step is bounded in terms of the speed bound. -/
theorem integrate_first_energy (fmt : ℝ → String) (s : State ℝ) (V : ℝ)
    (hx : |s.velocityX| ≤ V) (hy : |s.velocityY| ≤ V) :
    energy (integrate (Host.mk Real.sqrt Real.exp fmt) s) ≤ (V + 1) * (V + 1) + 43 := by
  obtain ⟨hin, hv⟩ := integrate_first fmt s
  simp only [WithinRest, ANCHOR_X, ANCHOR_Y, sub_zero] at hin
  have hyn : -50 ≤ (integrate (Host.mk Real.sqrt Real.exp fmt) s).handleY := by
    nlinarith [mul_self_nonneg ((integrate (Host.mk Real.sqrt Real.exp fmt) s).handleX - 50),
      mul_self_nonneg ((integrate (Host.mk Real.sqrt Real.exp fmt) s).handleY + 50)]
  have hV : 0 ≤ V := le_trans (abs_nonneg _) hx
  obtain ⟨x1, x2⟩ := abs_le.mp hx
  obtain ⟨y1, y2⟩ := abs_le.mp hy
  have ha : (s.velocityX * DAMPING) * (s.velocityX * DAMPING) ≤ V * V := by
    simp only [DAMPING]
    nlinarith [mul_self_nonneg s.velocityX, mul_nonneg (by linarith : 0 ≤ V - s.velocityX)
      (by linarith : 0 ≤ V + s.velocityX)]
  have hb : ((s.velocityY + GRAVITY) * DAMPING) * ((s.velocityY + GRAVITY) * DAMPING)
      ≤ (V + 1) * (V + 1) := by
    simp only [DAMPING, GRAVITY]
    nlinarith [mul_self_nonneg (s.velocityY + 0.4),
      mul_nonneg (by linarith : 0 ≤ V + 1 - (s.velocityY + 0.4))
        (by linarith : 0 ≤ V + 1 + (s.velocityY + 0.4))]
  simp only [energy]
  nlinarith

section PhysicsFrames

theorem runFrame_animate (h : Host ℝ) (v : View ℝ) (t : ℝ) (s : State ℝ)
    (hq : s.frameQueue = [FrameCallback.animate]) :
    runFrame h v t s = animate h { s with frameQueue := [] } := by
  simp [runFrame, runCallback, hq]

theorem animate_settled (h : Host ℝ) (s : State ℝ) (hd : s.isDragging = false)
    (hset : isSettled (integrate h s) = true) :
    (animate h s).handleX = ANCHOR_X ∧ (animate h s).handleY = ANCHOR_Y + CORD_LENGTH ∧
    (animate h s).velocityX = 0 ∧ (animate h s).velocityY = 0 ∧
    (animate h s).isAnimating = false ∧ (animate h s).frameQueue = s.frameQueue := by
  unfold animate
  simp only [hd, Bool.false_eq_true, if_false, hset, if_true, true_and]
  exact (integrate_frame h s).2.1

theorem animate_running (h : Host ℝ) (s : State ℝ) (hd : s.isDragging = false)
    (hset : isSettled (integrate h s) = false) :
    animate h s
      = { integrate h s with frameQueue := (integrate h s).frameQueue ++ [FrameCallback.animate] } := by
  unfold animate
  simp only [hd, Bool.false_eq_true, if_false, hset]

end PhysicsFrames

/-- One frame of the physics loop from any state: settled, or still running
within the rest length with the state `integrate` computed. -/
theorem physics_frame_any (fmt : ℝ → String) (f : Frame ℝ) (s : State ℝ)
    (hd : s.isDragging = false) (hq : s.frameQueue = [FrameCallback.animate]) :
    AtRest (runFrame (Host.mk Real.sqrt Real.exp fmt) f.view f.time s) ∨
    ((runFrame (Host.mk Real.sqrt Real.exp fmt) f.view f.time s).isDragging = false ∧
      (runFrame (Host.mk Real.sqrt Real.exp fmt) f.view f.time s).frameQueue
        = [FrameCallback.animate] ∧
      WithinRest (runFrame (Host.mk Real.sqrt Real.exp fmt) f.view f.time s) ∧
      energy (runFrame (Host.mk Real.sqrt Real.exp fmt) f.view f.time s)
        = energy (integrate (Host.mk Real.sqrt Real.exp fmt) { s with frameQueue := [] }) ∧
      isSettled (integrate (Host.mk Real.sqrt Real.exp fmt) { s with frameQueue := [] })
        = false) := by
  rw [runFrame_animate _ _ _ _ hq]
  have hd' : ({ s with frameQueue := [] } : State ℝ).isDragging = false := hd
  obtain ⟨i1, i2, _⟩ := integrate_frame (Host.mk Real.sqrt Real.exp fmt)
    { s with frameQueue := [] }
  by_cases hset : isSettled (integrate (Host.mk Real.sqrt Real.exp fmt)
      { s with frameQueue := [] }) = true
  · left
    obtain ⟨a, b, c, d, e, g⟩ := animate_settled _ _ hd' hset
    exact ⟨a, b, c, d, e, g⟩
  · right
    have hset' : isSettled (integrate (Host.mk Real.sqrt Real.exp fmt)
        { s with frameQueue := [] }) = false := by simpa using hset
    rw [animate_running _ _ hd' hset']
    refine ⟨i1.trans hd', ?_, (integrate_first fmt _).1, rfl, hset'⟩
    show (integrate _ _).frameQueue ++ [FrameCallback.animate] = [FrameCallback.animate]
    rw [i2]
    rfl

/-- One frame of the physics loop from a state within the rest length:
settled, or still running with the energy reduced by the factor 2500/2501 and
not yet below the settle level. -/
theorem physics_frame_within (fmt : ℝ → String) (f : Frame ℝ) (s : State ℝ)
    (hd : s.isDragging = false) (hq : s.frameQueue = [FrameCallback.animate])
    (hin : WithinRest s) :
    AtRest (runFrame (Host.mk Real.sqrt Real.exp fmt) f.view f.time s) ∨
    ((runFrame (Host.mk Real.sqrt Real.exp fmt) f.view f.time s).isDragging = false ∧
      (runFrame (Host.mk Real.sqrt Real.exp fmt) f.view f.time s).frameQueue
        = [FrameCallback.animate] ∧
      WithinRest (runFrame (Host.mk Real.sqrt Real.exp fmt) f.view f.time s) ∧
      (1 + 1 / 2500) * energy (runFrame (Host.mk Real.sqrt Real.exp fmt) f.view f.time s)
        ≤ energy s ∧
      1 / 1000 ≤ energy (runFrame (Host.mk Real.sqrt Real.exp fmt) f.view f.time s)) := by
  rcases physics_frame_any fmt f s hd hq with hr | ⟨a, b, c, e, g⟩
  · exact Or.inl hr
  · right
    have hin' : WithinRest ({ s with frameQueue := [] } : State ℝ) := hin
    obtain ⟨j1, j2⟩ := integrate_energy fmt _ hin'
    refine ⟨a, b, c, ?_, ?_⟩
    · rw [e]
      exact j2
    · rw [e]
      by_contra hlt
      have := isSettled_of_energy_lt _ j1 (not_le.mp hlt)
      rw [this] at g
      exact absurd g (by simp)

theorem runFrames_atRest (h : Host ℝ) (fs : List (Frame ℝ)) :
    ∀ s : State ℝ, AtRest s → runFrames h s fs = s := by
  induction fs with
  | nil => intro s _; rfl
  | cons f fs ih =>
    intro s hs
    have : runFrame h f.view f.time s = s := runFrame_idle h f.view f.time s hs.2.2.2.2.2
    simp only [runFrames, List.foldl_cons] at ih ⊢
    rw [this]
    exact ih s hs

/-- The physics loop from a state within the rest length: after any frames it
has settled, or its energy has decayed geometrically and is still at least
the settle level. -/
theorem physics_frames_within (fmt : ℝ → String) (fs : List (Frame ℝ)) :
    ∀ s : State ℝ, s.isDragging = false → s.frameQueue = [FrameCallback.animate] →
      WithinRest s →
      AtRest (runFrames (Host.mk Real.sqrt Real.exp fmt) s fs) ∨
      ((1 + 1 / 2500 : ℝ) ^ fs.length
          * energy (runFrames (Host.mk Real.sqrt Real.exp fmt) s fs) ≤ energy s ∧
        (fs ≠ [] → 1 / 1000 ≤ energy (runFrames (Host.mk Real.sqrt Real.exp fmt) s fs))) := by
  induction fs with
  | nil =>
    intro s _ _ _
    right
    exact ⟨by simp [runFrames], fun hne => absurd rfl hne⟩
  | cons f fs ih =>
    intro s hd hq hin
    have hstep : runFrames (Host.mk Real.sqrt Real.exp fmt) s (f :: fs)
        = runFrames (Host.mk Real.sqrt Real.exp fmt)
            (runFrame (Host.mk Real.sqrt Real.exp fmt) f.view f.time s) fs := rfl
    rw [hstep]
    rcases physics_frame_within fmt f s hd hq hin with hr | ⟨a, b, c, e, g⟩
    · left
      rw [runFrames_atRest _ fs _ hr]
      exact hr
    · rcases ih _ a b c with hr | ⟨k1, k2⟩
      · exact Or.inl hr
      · right
        constructor
        · have hpos : (0 : ℝ) ≤ 1 + 1 / 2500 := by norm_num
          calc (1 + 1 / 2500 : ℝ) ^ (f :: fs).length
                * energy (runFrames (Host.mk Real.sqrt Real.exp fmt)
                    (runFrame (Host.mk Real.sqrt Real.exp fmt) f.view f.time s) fs)
              = (1 + 1 / 2500) * ((1 + 1 / 2500 : ℝ) ^ fs.length
                * energy (runFrames (Host.mk Real.sqrt Real.exp fmt)
                    (runFrame (Host.mk Real.sqrt Real.exp fmt) f.view f.time s) fs)) := by
                rw [List.length_cons, pow_succ]; ring
            _ ≤ (1 + 1 / 2500) * energy (runFrame (Host.mk Real.sqrt Real.exp fmt)
                  f.view f.time s) := mul_le_mul_of_nonneg_left k1 hpos
            _ ≤ energy s := e
        · intro _
          by_cases hfs : fs = []
          · subst hfs
            exact g
          · exact k2 hfs

/-- C4: for every speed bound `V` there is a step count `N`, depending only
on `V`, such that from every state in which the physics loop has been started
(no drag active, one `animate` frame requested) with both velocity components
bounded by `V` in absolute value, at any handle position (in particular any
release position of a drag), delivering `N` or more frames with no new drag
ends in the settled state: handle exactly at (50, 50), velocity (0, 0),
`isAnimating` false and no frame requested. -/
theorem physics_settles (fmt : ℝ → String) (V : ℝ) :
    ∃ N : ℕ, ∀ s : State ℝ, s.isDragging = false → s.frameQueue = [FrameCallback.animate] →
      |s.velocityX| ≤ V → |s.velocityY| ≤ V →
      ∀ fs : List (Frame ℝ), N ≤ fs.length →
        (runFrames (Host.mk Real.sqrt Real.exp fmt) s fs).handleX = 50 ∧
        (runFrames (Host.mk Real.sqrt Real.exp fmt) s fs).handleY = 50 ∧
        (runFrames (Host.mk Real.sqrt Real.exp fmt) s fs).velocityX = 0 ∧
        (runFrames (Host.mk Real.sqrt Real.exp fmt) s fs).velocityY = 0 ∧
        (runFrames (Host.mk Real.sqrt Real.exp fmt) s fs).isAnimating = false ∧
        (runFrames (Host.mk Real.sqrt Real.exp fmt) s fs).frameQueue = [] := by
  refine ⟨⌈((V + 1) * (V + 1) + 43) * 2500000⌉₊ + 2, ?_⟩
  intro s hd hq hx hy fs hN
  have hrest : ∀ e : State ℝ, AtRest e →
      e.handleX = 50 ∧ e.handleY = 50 ∧ e.velocityX = 0 ∧ e.velocityY = 0 ∧
        e.isAnimating = false ∧ e.frameQueue = [] := by
    rintro e ⟨a, b, c, d, g, k⟩
    refine ⟨a, ?_, c, d, g, k⟩
    rw [b]; norm_num
  cases fs with
  | nil => simp at hN
  | cons f fs =>
    have hstep : runFrames (Host.mk Real.sqrt Real.exp fmt) s (f :: fs)
        = runFrames (Host.mk Real.sqrt Real.exp fmt)
            (runFrame (Host.mk Real.sqrt Real.exp fmt) f.view f.time s) fs := rfl
    rw [hstep]
    rcases physics_frame_any fmt f s hd hq with hr | ⟨a, b, c, e, _⟩
    · rw [runFrames_atRest _ fs _ hr]
      exact hrest _ hr
    · have hB : energy (runFrame (Host.mk Real.sqrt Real.exp fmt) f.view f.time s)
          ≤ (V + 1) * (V + 1) + 43 := by
        rw [e]
        exact integrate_first_energy fmt _ V hx hy
      rcases physics_frames_within fmt fs _ a b c with hr | ⟨k1, k2⟩
      · exact hrest _ hr
      · exfalso
        have hlen : ⌈((V + 1) * (V + 1) + 43) * 2500000⌉₊ + 1 ≤ fs.length := by
          simp only [List.length_cons] at hN
          omega
        have hne : fs ≠ [] := by
          intro h0
          rw [h0] at hlen
          simp at hlen
        have hE := k2 hne
        have hbern : 1 + (fs.length : ℝ) * (1 / 2500) ≤ (1 + 1 / 2500 : ℝ) ^ fs.length :=
          one_add_mul_le_pow (by norm_num) _
        have hceil : ((V + 1) * (V + 1) + 43) * 2500000
            ≤ (⌈((V + 1) * (V + 1) + 43) * 2500000⌉₊ : ℝ) := Nat.le_ceil _
        have hcast : ((⌈((V + 1) * (V + 1) + 43) * 2500000⌉₊ : ℕ) : ℝ) + 1 ≤ (fs.length : ℝ) := by
          exact_mod_cast hlen
        have hpow : (0 : ℝ) ≤ (1 + 1 / 2500 : ℝ) ^ fs.length := by positivity
        have h1 : (1 + (fs.length : ℝ) * (1 / 2500)) * (1 / 1000)
            ≤ (1 + 1 / 2500 : ℝ) ^ fs.length
              * energy (runFrames (Host.mk Real.sqrt Real.exp fmt)
                  (runFrame (Host.mk Real.sqrt Real.exp fmt) f.view f.time s) fs) :=
          mul_le_mul hbern hE (by norm_num) hpow
        nlinarith

/-- Witness for C4: the physics loop started at (50, 20) with velocity
(3, -2) settles within a bounded number of frames. -/
theorem physics_settles_witness :
    ∃ N : ℕ, ∀ fs : List (Frame ℝ), N ≤ fs.length →
      (runFrames (Host.mk Real.sqrt Real.exp (fun _ => "")) sampleRelease fs).handleX = 50 ∧
      (runFrames (Host.mk Real.sqrt Real.exp (fun _ => "")) sampleRelease fs).handleY = 50 ∧
      (runFrames (Host.mk Real.sqrt Real.exp (fun _ => "")) sampleRelease fs).velocityX = 0 ∧
      (runFrames (Host.mk Real.sqrt Real.exp (fun _ => "")) sampleRelease fs).velocityY = 0 ∧
      (runFrames (Host.mk Real.sqrt Real.exp (fun _ => "")) sampleRelease fs).isAnimating = false ∧
      (runFrames (Host.mk Real.sqrt Real.exp (fun _ => "")) sampleRelease fs).frameQueue = [] := by
  obtain ⟨N, hN⟩ := physics_settles (fun _ => "") 3
  exact ⟨N, hN sampleRelease rfl rfl (by norm_num [sampleRelease]) (by norm_num [sampleRelease])⟩

/-! ## Guarded direction normalisation -/

section CheckedDivision
variable {K : Type} [LinearOrderedField K]

theorem checkedDiv_of_gt (a b : K) (hb : CORD_LENGTH < b) : checkedDiv a b = some (a / b) := by
  have h0 : b ≠ 0 := ne_of_gt (lt_trans (by norm_num) hb)
  simp [checkedDiv, h0]

theorem onDragChecked_eq (h : Host K) (x y : K) (v : View K) (s : State K) :
    onDragChecked h x y v s = some (onDrag h x y v s) := by
  unfold onDragChecked onDrag
  dsimp only
  by_cases hs : s.isDragging = true
  · by_cases hd : CORD_LENGTH < rawDistance h x y v s
    · simp only [hs, Bool.not_true, Bool.false_eq_true, if_false, gt_iff_lt, hd, if_true,
        checkedDiv_of_gt _ _ hd, Option.some_bind]
    · simp only [hs, Bool.not_true, Bool.false_eq_true, if_false, gt_iff_lt, hd]
  · simp [hs]

theorem endDragChecked_eq (h : Host K) (s : State K) :
    endDragChecked h s = some (endDrag h s) := by
  unfold endDragChecked endDrag
  dsimp only
  by_cases hs : s.isDragging = true
  · by_cases hdd : s.didDrag = true
    · by_cases hd : CORD_LENGTH < h.sqrt ((s.handleX - ANCHOR_X) * (s.handleX - ANCHOR_X)
          + (s.handleY - ANCHOR_Y) * (s.handleY - ANCHOR_Y))
      · simp only [hs, hdd, Bool.not_true, Bool.false_eq_true, if_false, gt_iff_lt, hd, if_true,
          checkedDiv_of_gt _ _ hd, Option.some_bind]
      · simp only [hs, hdd, Bool.not_true, Bool.false_eq_true, if_false, gt_iff_lt, hd]
    · simp [hs, hdd]
  · simp [hs]

theorem integrateChecked_eq (h : Host K) (s : State K) :
    integrateChecked h s = some (integrate h s) := by
  unfold integrateChecked integrate
  dsimp only
  by_cases hd : CORD_LENGTH < h.sqrt
      ((s.handleX + s.velocityX * DAMPING - ANCHOR_X) * (s.handleX + s.velocityX * DAMPING - ANCHOR_X)
        + (s.handleY + (s.velocityY + GRAVITY) * DAMPING - ANCHOR_Y)
          * (s.handleY + (s.velocityY + GRAVITY) * DAMPING - ANCHOR_Y))
  · simp only [gt_iff_lt, hd, if_true, checkedDiv_of_gt _ _ hd, Option.some_bind]
    split_ifs <;> rfl
  · simp only [gt_iff_lt, hd, if_false]

end CheckedDivision

/-- C13: no direction normalisation divides by zero.  With the quotients of
`onDrag`, `endDrag` and the physics step computed by a division that fails on
a zero divisor, each function still returns, for every pointer position, grab
offset, handle position and velocity, exactly the state the plain function
computes: the quotients are formed only under the tests `rawDistance > 50`,
`distance > 50`, `newDistance > 50`, where the checked division succeeds.
This includes a handle on the anchor and a raw target on the anchor. -/
theorem normalisation_never_divides_by_zero {K : Type} [LinearOrderedField K]
    (h : Host K) (x y : K) (v : View K) (s : State K) :
    onDragChecked h x y v s = some (onDrag h x y v s) ∧
    endDragChecked h s = some (endDrag h s) ∧
    integrateChecked h s = some (integrate h s) ∧
    (∀ a b : K, CORD_LENGTH < b → checkedDiv a b = some (a / b)) ∧
    (∀ a : K, checkedDiv a 0 = none) ∧
    endDragChecked h { handleOnAnchor with didDrag := true }
      = some (endDrag h { handleOnAnchor with didDrag := true }) ∧
    integrateChecked h { handleOnAnchor with velocityY := -GRAVITY }
      = some (integrate h { handleOnAnchor with velocityY := -GRAVITY }) :=
  ⟨onDragChecked_eq h x y v s, endDragChecked_eq h s, integrateChecked_eq h s,
    fun a b hb => checkedDiv_of_gt a b hb, fun a => by simp [checkedDiv],
    endDragChecked_eq h _, integrateChecked_eq h _⟩

/-! ## The cord curve -/

/-- The distance of a handle hanging straight below the anchor. -/
theorem handleDistance_vertical (fmt : ℝ → String) (s : State ℝ) (hx : s.handleX = 50)
    (hy : 0 ≤ s.handleY) : handleDistance (Host.mk Real.sqrt Real.exp fmt) s = s.handleY := by
  simp only [handleDistance, hx, ANCHOR_X, ANCHOR_Y, sub_self, mul_zero, zero_add, sub_zero]
  exact Real.sqrt_mul_self hy

section CurveLemmas
variable {K : Type} [LinearOrderedField K]

theorem slackRatio_of_taut (h : Host K) (s : State K) (hd : CORD_LENGTH ≤ handleDistance h s) :
    slackRatio h s = 0 := by
  have h1 : slackAmount h s / 10 ≤ 0 := by
    apply div_nonpos_of_nonpos_of_nonneg
    · simp only [slackAmount]; linarith
    · norm_num
  simp only [slackRatio]
  exact max_eq_left (le_trans (min_le_right _ _) h1)

theorem drapeAmount_of_taut (h : Host K) (s : State K) (hd : CORD_LENGTH ≤ handleDistance h s) :
    drapeAmount h s = 0 := by
  have : ¬ slackAmount h s > 0 := by
    simp only [slackAmount]; intro hc; linarith
  simp only [drapeAmount, this, if_false]

theorem slackRatio_of_slack (h : Host K) (s : State K)
    (hd : handleDistance h s ≤ CORD_LENGTH - 10) : slackRatio h s = 1 := by
  have h1 : 1 ≤ slackAmount h s / 10 := by
    rw [le_div_iff₀ (by norm_num : (0 : K) < 10)]
    simp only [slackAmount]; linarith
  simp only [slackRatio]
  rw [min_eq_left h1]
  exact max_eq_right (by norm_num)

theorem drapeAmount_of_slack (h : Host K) (s : State K)
    (hd : handleDistance h s ≤ CORD_LENGTH - 10) :
    drapeAmount h s = 0.7 * (CORD_LENGTH - handleDistance h s) := by
  have hpos : slackAmount h s > 0 := by
    simp only [slackAmount, gt_iff_lt]
    have : handleDistance h s ≤ (50 : K) - 10 := hd
    have h50 : (CORD_LENGTH : K) = 50 := rfl
    rw [h50]; linarith
  rw [drapeAmount, if_pos hpos, slackRatio_of_slack h s hd]
  simp only [slackAmount]
  ring

end CurveLemmas

/-- C14: for every handle position at distance at least the rest length
from the anchor, `render` computes `slackRatio = 0` and `drapeAmount = 0` and
both control points lie on the segment from the anchor to the handle (at the
parameters 0.33 and 0.66); for every handle position at distance at most
`restLength - 10 = 40`, `slackRatio = 1` and the control points are the draped
set `(ANCHOR_X, ANCHOR_Y + 25 + drape / 2)` and `(handleX, handleY + drape)`
with `drape = 0.7 * (50 - distance)`. -/
theorem render_taut_and_slack {K : Type} [LinearOrderedField K] (h : Host K) (s : State K) :
    (CORD_LENGTH ≤ handleDistance h s →
      slackRatio h s = 0 ∧ drapeAmount h s = 0 ∧
      (∃ t : K, 0 ≤ t ∧ t ≤ 1 ∧
        (render h s).c1X = ANCHOR_X + t * (s.handleX - ANCHOR_X) ∧
        (render h s).c1Y = ANCHOR_Y + t * (s.handleY - ANCHOR_Y)) ∧
      (∃ t : K, 0 ≤ t ∧ t ≤ 1 ∧
        (render h s).c2X = ANCHOR_X + t * (s.handleX - ANCHOR_X) ∧
        (render h s).c2Y = ANCHOR_Y + t * (s.handleY - ANCHOR_Y))) ∧
    (handleDistance h s ≤ CORD_LENGTH - 10 →
      slackRatio h s = 1 ∧ drapeAmount h s = 0.7 * (50 - handleDistance h s) ∧
      (render h s).c1X = ANCHOR_X ∧
      (render h s).c1Y = ANCHOR_Y + 25 + 0.7 * (50 - handleDistance h s) / 2 ∧
      (render h s).c2X = s.handleX ∧
      (render h s).c2Y = s.handleY + 0.7 * (50 - handleDistance h s)) := by
  constructor
  · intro hd
    have hr := slackRatio_of_taut h s hd
    refine ⟨hr, drapeAmount_of_taut h s hd, ⟨0.33, by norm_num, by norm_num, ?_, ?_⟩,
      ⟨0.66, by norm_num, by norm_num, ?_, ?_⟩⟩
    · simp only [render, ctrl1X, hr, straightCtrl1X]; ring
    · simp only [render, ctrl1Y, hr, straightCtrl1Y]; ring
    · simp only [render, ctrl2X, hr, straightCtrl2X]; ring
    · simp only [render, ctrl2Y, hr, straightCtrl2Y]; ring
  · intro hd
    have hr := slackRatio_of_slack h s hd
    have hdr := drapeAmount_of_slack h s hd
    have h50 : (CORD_LENGTH : K) = 50 := rfl
    rw [h50] at hdr
    refine ⟨hr, hdr, ?_, ?_, ?_, ?_⟩
    · simp only [render, ctrl1X, hr, drapedCtrl1X]; ring
    · simp only [render, ctrl1Y, hr, drapedCtrl1Y, hdr, CORD_LENGTH]; ring_nf
    · simp only [render, ctrl2X, hr, drapedCtrl2X]; ring
    · simp only [render, ctrl2Y, hr, drapedCtrl2Y, hdr]; ring

/-- Witness for C14: the resting handle (distance 50) is taut, the handle at
(50, 20) is fully slack. -/
theorem render_taut_and_slack_witness :
    CORD_LENGTH ≤ handleDistance (Host.mk Real.sqrt Real.exp (fun _ => "")) initialState ∧
    slackRatio (Host.mk Real.sqrt Real.exp (fun _ => "")) initialState = 0 ∧
    handleDistance (Host.mk Real.sqrt Real.exp (fun _ => "")) slackState ≤ CORD_LENGTH - 10 ∧
    slackRatio (Host.mk Real.sqrt Real.exp (fun _ => "")) slackState = 1 ∧
    (render (Host.mk Real.sqrt Real.exp (fun _ => "")) slackState).c2Y = 20 + 0.7 * (50 - 20) := by
  have h1 : handleDistance (Host.mk Real.sqrt Real.exp (fun _ => "")) initialState = 50 :=
    handleDistance_vertical _ initialState rfl (by norm_num [initialState])
  have h2 : handleDistance (Host.mk Real.sqrt Real.exp (fun _ => "")) slackState = 20 :=
    handleDistance_vertical _ slackState rfl (by norm_num [slackState])
  have t := (render_taut_and_slack (Host.mk Real.sqrt Real.exp (fun _ => "")) initialState).1
    (by rw [h1])
  have u := (render_taut_and_slack (Host.mk Real.sqrt Real.exp (fun _ => "")) slackState).2
    (by rw [h2]; norm_num)
  refine ⟨by rw [h1], t.1, by rw [h2]; norm_num, u.1, ?_⟩
  have := u.2.2.2.2.2
  rw [h2] at this
  exact this

section DrapeFormula
variable {K : Type} [LinearOrderedField K]

theorem drapeAmount_eq_max (h : Host K) (s : State K) :
    drapeAmount h s = max 0 (CORD_LENGTH - handleDistance h s) * 0.7 * slackRatio h s := by
  simp only [drapeAmount, slackAmount]
  split_ifs with hp
  · rw [max_eq_right (le_of_lt hp)]
  · rw [max_eq_left (not_lt.mp hp)]
    ring

end DrapeFormula

theorem continuous_handleDistance (fmt : ℝ → String) (s : State ℝ) :
    Continuous (fun p : ℝ × ℝ =>
      handleDistance (Host.mk Real.sqrt Real.exp fmt) { s with handleX := p.1, handleY := p.2 }) := by
  simp only [handleDistance]
  exact Real.continuous_sqrt.comp (by fun_prop)

theorem continuous_slackRatio (fmt : ℝ → String) (s : State ℝ) :
    Continuous (fun p : ℝ × ℝ =>
      slackRatio (Host.mk Real.sqrt Real.exp fmt) { s with handleX := p.1, handleY := p.2 }) := by
  simp only [slackRatio, slackAmount]
  exact continuous_const.max (continuous_const.min
    ((continuous_const.sub (continuous_handleDistance fmt s)).div_const _))

theorem continuous_drapeAmount (fmt : ℝ → String) (s : State ℝ) :
    Continuous (fun p : ℝ × ℝ =>
      drapeAmount (Host.mk Real.sqrt Real.exp fmt) { s with handleX := p.1, handleY := p.2 }) := by
  simp only [drapeAmount_eq_max]
  exact ((continuous_const.max (continuous_const.sub (continuous_handleDistance fmt s))).mul
    continuous_const).mul (continuous_slackRatio fmt s)

/-- C15: the four control-point coordinates computed by `render` are
continuous functions of the handle position over the whole plane (so in
particular across the blend boundaries at distance 50 and 40), and the
`drapeAmount` of the code equals
`max 0 (restLength - distance) * 0.7 * slackRatio` for every handle
position. -/
theorem render_continuous (fmt : ℝ → String) (s : State ℝ) :
    Continuous (fun p : ℝ × ℝ =>
      (render (Host.mk Real.sqrt Real.exp fmt) { s with handleX := p.1, handleY := p.2 }).c1X) ∧
    Continuous (fun p : ℝ × ℝ =>
      (render (Host.mk Real.sqrt Real.exp fmt) { s with handleX := p.1, handleY := p.2 }).c1Y) ∧
    Continuous (fun p : ℝ × ℝ =>
      (render (Host.mk Real.sqrt Real.exp fmt) { s with handleX := p.1, handleY := p.2 }).c2X) ∧
    Continuous (fun p : ℝ × ℝ =>
      (render (Host.mk Real.sqrt Real.exp fmt) { s with handleX := p.1, handleY := p.2 }).c2Y) ∧
    (∀ t : State ℝ, drapeAmount (Host.mk Real.sqrt Real.exp fmt) t
      = max 0 (CORD_LENGTH - handleDistance (Host.mk Real.sqrt Real.exp fmt) t) * 0.7
          * slackRatio (Host.mk Real.sqrt Real.exp fmt) t) := by
  have hr := continuous_slackRatio fmt s
  have hd := continuous_drapeAmount fmt s
  refine ⟨?_, ?_, ?_, ?_, fun t => drapeAmount_eq_max _ t⟩
  · simp only [render, ctrl1X, straightCtrl1X, drapedCtrl1X]
    fun_prop
  · simp only [render, ctrl1Y, straightCtrl1Y, drapedCtrl1Y]
    fun_prop
  · simp only [render, ctrl2X, straightCtrl2X, drapedCtrl2X]
    fun_prop
  · simp only [render, ctrl2Y, straightCtrl2Y, drapedCtrl2Y]
    fun_prop

/-- C20 fails on the code: the straight control points are at the parameters
0.33 and 0.66 of the segment from the anchor to the handle, not at 1/3 and
2/3.  For the resting handle (50, 50) they are at heights 16.5 and 33, while
the points at one third and two thirds are at heights 50/3 and 100/3. -/
theorem straight_controls_not_thirds :
    (∀ s : State ℚ,
      straightCtrl1X s = ANCHOR_X + 33 / 100 * (s.handleX - ANCHOR_X) ∧
      straightCtrl1Y s = ANCHOR_Y + 33 / 100 * (s.handleY - ANCHOR_Y) ∧
      straightCtrl2X s = ANCHOR_X + 66 / 100 * (s.handleX - ANCHOR_X) ∧
      straightCtrl2Y s = ANCHOR_Y + 66 / 100 * (s.handleY - ANCHOR_Y)) ∧
    straightCtrl1Y (initialState : State ℚ) = 33 / 2 ∧
    ANCHOR_Y + ((initialState : State ℚ).handleY - ANCHOR_Y) / 3 = 50 / 3 ∧
    straightCtrl1Y (initialState : State ℚ)
      ≠ ANCHOR_Y + ((initialState : State ℚ).handleY - ANCHOR_Y) / 3 ∧
    straightCtrl2Y (initialState : State ℚ) = 33 ∧
    straightCtrl2Y (initialState : State ℚ)
      ≠ ANCHOR_Y + 2 * ((initialState : State ℚ).handleY - ANCHOR_Y) / 3 := by
  refine ⟨fun s => ⟨?_, ?_, ?_, ?_⟩, ?_, ?_, ?_, ?_, ?_⟩
  · simp only [straightCtrl1X]; norm_num; ring
  · simp only [straightCtrl1Y]; norm_num; ring
  · simp only [straightCtrl2X]; norm_num; ring
  · simp only [straightCtrl2Y]; norm_num; ring
  · norm_num [straightCtrl1Y, initialState]
  · norm_num [initialState]
  · norm_num [straightCtrl1Y, initialState]
  · norm_num [straightCtrl2Y, initialState]
  · norm_num [straightCtrl2Y, initialState]

/-! ## The positions written by the click-pull tween -/

section PullPositions
variable {K : Type} [LinearOrderedField K]

theorem animateDown_handle (h : Host K) (v : View K) (c : PullClosure K) (t : K) (s : State K) :
    (animateDown h v c t s).handleX = ANCHOR_X ∧
    (animateDown h v c t s).handleY
      = c.startY + (75 - c.startY) * (downProgress c t * downProgress c t) := by
  unfold animateDown
  dsimp only
  split_ifs <;> exact ⟨rfl, rfl⟩

theorem animateUp_handle_of_lt (c : PullClosure K) (t : K) (s : State K)
    (hp : upProgress c t < 1) :
    (animateUp c t s).handleX = ANCHOR_X ∧
    (animateUp c t s).handleY
      = 75 + (50 - 75) * (1 - (1 - upProgress c t) * (1 - upProgress c t)) := by
  unfold animateUp
  simp only [hp, if_true, true_and]
  rfl

/-- The pull-up height `75 + (50 - 75) * (1 - (1 - p)²)`. -/
theorem pullUp_height_eq (p : K) :
    75 + (50 - 75) * (1 - (1 - p) * (1 - p)) = 50 + 25 * ((1 - p) * (1 - p)) := by ring

end PullPositions

/-- C18: in every frame of the click-pull animation, for every start height,
`handleX = ANCHOR_X`; a pull-down frame at progress `p` leaves
`handleY = startY + (75 - startY) * p²`, which is exactly 75 at `p = 1`; a
pull-up frame at progress `p < 1` leaves
`handleY = 75 + (50 - 75) * (1 - (1 - p)²)`, a value that lies in [50, 75]
and does not increase with `p` on [0, 1]; and the pull-up frame that
completes (progress not below 1) leaves the handle exactly at (50, 50) with
`isAnimating` false. -/
theorem pull_positions {K : Type} [LinearOrderedField K]
    (h : Host K) (v : View K) (c : PullClosure K) (t : K) (s : State K) :
    (animateDown h v c t s).handleX = ANCHOR_X ∧
    (animateDown h v c t s).handleY
      = c.startY + (75 - c.startY) * (downProgress c t * downProgress c t) ∧
    (downProgress c t = 1 → (animateDown h v c t s).handleY = 75) ∧
    (animateUp c t s).handleX = ANCHOR_X ∧
    (upProgress c t < 1 →
      (animateUp c t s).handleY
        = 75 + (50 - 75) * (1 - (1 - upProgress c t) * (1 - upProgress c t))) ∧
    (∀ p : K, 0 ≤ p → p ≤ 1 →
      50 ≤ 75 + (50 - 75) * (1 - (1 - p) * (1 - p)) ∧
      75 + (50 - 75) * (1 - (1 - p) * (1 - p)) ≤ 75) ∧
    (∀ p q : K, 0 ≤ p → p ≤ q → q ≤ 1 →
      75 + (50 - 75) * (1 - (1 - q) * (1 - q)) ≤ 75 + (50 - 75) * (1 - (1 - p) * (1 - p))) ∧
    (0 ≤ upProgress c t → 50 ≤ (animateUp c t s).handleY ∧ (animateUp c t s).handleY ≤ 75) ∧
    (¬ upProgress c t < 1 →
      (animateUp c t s).handleX = 50 ∧ (animateUp c t s).handleY = 50 ∧
      (animateUp c t s).isAnimating = false) := by
  obtain ⟨dx, dy⟩ := animateDown_handle h v c t s
  have hbox : ∀ p : K, 0 ≤ p → p ≤ 1 →
      50 ≤ 75 + (50 - 75) * (1 - (1 - p) * (1 - p)) ∧
      75 + (50 - 75) * (1 - (1 - p) * (1 - p)) ≤ 75 := by
    intro p h0 h1
    rw [pullUp_height_eq]
    constructor
    · nlinarith [mul_self_nonneg (1 - p)]
    · nlinarith [mul_nonneg h0 (by linarith : (0 : K) ≤ 1 - p)]
  refine ⟨dx, dy, ?_, ?_, ?_, hbox, ?_, ?_, ?_⟩
  · intro hp
    rw [dy, hp]; ring
  · by_cases hp : upProgress c t < 1
    · exact (animateUp_handle_of_lt c t s hp).1
    · exact (animateUp_of_not_lt c t s hp).2.2.2.1
  · intro hp
    exact (animateUp_handle_of_lt c t s hp).2
  · intro p q h0 hpq h1
    rw [pullUp_height_eq, pullUp_height_eq]
    nlinarith [mul_nonneg (by linarith : (0 : K) ≤ q - p) (by linarith : (0 : K) ≤ 2 - p - q)]
  · intro h0
    by_cases hp : upProgress c t < 1
    · rw [(animateUp_handle_of_lt c t s hp).2]
      exact hbox _ h0 hp.le
    · rw [(animateUp_of_not_lt c t s hp).2.2.2.2]
      constructor <;> norm_num
  · intro hp
    obtain ⟨_, _, a, x, y⟩ := animateUp_of_not_lt c t s hp
    exact ⟨x, y, a⟩

/-! ## The constraint branch of the physics step -/

section ConstraintBranch
variable {K : Type} [LinearOrderedField K]

/-- The state `integrate` returns when the integrated position is beyond the
rest length. -/
theorem integrate_of_gt (h : Host K) (s : State K) (hd : CORD_LENGTH < newDistance h s) :
    (integrate h s).handleX = ANCHOR_X + newDx s / newDistance h s * CORD_LENGTH ∧
    (integrate h s).handleY = ANCHOR_Y + newDy s / newDistance h s * CORD_LENGTH ∧
    (integrate h s).velocityX
      = (if steppedVelocityX s * (newDx s / newDistance h s)
            + steppedVelocityY s * (newDy s / newDistance h s) > 0
          then steppedVelocityX s
            - (steppedVelocityX s * (newDx s / newDistance h s)
                + steppedVelocityY s * (newDy s / newDistance h s)) * (newDx s / newDistance h s)
          else steppedVelocityX s) ∧
    (integrate h s).velocityY
      = (if steppedVelocityX s * (newDx s / newDistance h s)
            + steppedVelocityY s * (newDy s / newDistance h s) > 0
          then steppedVelocityY s
            - (steppedVelocityX s * (newDx s / newDistance h s)
                + steppedVelocityY s * (newDy s / newDistance h s)) * (newDy s / newDistance h s)
          else steppedVelocityY s) := by
  have hd' := hd
  simp only [newDistance, newDx, newDy, steppedVelocityX, steppedVelocityY] at hd'
  unfold integrate
  simp only [gt_iff_lt, hd', if_true, newDistance, newDx, newDy, steppedVelocityX,
    steppedVelocityY]
  split_ifs <;> exact ⟨rfl, rfl, rfl, rfl⟩

end ConstraintBranch

/-- C17: in a physics step whose integrated position lies beyond the rest
length, the handle is moved to the point at distance exactly 50 on the same
ray from the anchor; the resulting velocity has non-positive component along
the outward unit direction, its component perpendicular to that direction is
the one it had after gravity and damping, and when the outward component was
already non-positive the velocity is not changed. -/
theorem constraint_projects_and_removes_outward (fmt : ℝ → String) (s : State ℝ)
    (hd : CORD_LENGTH < newDistance (Host.mk Real.sqrt Real.exp fmt) s) :
    handleDistance (Host.mk Real.sqrt Real.exp fmt)
        (integrate (Host.mk Real.sqrt Real.exp fmt) s) = 50 ∧
    0 < 50 / newDistance (Host.mk Real.sqrt Real.exp fmt) s ∧
    (integrate (Host.mk Real.sqrt Real.exp fmt) s).handleX - ANCHOR_X
      = 50 / newDistance (Host.mk Real.sqrt Real.exp fmt) s * newDx s ∧
    (integrate (Host.mk Real.sqrt Real.exp fmt) s).handleY - ANCHOR_Y
      = 50 / newDistance (Host.mk Real.sqrt Real.exp fmt) s * newDy s ∧
    (integrate (Host.mk Real.sqrt Real.exp fmt) s).velocityX
        * (newDx s / newDistance (Host.mk Real.sqrt Real.exp fmt) s)
      + (integrate (Host.mk Real.sqrt Real.exp fmt) s).velocityY
        * (newDy s / newDistance (Host.mk Real.sqrt Real.exp fmt) s) ≤ 0 ∧
    (integrate (Host.mk Real.sqrt Real.exp fmt) s).velocityX
        * (-(newDy s / newDistance (Host.mk Real.sqrt Real.exp fmt) s))
      + (integrate (Host.mk Real.sqrt Real.exp fmt) s).velocityY
        * (newDx s / newDistance (Host.mk Real.sqrt Real.exp fmt) s)
      = steppedVelocityX s * (-(newDy s / newDistance (Host.mk Real.sqrt Real.exp fmt) s))
        + steppedVelocityY s * (newDx s / newDistance (Host.mk Real.sqrt Real.exp fmt) s) ∧
    (steppedVelocityX s * (newDx s / newDistance (Host.mk Real.sqrt Real.exp fmt) s)
        + steppedVelocityY s * (newDy s / newDistance (Host.mk Real.sqrt Real.exp fmt) s) ≤ 0 →
      (integrate (Host.mk Real.sqrt Real.exp fmt) s).velocityX = steppedVelocityX s ∧
      (integrate (Host.mk Real.sqrt Real.exp fmt) s).velocityY = steppedVelocityY s) := by
  obtain ⟨hx, hy, hvx, hvy⟩ := integrate_of_gt (Host.mk Real.sqrt Real.exp fmt) s hd
  obtain ⟨r, hr⟩ : ∃ r, r = newDistance (Host.mk Real.sqrt Real.exp fmt) s := ⟨_, rfl⟩
  have hr' : r = Real.sqrt (newDx s * newDx s + newDy s * newDy s) := hr
  rw [← hr] at hx hy hvx hvy hd ⊢
  have hrpos : 0 < r := lt_trans (by norm_num) hd
  have hrpos' : 0 < Real.sqrt (newDx s * newDx s + newDy s * newDy s) := hr' ▸ hrpos
  have hn : newDx s / r * (newDx s / r) + newDy s / r * (newDy s / r) = 1 := by
    rw [hr']; exact unit_dir _ _ hrpos'
  obtain ⟨nx, hnx⟩ : ∃ nx, nx = newDx s / r := ⟨_, rfl⟩
  obtain ⟨ny, hny⟩ : ∃ ny, ny = newDy s / r := ⟨_, rfl⟩
  simp only [← hnx, ← hny] at hx hy hvx hvy hn ⊢
  refine ⟨?_, by positivity, ?_, ?_, ?_, ?_, ?_⟩
  · simp only [handleDistance]
    rw [hx, hy]
    have : (ANCHOR_X + nx * CORD_LENGTH - ANCHOR_X) * (ANCHOR_X + nx * CORD_LENGTH - ANCHOR_X)
        + (ANCHOR_Y + ny * CORD_LENGTH - ANCHOR_Y) * (ANCHOR_Y + ny * CORD_LENGTH - ANCHOR_Y)
        = 50 * 50 * (nx * nx + ny * ny) := by
      simp only [CORD_LENGTH]; ring
    rw [this, hn, mul_one]
    exact Real.sqrt_mul_self (by norm_num)
  · rw [hx, hnx]; simp only [CORD_LENGTH]; field_simp; ring
  · rw [hy, hny]; simp only [CORD_LENGTH]; field_simp; ring
  · rw [hvx, hvy]
    split_ifs with hw
    · have : (steppedVelocityX s - (steppedVelocityX s * nx + steppedVelocityY s * ny) * nx) * nx
          + (steppedVelocityY s - (steppedVelocityX s * nx + steppedVelocityY s * ny) * ny) * ny
          = (steppedVelocityX s * nx + steppedVelocityY s * ny) * (1 - (nx * nx + ny * ny)) := by
        ring
      rw [this, hn]; simp
    · exact not_lt.mp hw
  · rw [hvx, hvy]
    split_ifs with hw
    · ring
    · rfl
  · intro hle
    rw [hvx, hvy]
    simp only [gt_iff_lt, not_lt.mpr hle, if_false, and_self]

/-- The integrated position of the resting handle is 0.38 below the rest
point. -/
theorem newDistance_rest (fmt : ℝ → String) :
    newDistance (Host.mk Real.sqrt Real.exp fmt) initialState = 50.38 := by
  have hx : newDx (initialState : State ℝ) = 0 := by
    norm_num [newDx, steppedVelocityX, initialState]
  have hy : newDy (initialState : State ℝ) = 50.38 := by
    norm_num [newDy, steppedVelocityY, initialState]
  simp only [newDistance, hx, hy, mul_zero, zero_add]
  exact Real.sqrt_mul_self (by norm_num)

/-- Witness for C17: the physics step from the resting handle. -/
theorem constraint_projects_and_removes_outward_witness :
    CORD_LENGTH < newDistance (Host.mk Real.sqrt Real.exp (fun _ => "")) initialState ∧
    handleDistance (Host.mk Real.sqrt Real.exp (fun _ => ""))
        (integrate (Host.mk Real.sqrt Real.exp (fun _ => "")) initialState) = 50 :=
  have hd : CORD_LENGTH < newDistance (Host.mk Real.sqrt Real.exp (fun _ => "")) initialState := by
    rw [newDistance_rest]; norm_num
  ⟨hd, (constraint_projects_and_removes_outward (fun _ => "") initialState hd).1⟩

/-! ## The rest state under the physics step -/

/-- The physics step from the rest state, computed explicitly: the handle is
integrated to (50, 50.38), projected back to (50, 50), and the outward
velocity 0.38 is removed. -/
theorem integrate_rest (fmt : ℝ → String) (s : State ℝ) (hx : s.handleX = 50)
    (hy : s.handleY = 50) (hvx : s.velocityX = 0) (hvy : s.velocityY = 0) :
    newDistance (Host.mk Real.sqrt Real.exp fmt) s = 50.38 ∧
    (integrate (Host.mk Real.sqrt Real.exp fmt) s).handleX = 50 ∧
    (integrate (Host.mk Real.sqrt Real.exp fmt) s).handleY = 50 ∧
    (integrate (Host.mk Real.sqrt Real.exp fmt) s).velocityX = 0 ∧
    (integrate (Host.mk Real.sqrt Real.exp fmt) s).velocityY = 0 := by
  have e1 : steppedVelocityX s = 0 := by norm_num [steppedVelocityX, hvx]
  have e2 : steppedVelocityY s = 0.38 := by norm_num [steppedVelocityY, hvy]
  have e3 : newDx s = 0 := by norm_num [newDx, e1, hx]
  have e4 : newDy s = 50.38 := by norm_num [newDy, e2, hy]
  have e5 : newDistance (Host.mk Real.sqrt Real.exp fmt) s = 50.38 := by
    simp only [newDistance, e3, e4, mul_zero, zero_add]
    exact Real.sqrt_mul_self (by norm_num)
  obtain ⟨a, b, c, d⟩ := integrate_of_gt (Host.mk Real.sqrt Real.exp fmt) s
    (by rw [e5]; norm_num)
  simp only [e5, e1, e2, e3, e4] at a b c d
  refine ⟨e5, ?_, ?_, ?_, ?_⟩
  · rw [a]; norm_num
  · rw [b]; norm_num
  · rw [c]; norm_num
  · rw [d]; norm_num

/-- C19: the hanging rest state is absorbing for the physics step.  From
handle (50, 50) with velocity (0, 0) and no drag, the state computed by
gravity, damping, projection and outward-velocity removal passes the settle
test, and `animate` leaves handle (50, 50), velocity (0, 0),
`isAnimating = false` and requests no frame; delivered as the one requested
frame, it leaves nothing requested. -/
theorem rest_state_absorbing (fmt : ℝ → String) (s : State ℝ) (f : Frame ℝ)
    (hd : s.isDragging = false) (hx : s.handleX = 50) (hy : s.handleY = 50)
    (hvx : s.velocityX = 0) (hvy : s.velocityY = 0) :
    (integrate (Host.mk Real.sqrt Real.exp fmt) s).handleX = 50 ∧
    (integrate (Host.mk Real.sqrt Real.exp fmt) s).handleY = 50 ∧
    (integrate (Host.mk Real.sqrt Real.exp fmt) s).velocityX = 0 ∧
    (integrate (Host.mk Real.sqrt Real.exp fmt) s).velocityY = 0 ∧
    isSettled (integrate (Host.mk Real.sqrt Real.exp fmt) s) = true ∧
    (animate (Host.mk Real.sqrt Real.exp fmt) s).handleX = 50 ∧
    (animate (Host.mk Real.sqrt Real.exp fmt) s).handleY = 50 ∧
    (animate (Host.mk Real.sqrt Real.exp fmt) s).velocityX = 0 ∧
    (animate (Host.mk Real.sqrt Real.exp fmt) s).velocityY = 0 ∧
    (animate (Host.mk Real.sqrt Real.exp fmt) s).isAnimating = false ∧
    (animate (Host.mk Real.sqrt Real.exp fmt) s).frameQueue = s.frameQueue ∧
    (s.frameQueue = [FrameCallback.animate] →
      AtRest (runFrame (Host.mk Real.sqrt Real.exp fmt) f.view f.time s)) := by
  have hset : ∀ t : State ℝ, t.handleX = 50 → t.handleY = 50 → t.velocityX = 0 →
      t.velocityY = 0 → isSettled (integrate (Host.mk Real.sqrt Real.exp fmt) t) = true := by
    intro t tx ty tvx tvy
    have hin : WithinRest t := by
      simp only [WithinRest, tx, ty]; norm_num
    have hE : energy t = 0 := by
      simp only [energy, ty, tvx, tvy]; norm_num
    obtain ⟨j1, j2⟩ := integrate_energy fmt t hin
    rw [hE] at j2
    exact isSettled_of_energy_lt _ j1 (by linarith)
  have h1 := hset s hx hy hvx hvy
  obtain ⟨a, b, c, d, e, g⟩ := animate_settled (Host.mk Real.sqrt Real.exp fmt) s hd h1
  obtain ⟨_, i1, i2, i3, i4⟩ := integrate_rest fmt s hx hy hvx hvy
  refine ⟨i1, i2, i3, i4, h1, a, by rw [b]; norm_num, c, d, e, g, ?_⟩
  intro hq
  rw [runFrame_animate _ _ _ _ hq]
  have h2 := hset { s with frameQueue := [] } hx hy hvx hvy
  obtain ⟨a', b', c', d', e', g'⟩ :=
    animate_settled (Host.mk Real.sqrt Real.exp fmt) { s with frameQueue := [] } hd h2
  exact ⟨a', b', c', d', e', g'⟩

/-- Witness for C19: the physics loop started on the initial state. -/
theorem rest_state_absorbing_witness :
    (startPhysicsAnimation (initialState : State ℝ)).isDragging = false ∧
    (startPhysicsAnimation (initialState : State ℝ)).handleX = 50 ∧
    (startPhysicsAnimation (initialState : State ℝ)).handleY = 50 ∧
    (startPhysicsAnimation (initialState : State ℝ)).velocityX = 0 ∧
    (startPhysicsAnimation (initialState : State ℝ)).velocityY = 0 ∧
    AtRest (runFrame (Host.mk Real.sqrt Real.exp (fun _ => "")) sampleView 1000
      (startPhysicsAnimation initialState)) :=
  ⟨rfl, rfl, rfl, rfl, rfl,
    (rest_state_absorbing (fun _ => "") (startPhysicsAnimation initialState)
      ⟨1000, sampleView⟩ rfl rfl rfl rfl rfl).2.2.2.2.2.2.2.2.2.2.2 rfl⟩

/-! ## Scenario A: a drag to raw distance 120 -/

theorem exp_neg_seven_tenths_bounds :
    (0.49655 : ℝ) < Real.exp (-(7 / 10)) ∧ Real.exp (-(7 / 10)) < 0.49662 := by
  have h := Real.exp_bound (x := -(7 / 10)) (by rw [abs_neg, abs_of_pos] <;> norm_num)
    (n := 8) (by norm_num)
  simp only [Finset.sum_range_succ, Finset.sum_range_zero, Nat.factorial] at h
  rw [abs_le] at h
  obtain ⟨h1, h2⟩ := h
  have habs : |(7 / 10 : ℝ)| = 7 / 10 := abs_of_pos (by norm_num)
  rw [abs_neg, habs] at h1 h2
  norm_num at h1 h2
  constructor <;> linarith

theorem exp_neg_seven_fifths_bounds :
    (0.2464 : ℝ) < Real.exp (-70 / 50) ∧ Real.exp (-70 / 50) < 0.2468 := by
  obtain ⟨h1, h2⟩ := exp_neg_seven_tenths_bounds
  have e : Real.exp (-70 / 50) = Real.exp (-(7 / 10)) * Real.exp (-(7 / 10)) := by
    rw [← Real.exp_add]; congr 1; norm_num
  rw [e]
  have hpos := Real.exp_pos (-(7 / 10))
  constructor <;> nlinarith

/-- C11 (scenario A): in a fresh drag session (`startDrag` from any state),
an `onDrag` update whose raw position is at distance 120 from the anchor
invokes `toggleMode` exactly once and leaves the handle at distance exactly
`50 + 50 * (1 - exp (-70 / 50))` from the anchor, on the ray from the anchor
through the raw position; that distance lies between 87.66 and 87.68. -/
theorem scenario_drag_to_120 (fmt : ℝ → String) (s0 : State ℝ) (x0 y0 : ℝ) (v0 : View ℝ)
    (x y : ℝ) (v : View ℝ)
    (hr : rawDistance (Host.mk Real.sqrt Real.exp fmt) x y v (startDrag x0 y0 v0 s0) = 120) :
    (onDrag (Host.mk Real.sqrt Real.exp fmt) x y v (startDrag x0 y0 v0 s0)).toggleCalls
      = s0.toggleCalls + 1 ∧
    handleDistance (Host.mk Real.sqrt Real.exp fmt)
        (onDrag (Host.mk Real.sqrt Real.exp fmt) x y v (startDrag x0 y0 v0 s0))
      = 50 + 50 * (1 - Real.exp (-70 / 50)) ∧
    (onDrag (Host.mk Real.sqrt Real.exp fmt) x y v (startDrag x0 y0 v0 s0)).handleX - ANCHOR_X
      = (50 + 50 * (1 - Real.exp (-70 / 50))) / 120
          * (rawX x v (startDrag x0 y0 v0 s0) - ANCHOR_X) ∧
    (onDrag (Host.mk Real.sqrt Real.exp fmt) x y v (startDrag x0 y0 v0 s0)).handleY - ANCHOR_Y
      = (50 + 50 * (1 - Real.exp (-70 / 50))) / 120
          * (rawY y v (startDrag x0 y0 v0 s0) - ANCHOR_Y) ∧
    (87.66 : ℝ) < 50 + 50 * (1 - Real.exp (-70 / 50)) ∧
    50 + 50 * (1 - Real.exp (-70 / 50)) < (87.68 : ℝ) := by
  have hs : (startDrag x0 y0 v0 s0).isDragging = true := rfl
  have hc : (startDrag x0 y0 v0 s0).hasCrossedThreshold = false := rfl
  have hgt : (50 : ℝ) < rawDistance (Host.mk Real.sqrt Real.exp fmt) x y v
      (startDrag x0 y0 v0 s0) := by rw [hr]; norm_num
  have hA : actualDistance (Host.mk Real.sqrt Real.exp fmt) 120
      = 50 + 50 * (1 - Real.exp (-70 / 50)) := by
    rw [actualDistance_real]; norm_num
  obtain ⟨_, _, ht⟩ := onDragP_flags (Host.mk Real.sqrt Real.exp fmt)
    (startDrag x0 y0 v0 s0) ⟨x, y, v⟩ hs
  have ht' : (onDrag (Host.mk Real.sqrt Real.exp fmt) x y v (startDrag x0 y0 v0 s0)).toggleCalls
      = (if TOGGLE_THRESHOLD < rawDistance (Host.mk Real.sqrt Real.exp fmt) x y v
            (startDrag x0 y0 v0 s0) ∧ (startDrag x0 y0 v0 s0).hasCrossedThreshold = false
          then (startDrag x0 y0 v0 s0).toggleCalls + 1
          else (startDrag x0 y0 v0 s0).toggleCalls) := ht
  obtain ⟨hx, hy⟩ := onDrag_handle_of_gt (Host.mk Real.sqrt Real.exp fmt) x y v _ hs hgt
  have hd := onDrag_handleDistance_of_gt fmt x y v _ hs hgt
  obtain ⟨b1, b2⟩ := exp_neg_seven_fifths_bounds
  rw [hr, hA] at hx hy hd
  refine ⟨?_, hd, ?_, ?_, by linarith, by linarith⟩
  · rw [ht', hr, hc]
    norm_num
    rfl
  · rw [hx]; ring
  · rw [hy]; ring

/-- Witness for C11: pressed on the resting handle and dragged straight down
to y = 120. -/
theorem scenario_drag_to_120_witness :
    rawDistance (Host.mk Real.sqrt Real.exp (fun _ => "")) 50 120 sampleView
      (startDrag 50 50 sampleView initialState) = 120 ∧
    (onDrag (Host.mk Real.sqrt Real.exp (fun _ => "")) 50 120 sampleView
      (startDrag 50 50 sampleView initialState)).toggleCalls = 1 ∧
    handleDistance (Host.mk Real.sqrt Real.exp (fun _ => ""))
        (onDrag (Host.mk Real.sqrt Real.exp (fun _ => "")) 50 120 sampleView
          (startDrag 50 50 sampleView initialState))
      = 50 + 50 * (1 - Real.exp (-70 / 50)) := by
  have hr : rawDistance (Host.mk Real.sqrt Real.exp (fun _ => "")) 50 120 sampleView
      (startDrag 50 50 sampleView initialState) = 120 := by
    have h0 : max (0 : ℝ) (120 - 0 - (50 - 0 - 50) * (1 - 0.1)) = 120 := by norm_num
    simp only [rawDistance, rawX, rawY, decayedOffset, startDrag, initialState, sampleView, h0]
    have : ((50 : ℝ) - 0 - (50 - 0 - 50) * (1 - 0.1) - 50)
          * (50 - 0 - (50 - 0 - 50) * (1 - 0.1) - 50)
        + (120 - 0) * (120 - 0) = 120 * 120 := by norm_num
    rw [this]
    exact Real.sqrt_mul_self (by norm_num)
  have t := scenario_drag_to_120 (fun _ => "") initialState 50 50 sampleView 50 120 sampleView hr
  exact ⟨hr, t.1, t.2.1⟩

/-! ## The velocity handed to the physics loop -/

section ReleaseVelocity
variable {K : Type} [LinearOrderedField K]

theorem endDrag_velocity_of_gt (h : Host K) (s : State K) (hs : s.isDragging = true)
    (hdd : s.didDrag = true) (hd : CORD_LENGTH < handleDistance h s) :
    (endDrag h s).velocityX
      = -((s.handleX - ANCHOR_X) / handleDistance h s) * (handleDistance h s - CORD_LENGTH)
          * SNAP_BACK_FORCE ∧
    (endDrag h s).velocityY
      = -((s.handleY - ANCHOR_Y) / handleDistance h s) * (handleDistance h s - CORD_LENGTH)
          * SNAP_BACK_FORCE := by
  have hd' := hd
  simp only [handleDistance] at hd'
  unfold endDrag startPhysicsAnimation
  simp only [hs, hdd, Bool.not_true, Bool.false_eq_true, if_false, gt_iff_lt, hd', if_true,
    handleDistance, and_self]

theorem endDrag_velocity_of_le (h : Host K) (s : State K)
    (hd : handleDistance h s ≤ CORD_LENGTH) :
    (endDrag h s).velocityX = s.velocityX ∧ (endDrag h s).velocityY = s.velocityY := by
  have hd' : ¬ CORD_LENGTH < h.sqrt ((s.handleX - ANCHOR_X) * (s.handleX - ANCHOR_X)
      + (s.handleY - ANCHOR_Y) * (s.handleY - ANCHOR_Y)) := not_lt.mpr hd
  unfold endDrag startPhysicsAnimation
  simp only [gt_iff_lt, hd', if_false]
  split_ifs <;> exact ⟨rfl, rfl⟩

end ReleaseVelocity

theorem onDrag_handleDistance_lt (fmt : ℝ → String) (x y : ℝ) (v : View ℝ) (s : State ℝ)
    (hs : s.isDragging = true) :
    handleDistance (Host.mk Real.sqrt Real.exp fmt)
      (onDrag (Host.mk Real.sqrt Real.exp fmt) x y v s) < 100 := by
  rcases lt_or_le 50 (rawDistance (Host.mk Real.sqrt Real.exp fmt) x y v s) with hd | hd
  · rw [onDrag_handleDistance_of_gt fmt x y v s hs hd]
    exact actualDistance_real_lt fmt _
  · rw [onDrag_handleDistance_of_le fmt x y v s hs hd]
    linarith

/-! ## A release without stretch after an interrupted physics run -/

section FreeStep
variable {K : Type} [LinearOrderedField K]

/-- The state `integrate` returns when the integrated position is within the
rest length. -/
theorem integrate_of_le (h : Host K) (s : State K) (hd : newDistance h s ≤ CORD_LENGTH) :
    (integrate h s).handleX = s.handleX + steppedVelocityX s ∧
    (integrate h s).handleY = s.handleY + steppedVelocityY s ∧
    (integrate h s).velocityX = steppedVelocityX s ∧
    (integrate h s).velocityY = steppedVelocityY s := by
  have hd' := not_lt.mpr hd
  simp only [newDistance, newDx, newDy, steppedVelocityX, steppedVelocityY] at hd'
  unfold integrate
  simp only [gt_iff_lt, hd', if_false, steppedVelocityX, steppedVelocityY, and_self]

/-- A physics frame delivered during an active drag stops the loop and leaves
the handle, the velocity and the drag flags as they are. -/
theorem runFrame_animate_dragging (h : Host ℝ) (v : View ℝ) (t : ℝ) (s : State ℝ)
    (hq : s.frameQueue = [FrameCallback.animate]) (hd : s.isDragging = true) :
    (runFrame h v t s).handleX = s.handleX ∧ (runFrame h v t s).handleY = s.handleY ∧
    (runFrame h v t s).velocityX = s.velocityX ∧ (runFrame h v t s).velocityY = s.velocityY ∧
    (runFrame h v t s).isDragging = true ∧ (runFrame h v t s).didDrag = s.didDrag ∧
    (runFrame h v t s).grabOffsetX = s.grabOffsetX ∧
    (runFrame h v t s).grabOffsetY = s.grabOffsetY ∧
    (runFrame h v t s).isAnimating = false ∧ (runFrame h v t s).frameQueue = [] := by
  rw [runFrame_animate h v t s hq]
  unfold animate
  simp only [hd, if_true, and_self]

end FreeStep

/-- An `onDrag` update whose raw target is straight below the anchor, within
the rest length. -/
theorem onDrag_slack (fmt : ℝ → String) (x y : ℝ) (v : View ℝ) (s : State ℝ) (r : ℝ)
    (hs : s.isDragging = true) (hx : rawX x v s = 50) (hy : rawY y v s = r)
    (h0 : 0 ≤ r) (h50 : r ≤ 50) :
    (onDrag (Host.mk Real.sqrt Real.exp fmt) x y v s).handleX = 50 ∧
    (onDrag (Host.mk Real.sqrt Real.exp fmt) x y v s).handleY = r ∧
    (onDrag (Host.mk Real.sqrt Real.exp fmt) x y v s).velocityX = s.velocityX ∧
    (onDrag (Host.mk Real.sqrt Real.exp fmt) x y v s).velocityY = s.velocityY ∧
    (onDrag (Host.mk Real.sqrt Real.exp fmt) x y v s).isDragging = true ∧
    (onDrag (Host.mk Real.sqrt Real.exp fmt) x y v s).didDrag = true ∧
    (onDrag (Host.mk Real.sqrt Real.exp fmt) x y v s).frameQueue = s.frameQueue := by
  have hr : rawDistance (Host.mk Real.sqrt Real.exp fmt) x y v s = r := by
    simp only [rawDistance, hx, hy, ANCHOR_X, ANCHOR_Y, sub_self, mul_zero, zero_add, sub_zero]
    exact Real.sqrt_mul_self h0
  obtain ⟨a, b⟩ := onDrag_handle_of_le (Host.mk Real.sqrt Real.exp fmt) x y v s hs
    (by rw [hr]; exact h50)
  obtain ⟨c, d⟩ := onDrag_velocity (Host.mk Real.sqrt Real.exp fmt) x y v s
  exact ⟨a.trans hx, b.trans hy, c, d, (onDrag_isDragging _ x y v s).trans hs,
    onDrag_didDrag _ x y v s hs, onDrag_frameQueue _ x y v s⟩

/-- The release of a drag with movement whose handle is straight below the
anchor, within the rest length: the velocity is handed over as it is. -/
theorem endDrag_slack (fmt : ℝ → String) (s : State ℝ) (r : ℝ)
    (hs : s.isDragging = true) (hdd : s.didDrag = true) (hx : s.handleX = 50)
    (hy : s.handleY = r) (h0 : 0 ≤ r) (h50 : r ≤ 50) :
    handleDistance (Host.mk Real.sqrt Real.exp fmt) (endDrag (Host.mk Real.sqrt Real.exp fmt) s)
      = r ∧
    (endDrag (Host.mk Real.sqrt Real.exp fmt) s).handleX = 50 ∧
    (endDrag (Host.mk Real.sqrt Real.exp fmt) s).handleY = r ∧
    (endDrag (Host.mk Real.sqrt Real.exp fmt) s).velocityX = s.velocityX ∧
    (endDrag (Host.mk Real.sqrt Real.exp fmt) s).velocityY = s.velocityY ∧
    (endDrag (Host.mk Real.sqrt Real.exp fmt) s).isDragging = false ∧
    (endDrag (Host.mk Real.sqrt Real.exp fmt) s).isAnimating = true ∧
    (endDrag (Host.mk Real.sqrt Real.exp fmt) s).frameQueue
      = s.frameQueue ++ [FrameCallback.animate] := by
  have hdist : handleDistance (Host.mk Real.sqrt Real.exp fmt) s = r := by
    rw [handleDistance_vertical fmt s hx (by rw [hy]; exact h0), hy]
  obtain ⟨a, b⟩ := endDrag_handle (Host.mk Real.sqrt Real.exp fmt) s
  obtain ⟨c, d⟩ := endDrag_velocity_of_le (Host.mk Real.sqrt Real.exp fmt) s
    (by rw [hdist]; exact h50)
  obtain ⟨e, f, g⟩ := endDrag_of_dragged (Host.mk Real.sqrt Real.exp fmt) s hs hdd
  refine ⟨?_, a.trans hx, b.trans hy, c, d, e, f, g⟩
  rw [handleDistance_congr _ _ s a b]
  exact hdist

/-- One physics frame from the handle at rest speed at (50, 20): it falls to
(50, 20.38) with velocity (0, 0.38) and the loop goes on. -/
theorem runFrame_free_fall (fmt : ℝ → String) (v : View ℝ) (t : ℝ) (s : State ℝ)
    (hd : s.isDragging = false) (hq : s.frameQueue = [FrameCallback.animate])
    (hx : s.handleX = 50) (hy : s.handleY = 20) (hvx : s.velocityX = 0)
    (hvy : s.velocityY = 0) :
    (runFrame (Host.mk Real.sqrt Real.exp fmt) v t s).handleX = 50 ∧
    (runFrame (Host.mk Real.sqrt Real.exp fmt) v t s).handleY = 20.38 ∧
    (runFrame (Host.mk Real.sqrt Real.exp fmt) v t s).velocityX = 0 ∧
    (runFrame (Host.mk Real.sqrt Real.exp fmt) v t s).velocityY = 0.38 ∧
    (runFrame (Host.mk Real.sqrt Real.exp fmt) v t s).isDragging = false ∧
    (runFrame (Host.mk Real.sqrt Real.exp fmt) v t s).frameQueue = [FrameCallback.animate] := by
  rw [runFrame_animate _ v t s hq]
  obtain ⟨u, hu⟩ : ∃ u : State ℝ, u = { s with frameQueue := [] } := ⟨_, rfl⟩
  have ud : u.isDragging = false := by rw [hu]; exact hd
  have ux : u.handleX = 50 := by rw [hu]; exact hx
  have uy : u.handleY = 20 := by rw [hu]; exact hy
  have uvx : u.velocityX = 0 := by rw [hu]; exact hvx
  have uvy : u.velocityY = 0 := by rw [hu]; exact hvy
  have uq : u.frameQueue = [] := by rw [hu]
  rw [← hu]
  have e1 : steppedVelocityX u = 0 := by norm_num [steppedVelocityX, uvx]
  have e2 : steppedVelocityY u = 0.38 := by norm_num [steppedVelocityY, uvy]
  have e3 : newDx u = 0 := by norm_num [newDx, e1, ux]
  have e4 : newDy u = 20.38 := by norm_num [newDy, e2, uy]
  have e5 : newDistance (Host.mk Real.sqrt Real.exp fmt) u = 20.38 := by
    simp only [newDistance, e3, e4, mul_zero, zero_add]
    exact Real.sqrt_mul_self (by norm_num)
  obtain ⟨a, b, c, d⟩ := integrate_of_le (Host.mk Real.sqrt Real.exp fmt) u
    (by rw [e5]; norm_num)
  rw [ux, e1] at a
  rw [uy, e2] at b
  rw [e1] at c
  rw [e2] at d
  obtain ⟨i1, i2, _⟩ := integrate_frame (Host.mk Real.sqrt Real.exp fmt) u
  have hns : isSettled (integrate (Host.mk Real.sqrt Real.exp fmt) u) = false := by
    have : ¬ |(integrate (Host.mk Real.sqrt Real.exp fmt) u).handleY - (ANCHOR_Y + CORD_LENGTH)|
        < 0.5 := by
      rw [b]; norm_num [abs_lt]
    simp only [isSettled, this, decide_False, Bool.and_false]
  rw [animate_running _ u ud hns]
  refine ⟨?_, ?_, c, d, i1.trans ud, ?_⟩
  · show (integrate _ u).handleX = 50
    rw [a]; norm_num
  · show (integrate _ u).handleY = 20.38
    rw [b]; norm_num
  · show (integrate _ u).frameQueue ++ [FrameCallback.animate] = [FrameCallback.animate]
    rw [i2, uq]
    rfl

/-- C12 fails on the code: `endDrag` leaves the velocity as it is when the
handle is within the rest length.  A slack drag is released at (50, 20) and
one physics frame gives the handle the velocity (0, 0.38); a second drag is
started during that physics run and released at (50, 30), at distance 30 from
the anchor; the physics loop is then started with velocity (0, 0.38), not
zero. -/
theorem stale_velocity_handed_over :
    handleDistance (Host.mk Real.sqrt Real.exp (fun _ => ""))
      (run (Host.mk Real.sqrt Real.exp (fun _ => "")) initialState staleVelocityDrag) = 30 ∧
    (run (Host.mk Real.sqrt Real.exp (fun _ => "")) initialState staleVelocityDrag).velocityX
      = 0 ∧
    (run (Host.mk Real.sqrt Real.exp (fun _ => "")) initialState staleVelocityDrag).velocityY
      = 0.38 ∧
    (run (Host.mk Real.sqrt Real.exp (fun _ => "")) initialState staleVelocityDrag).velocityY
      ≠ 0 ∧
    (run (Host.mk Real.sqrt Real.exp (fun _ => "")) initialState staleVelocityDrag).isAnimating
      = true ∧
    (run (Host.mk Real.sqrt Real.exp (fun _ => "")) initialState staleVelocityDrag).frameQueue
      = [FrameCallback.animate] := by
  simp only [run, staleVelocityDrag, List.foldl_cons, List.foldl_nil, step]
  obtain ⟨s1, h1⟩ : ∃ s1 : State ℝ, s1 = startDrag 50 50 sampleView initialState := ⟨_, rfl⟩
  rw [← h1]
  have s1d : s1.isDragging = true := by rw [h1]; rfl
  have s1x : rawX 50 sampleView s1 = 50 := by
    rw [h1]; norm_num [rawX, decayedOffset, startDrag, initialState, sampleView]
  have s1y : rawY 20 sampleView s1 = 20 := by
    rw [h1]; norm_num [rawY, decayedOffset, startDrag, initialState, sampleView]
  have s1vx : s1.velocityX = 0 := by rw [h1]; rfl
  have s1vy : s1.velocityY = 0 := by rw [h1]; rfl
  have s1q : s1.frameQueue = [] := by rw [h1]; rfl
  obtain ⟨a1, a2, a3, a4, a5, a6, a7⟩ := onDrag_slack (fun _ => "") 50 20 sampleView s1 20
    s1d s1x s1y (by norm_num) (by norm_num)
  obtain ⟨s2, h2⟩ : ∃ s2 : State ℝ,
    s2 = onDrag (Host.mk Real.sqrt Real.exp (fun _ => "")) 50 20 sampleView s1 := ⟨_, rfl⟩
  rw [← h2] at a1 a2 a3 a4 a5 a6 a7 ⊢
  obtain ⟨_, b1, b2, b3, b4, b5, _, b7⟩ := endDrag_slack (fun _ => "") s2 20 a5 a6 a1 a2
    (by norm_num) (by norm_num)
  obtain ⟨s3, h3⟩ : ∃ s3 : State ℝ,
    s3 = endDrag (Host.mk Real.sqrt Real.exp (fun _ => "")) s2 := ⟨_, rfl⟩
  rw [← h3] at b1 b2 b3 b4 b5 b7 ⊢
  rw [a7, s1q] at b7
  rw [a3, s1vx] at b3
  rw [a4, s1vy] at b4
  obtain ⟨c1, c2, c3, c4, c5, c6⟩ := runFrame_free_fall (fun _ => "") sampleView 1000 s3
    b5 b7 b1 b2 b3 b4
  obtain ⟨s4, h4⟩ : ∃ s4 : State ℝ,
    s4 = runFrame (Host.mk Real.sqrt Real.exp (fun _ => "")) sampleView 1000 s3 := ⟨_, rfl⟩
  rw [← h4] at c1 c2 c3 c4 c5 c6 ⊢
  obtain ⟨s5, h5⟩ : ∃ s5 : State ℝ, s5 = startDrag 50 20.38 sampleView s4 := ⟨_, rfl⟩
  rw [← h5]
  have s5d : s5.isDragging = true := by rw [h5]; rfl
  have s5q : s5.frameQueue = [FrameCallback.animate] := by rw [h5]; exact c6
  have s5gx : s5.grabOffsetX = 0 := by
    rw [h5]
    show (50 : ℝ) - sampleView.rectLeft - s4.handleX = 0
    rw [c1]; norm_num [sampleView]
  have s5gy : s5.grabOffsetY = 0 := by
    rw [h5]
    show (20.38 : ℝ) - sampleView.rectTop - s4.handleY = 0
    rw [c2]; norm_num [sampleView]
  have s5vx : s5.velocityX = 0 := by rw [h5]; exact c3
  have s5vy : s5.velocityY = 0.38 := by rw [h5]; exact c4
  obtain ⟨_, _, d3, d4, d5, _, d7, d8, _, d10⟩ := runFrame_animate_dragging
    (Host.mk Real.sqrt Real.exp (fun _ => "")) sampleView 1016 s5 s5q s5d
  obtain ⟨s6, h6⟩ : ∃ s6 : State ℝ,
    s6 = runFrame (Host.mk Real.sqrt Real.exp (fun _ => "")) sampleView 1016 s5 := ⟨_, rfl⟩
  rw [← h6] at d3 d4 d5 d7 d8 d10 ⊢
  have s6x : rawX 50 sampleView s6 = 50 := by
    simp only [rawX, decayedOffset, d7, s5gx, sampleView]; norm_num
  have s6y : rawY 30 sampleView s6 = 30 := by
    simp only [rawY, decayedOffset, d8, s5gy, sampleView]; norm_num
  obtain ⟨e1, e2, e3, e4, e5, e6, e7⟩ := onDrag_slack (fun _ => "") 50 30 sampleView s6 30
    d5 s6x s6y (by norm_num) (by norm_num)
  obtain ⟨s7, h7⟩ : ∃ s7 : State ℝ,
    s7 = onDrag (Host.mk Real.sqrt Real.exp (fun _ => "")) 50 30 sampleView s6 := ⟨_, rfl⟩
  rw [← h7] at e1 e2 e3 e4 e5 e6 e7 ⊢
  obtain ⟨f0, _, _, f3, f4, _, f6, f7⟩ := endDrag_slack (fun _ => "") s7 30 e5 e6 e1 e2
    (by norm_num) (by norm_num)
  rw [e3, d3, s5vx] at f3
  rw [e4, d4, s5vy] at f4
  rw [e7, d10] at f7
  refine ⟨f0, f3, f4, ?_, f6, f7⟩
  rw [f4]; norm_num

/-! ## The rubber band with the exponential the host supplies

`Math.exp` returns double-precision values: never negative, at most 1 on
non-positive arguments, and exactly 0 once the argument is below about
-745.2 (underflow).  The lemmas of this section take the exponential as a
parameter `e` with these properties; the function
`fun x => if x ≤ -746 then 0 else Real.exp x` is the exact exponential with
that underflow. -/

theorem underflow_exp_nonneg (x : ℝ) :
    0 ≤ (fun x : ℝ => if x ≤ -746 then 0 else Real.exp x) x := by
  show 0 ≤ (if x ≤ -746 then (0 : ℝ) else Real.exp x)
  split_ifs
  · exact le_refl 0
  · exact (Real.exp_pos x).le

theorem underflow_exp_le_one (x : ℝ) (hx : x ≤ 0) :
    (fun x : ℝ => if x ≤ -746 then 0 else Real.exp x) x ≤ 1 := by
  show (if x ≤ -746 then (0 : ℝ) else Real.exp x) ≤ 1
  split_ifs
  · norm_num
  · exact Real.exp_le_one_iff.mpr hx

theorem underflow_exp_mono (a b : ℝ) (hab : a ≤ b) :
    (fun x : ℝ => if x ≤ -746 then 0 else Real.exp x) a
      ≤ (fun x : ℝ => if x ≤ -746 then 0 else Real.exp x) b := by
  show (if a ≤ -746 then (0 : ℝ) else Real.exp a) ≤ (if b ≤ -746 then (0 : ℝ) else Real.exp b)
  split_ifs with h1 h2 h2
  · exact le_refl 0
  · exact (Real.exp_pos b).le
  · exact absurd (le_trans hab h2) h1
  · exact Real.exp_le_exp.mpr hab

theorem actualDistance_host (e : ℝ → ℝ) (fmt : ℝ → String) (d : ℝ) :
    actualDistance (Host.mk Real.sqrt e fmt) d = 50 + 50 * (1 - e (-(d - 50) / 50)) := by
  simp only [actualDistance]
  norm_num

theorem actualDistance_host_le (e : ℝ → ℝ) (fmt : ℝ → String) (d : ℝ)
    (he0 : ∀ x, 0 ≤ e x) : actualDistance (Host.mk Real.sqrt e fmt) d ≤ 100 := by
  rw [actualDistance_host]
  have := he0 (-(d - 50) / 50)
  linarith

theorem actualDistance_host_ge (e : ℝ → ℝ) (fmt : ℝ → String) (d : ℝ)
    (he1 : ∀ x, x ≤ 0 → e x ≤ 1) (hd : 50 ≤ d) :
    50 ≤ actualDistance (Host.mk Real.sqrt e fmt) d := by
  rw [actualDistance_host]
  have harg : -(d - 50) / 50 ≤ 0 := by
    have h1 : 0 ≤ (d - 50) / 50 := div_nonneg (by linarith) (by norm_num)
    have h2 : -(d - 50) / 50 = -((d - 50) / 50) := neg_div _ _
    linarith
  have := he1 _ harg
  linarith

theorem handleDistance_vertical_host (e : ℝ → ℝ) (fmt : ℝ → String) (s : State ℝ)
    (hx : s.handleX = 50) (hy : 0 ≤ s.handleY) :
    handleDistance (Host.mk Real.sqrt e fmt) s = s.handleY := by
  simp only [handleDistance, hx, ANCHOR_X, ANCHOR_Y, sub_self, mul_zero, zero_add, sub_zero]
  exact Real.sqrt_mul_self hy

theorem onDrag_handleDistance_host_of_gt (e : ℝ → ℝ) (fmt : ℝ → String) (x y : ℝ)
    (v : View ℝ) (s : State ℝ) (he1 : ∀ x, x ≤ 0 → e x ≤ 1) (hs : s.isDragging = true)
    (hd : 50 < rawDistance (Host.mk Real.sqrt e fmt) x y v s) :
    handleDistance (Host.mk Real.sqrt e fmt) (onDrag (Host.mk Real.sqrt e fmt) x y v s)
      = actualDistance (Host.mk Real.sqrt e fmt)
          (rawDistance (Host.mk Real.sqrt e fmt) x y v s) := by
  obtain ⟨hx, hy⟩ := onDrag_handle_of_gt (Host.mk Real.sqrt e fmt) x y v s hs hd
  have hA := actualDistance_host_ge e fmt _ he1 hd.le
  unfold handleDistance
  rw [hx, hy]
  simp only [rawDistance] at hd ⊢
  have hr : 0 < Real.sqrt ((rawX x v s - ANCHOR_X) * (rawX x v s - ANCHOR_X)
      + (rawY y v s - ANCHOR_Y) * (rawY y v s - ANCHOR_Y)) := by linarith
  have := sqrt_rescale (rawX x v s - ANCHOR_X) (rawY y v s - ANCHOR_Y) _ hr
    (le_trans (by norm_num) hA)
  simp only [rawDistance] at this
  simpa using this

theorem onDrag_handleDistance_host_of_le (e : ℝ → ℝ) (fmt : ℝ → String) (x y : ℝ)
    (v : View ℝ) (s : State ℝ) (hs : s.isDragging = true)
    (hd : rawDistance (Host.mk Real.sqrt e fmt) x y v s ≤ 50) :
    handleDistance (Host.mk Real.sqrt e fmt) (onDrag (Host.mk Real.sqrt e fmt) x y v s)
      = rawDistance (Host.mk Real.sqrt e fmt) x y v s := by
  obtain ⟨hx, hy⟩ := onDrag_handle_of_le (Host.mk Real.sqrt e fmt) x y v s hs hd
  unfold handleDistance rawDistance
  rw [hx, hy]

theorem onDrag_handleDistance_host_le (e : ℝ → ℝ) (fmt : ℝ → String) (x y : ℝ)
    (v : View ℝ) (s : State ℝ) (he0 : ∀ x, 0 ≤ e x) (he1 : ∀ x, x ≤ 0 → e x ≤ 1)
    (hs : s.isDragging = true) :
    handleDistance (Host.mk Real.sqrt e fmt) (onDrag (Host.mk Real.sqrt e fmt) x y v s)
      ≤ 100 := by
  rcases lt_or_le 50 (rawDistance (Host.mk Real.sqrt e fmt) x y v s) with hd | hd
  · rw [onDrag_handleDistance_host_of_gt e fmt x y v s he1 hs hd]
    exact actualDistance_host_le e fmt _ he0
  · rw [onDrag_handleDistance_host_of_le e fmt x y v s hs hd]
    linarith

/-- The raw distance of the far drag: pressed on the resting handle, pulled
straight down to y = 40000. -/
theorem rawDistance_far (e : ℝ → ℝ) (fmt : ℝ → String) :
    rawDistance (Host.mk Real.sqrt e fmt) 50 40000 sampleView
      (startDrag 50 50 sampleView initialState) = 40000 := by
  have h0 : max (0 : ℝ) (40000 - 0 - (50 - 0 - 50) * (1 - 0.1)) = 40000 := by norm_num
  simp only [rawDistance, rawX, rawY, decayedOffset, startDrag, initialState, sampleView, h0]
  have : ((50 : ℝ) - 0 - (50 - 0 - 50) * (1 - 0.1) - 50) * (50 - 0 - (50 - 0 - 50) * (1 - 0.1) - 50)
      + (40000 - 0) * (40000 - 0) = 40000 * 40000 := by norm_num
  rw [this]
  exact Real.sqrt_mul_self (by norm_num)

/-- With the underflowing exponential the rubber band returns exactly 100
at raw distances 40000 and 50000. -/
theorem actualDistance_underflow (fmt : ℝ → String) :
    actualDistance (Host.mk Real.sqrt (fun x => if x ≤ -746 then 0 else Real.exp x) fmt) 40000
      = 100 ∧
    actualDistance (Host.mk Real.sqrt (fun x => if x ≤ -746 then 0 else Real.exp x) fmt) 50000
      = 100 := by
  constructor
  · rw [actualDistance_host]
    have : (-(40000 - 50) / 50 : ℝ) ≤ -746 := by norm_num
    simp only [this, if_true]
    norm_num
  · rw [actualDistance_host]
    have : (-(50000 - 50) / 50 : ℝ) ≤ -746 := by norm_num
    simp only [this, if_true]
    norm_num

/-- The state after the far drag with the underflowing exponential: the
handle is put at (50, 100), at distance exactly 100 from the anchor. -/
theorem far_drag_state (fmt : ℝ → String) :
    (onDrag (Host.mk Real.sqrt (fun x => if x ≤ -746 then 0 else Real.exp x) fmt)
      50 40000 sampleView (startDrag 50 50 sampleView initialState)).handleX = 50 ∧
    (onDrag (Host.mk Real.sqrt (fun x => if x ≤ -746 then 0 else Real.exp x) fmt)
      50 40000 sampleView (startDrag 50 50 sampleView initialState)).handleY = 100 ∧
    handleDistance (Host.mk Real.sqrt (fun x => if x ≤ -746 then 0 else Real.exp x) fmt)
        (onDrag (Host.mk Real.sqrt (fun x => if x ≤ -746 then 0 else Real.exp x) fmt)
          50 40000 sampleView (startDrag 50 50 sampleView initialState)) = 100 ∧
    (onDrag (Host.mk Real.sqrt (fun x => if x ≤ -746 then 0 else Real.exp x) fmt)
      50 40000 sampleView (startDrag 50 50 sampleView initialState)).isDragging = true ∧
    (onDrag (Host.mk Real.sqrt (fun x => if x ≤ -746 then 0 else Real.exp x) fmt)
      50 40000 sampleView (startDrag 50 50 sampleView initialState)).didDrag = true := by
  have hs : (startDrag 50 50 sampleView (initialState : State ℝ)).isDragging = true := rfl
  have hr := rawDistance_far (fun x => if x ≤ -746 then 0 else Real.exp x) fmt
  have hgt : (50 : ℝ) < rawDistance
      (Host.mk Real.sqrt (fun x => if x ≤ -746 then 0 else Real.exp x) fmt)
      50 40000 sampleView (startDrag 50 50 sampleView initialState) := by rw [hr]; norm_num
  have hd := onDrag_handleDistance_host_of_gt _ fmt 50 40000 sampleView _
    underflow_exp_le_one hs hgt
  obtain ⟨hx, hy⟩ := onDrag_handle_of_gt
    (Host.mk Real.sqrt (fun x => if x ≤ -746 then 0 else Real.exp x) fmt)
    50 40000 sampleView _ hs hgt
  rw [hr, (actualDistance_underflow fmt).1] at hd hx hy
  have rx : rawX 50 sampleView (startDrag 50 50 sampleView (initialState : State ℝ)) = 50 := by
    norm_num [rawX, decayedOffset, startDrag, initialState, sampleView]
  have ry : rawY 40000 sampleView (startDrag 50 50 sampleView (initialState : State ℝ))
      = 40000 := by
    norm_num [rawY, decayedOffset, startDrag, initialState, sampleView]
  rw [rx] at hx
  rw [ry] at hy
  refine ⟨?_, ?_, hd, (onDrag_isDragging _ 50 40000 sampleView _).trans hs,
    onDrag_didDrag _ 50 40000 sampleView _ hs⟩
  · rw [hx]; norm_num
  · rw [hy]; norm_num

/-- C1, as stated, fails: `Math.exp` underflows to 0, and then the handle is
at distance exactly `CORD_MAX_LENGTH = 100`, not strictly below it.  Pressed
on the resting handle and dragged to (50, 40000), the handle is put at
(50, 100). -/
theorem onDrag_distance_reaches_max :
    (startDrag 50 50 sampleView (initialState : State ℝ)).isDragging = true ∧
    (onDrag (Host.mk Real.sqrt (fun x => if x ≤ -746 then 0 else Real.exp x) (fun _ => ""))
      50 40000 sampleView (startDrag 50 50 sampleView initialState)).handleX = 50 ∧
    (onDrag (Host.mk Real.sqrt (fun x => if x ≤ -746 then 0 else Real.exp x) (fun _ => ""))
      50 40000 sampleView (startDrag 50 50 sampleView initialState)).handleY = 100 ∧
    handleDistance
        (Host.mk Real.sqrt (fun x => if x ≤ -746 then 0 else Real.exp x) (fun _ => ""))
        (onDrag (Host.mk Real.sqrt (fun x => if x ≤ -746 then 0 else Real.exp x) (fun _ => ""))
          50 40000 sampleView (startDrag 50 50 sampleView initialState)) = 100 ∧
    ¬ handleDistance
        (Host.mk Real.sqrt (fun x => if x ≤ -746 then 0 else Real.exp x) (fun _ => ""))
        (onDrag (Host.mk Real.sqrt (fun x => if x ≤ -746 then 0 else Real.exp x) (fun _ => ""))
          50 40000 sampleView (startDrag 50 50 sampleView initialState)) < CORD_MAX_LENGTH := by
  obtain ⟨hx, hy, hd, _, _⟩ := far_drag_state (fun _ => "")
  refine ⟨rfl, hx, hy, hd, ?_⟩
  rw [hd]; norm_num

/-- C1, amended: in an active drag session, after `onDrag` the handle is at
distance at most `CORD_MAX_LENGTH = 100` from the anchor, for every pointer
position, layout reading and grab offset, whatever value in [0, 1] `Math.exp`
returns; for every raw distance `d > 50` the rubber-banded distance
`50 + 50 * (1 - e)`, with `e` the value `Math.exp` returns at `-(d - 50) / 50`,
is at most 100 and is the handle's distance when the raw distance exceeds 50,
and the handle's distance is the raw distance itself when that is at most
50. -/
theorem onDrag_distance_le_max (e : ℝ → ℝ) (fmt : ℝ → String) (x y : ℝ) (v : View ℝ)
    (s : State ℝ) (he0 : ∀ x, 0 ≤ e x) (he1 : ∀ x, x ≤ 0 → e x ≤ 1)
    (hs : s.isDragging = true) :
    handleDistance (Host.mk Real.sqrt e fmt) (onDrag (Host.mk Real.sqrt e fmt) x y v s)
      ≤ CORD_MAX_LENGTH ∧
    (∀ d : ℝ, 50 < d →
      actualDistance (Host.mk Real.sqrt e fmt) d = 50 + 50 * (1 - e (-(d - 50) / 50)) ∧
      50 ≤ actualDistance (Host.mk Real.sqrt e fmt) d ∧
      actualDistance (Host.mk Real.sqrt e fmt) d ≤ 100) ∧
    (50 < rawDistance (Host.mk Real.sqrt e fmt) x y v s →
      handleDistance (Host.mk Real.sqrt e fmt) (onDrag (Host.mk Real.sqrt e fmt) x y v s)
        = actualDistance (Host.mk Real.sqrt e fmt)
            (rawDistance (Host.mk Real.sqrt e fmt) x y v s)) ∧
    (rawDistance (Host.mk Real.sqrt e fmt) x y v s ≤ 50 →
      handleDistance (Host.mk Real.sqrt e fmt) (onDrag (Host.mk Real.sqrt e fmt) x y v s)
        = rawDistance (Host.mk Real.sqrt e fmt) x y v s) :=
  ⟨onDrag_handleDistance_host_le e fmt x y v s he0 he1 hs,
    fun d hd => ⟨actualDistance_host e fmt d, actualDistance_host_ge e fmt d he1 hd.le,
      actualDistance_host_le e fmt d he0⟩,
    onDrag_handleDistance_host_of_gt e fmt x y v s he1 hs,
    onDrag_handleDistance_host_of_le e fmt x y v s hs⟩

/-- Witness for the amended C1: the far drag with the underflowing
exponential. -/
theorem onDrag_distance_le_max_witness :
    (∀ x : ℝ, 0 ≤ (fun x : ℝ => if x ≤ -746 then 0 else Real.exp x) x) ∧
    (∀ x : ℝ, x ≤ 0 → (fun x : ℝ => if x ≤ -746 then 0 else Real.exp x) x ≤ 1) ∧
    (startDrag 50 50 sampleView (initialState : State ℝ)).isDragging = true ∧
    handleDistance
        (Host.mk Real.sqrt (fun x => if x ≤ -746 then 0 else Real.exp x) (fun _ => ""))
        (onDrag (Host.mk Real.sqrt (fun x => if x ≤ -746 then 0 else Real.exp x) (fun _ => ""))
          50 40000 sampleView (startDrag 50 50 sampleView initialState)) ≤ CORD_MAX_LENGTH :=
  ⟨underflow_exp_nonneg, underflow_exp_le_one, rfl,
    (onDrag_distance_le_max _ (fun _ => "") 50 40000 sampleView
      (startDrag 50 50 sampleView initialState) underflow_exp_nonneg underflow_exp_le_one
      rfl).1⟩

/-- C10, as stated, fails: once `Math.exp` has underflowed to 0 the
rubber-band mapping is constant, so it is not strictly increasing; at the raw
distances 40000 < 50000 it returns 100 twice. -/
theorem actualDistance_not_strictly_increasing :
    (50 : ℝ) < 40000 ∧ (40000 : ℝ) < 50000 ∧
    actualDistance
        (Host.mk Real.sqrt (fun x => if x ≤ -746 then 0 else Real.exp x) (fun _ => "")) 40000
      = actualDistance
        (Host.mk Real.sqrt (fun x => if x ≤ -746 then 0 else Real.exp x) (fun _ => "")) 50000 ∧
    ¬ actualDistance
        (Host.mk Real.sqrt (fun x => if x ≤ -746 then 0 else Real.exp x) (fun _ => "")) 40000
      < actualDistance
        (Host.mk Real.sqrt (fun x => if x ≤ -746 then 0 else Real.exp x) (fun _ => ""))
        50000 := by
  obtain ⟨a, b⟩ := actualDistance_underflow (fun _ => "")
  refine ⟨by norm_num, by norm_num, by rw [a, b], ?_⟩
  rw [a, b]
  exact lt_irrefl 100

/-- C10, amended: the rubber-band mapping `d ↦ 50 + 50 * (1 - e)`, with `e`
the value `Math.exp` returns at `-(d - 50) / 50`, that `onDrag` applies to
the raw distance is non-decreasing on raw distances above the rest length 50,
for an exponential that is non-decreasing: for all `50 < d1 < d2`,
`actualDistance d1 ≤ actualDistance d2`. -/
theorem actualDistance_monotone (e : ℝ → ℝ) (fmt : ℝ → String) (d1 d2 : ℝ)
    (hmono : ∀ a b, a ≤ b → e a ≤ e b) (h1 : 50 < d1) (h12 : d1 < d2) :
    actualDistance (Host.mk Real.sqrt e fmt) d1 = 50 + 50 * (1 - e (-(d1 - 50) / 50)) ∧
    actualDistance (Host.mk Real.sqrt e fmt) d2 = 50 + 50 * (1 - e (-(d2 - 50) / 50)) ∧
    -(d2 - 50) / 50 < 0 ∧
    actualDistance (Host.mk Real.sqrt e fmt) d1 ≤ actualDistance (Host.mk Real.sqrt e fmt) d2 := by
  have e1 : -(d1 - 50) / 50 = -((d1 - 50) / 50) := neg_div _ _
  have e2 : -(d2 - 50) / 50 = -((d2 - 50) / 50) := neg_div _ _
  have hlt : (d1 - 50) / 50 < (d2 - 50) / 50 :=
    div_lt_div_of_pos_right (by linarith) (by norm_num)
  have hpos : 0 < (d1 - 50) / 50 := div_pos (by linarith) (by norm_num)
  refine ⟨actualDistance_host e fmt d1, actualDistance_host e fmt d2, by linarith, ?_⟩
  rw [actualDistance_host, actualDistance_host]
  have := hmono (-(d2 - 50) / 50) (-(d1 - 50) / 50) (by linarith)
  linarith

/-- Witness for the amended C10: raw distances 40000 and 50000 with the
underflowing exponential. -/
theorem actualDistance_monotone_witness :
    (∀ a b : ℝ, a ≤ b → (fun x : ℝ => if x ≤ -746 then 0 else Real.exp x) a
      ≤ (fun x : ℝ => if x ≤ -746 then 0 else Real.exp x) b) ∧
    (50 : ℝ) < 40000 ∧ (40000 : ℝ) < 50000 ∧
    actualDistance
        (Host.mk Real.sqrt (fun x => if x ≤ -746 then 0 else Real.exp x) (fun _ => "")) 40000
      ≤ actualDistance
        (Host.mk Real.sqrt (fun x => if x ≤ -746 then 0 else Real.exp x) (fun _ => ""))
        50000 :=
  ⟨underflow_exp_mono, by norm_num, by norm_num,
    (actualDistance_monotone _ (fun _ => "") 40000 50000 underflow_exp_mono
      (by norm_num) (by norm_num)).2.2.2⟩

/-! ## The seeded release velocity -/

/-- C16, as stated, fails in its last part: `Math.exp` underflows to 0, the
drag then leaves the handle at distance exactly 100, and the release seeds the
velocity (0, -10), of magnitude exactly 10, not below 10.  The session is:
pressed on the resting handle, dragged to (50, 40000), released. -/
theorem release_speed_reaches_10 :
    (dragSession
      (Host.mk Real.sqrt (fun x => if x ≤ -746 then 0 else Real.exp x) (fun _ => ""))
      initialState ⟨50, 50, sampleView⟩ [⟨50, 40000, sampleView⟩]).velocityX = 0 ∧
    (dragSession
      (Host.mk Real.sqrt (fun x => if x ≤ -746 then 0 else Real.exp x) (fun _ => ""))
      initialState ⟨50, 50, sampleView⟩ [⟨50, 40000, sampleView⟩]).velocityY = -10 ∧
    handleDistance
      (Host.mk Real.sqrt (fun x => if x ≤ -746 then 0 else Real.exp x) (fun _ => ""))
      (dragSession
        (Host.mk Real.sqrt (fun x => if x ≤ -746 then 0 else Real.exp x) (fun _ => ""))
        initialState ⟨50, 50, sampleView⟩ [⟨50, 40000, sampleView⟩]) = 100 ∧
    Real.sqrt
      ((dragSession
          (Host.mk Real.sqrt (fun x => if x ≤ -746 then 0 else Real.exp x) (fun _ => ""))
          initialState ⟨50, 50, sampleView⟩ [⟨50, 40000, sampleView⟩]).velocityX
        * (dragSession
          (Host.mk Real.sqrt (fun x => if x ≤ -746 then 0 else Real.exp x) (fun _ => ""))
          initialState ⟨50, 50, sampleView⟩ [⟨50, 40000, sampleView⟩]).velocityX
      + (dragSession
          (Host.mk Real.sqrt (fun x => if x ≤ -746 then 0 else Real.exp x) (fun _ => ""))
          initialState ⟨50, 50, sampleView⟩ [⟨50, 40000, sampleView⟩]).velocityY
        * (dragSession
          (Host.mk Real.sqrt (fun x => if x ≤ -746 then 0 else Real.exp x) (fun _ => ""))
          initialState ⟨50, 50, sampleView⟩ [⟨50, 40000, sampleView⟩]).velocityY) = 10 ∧
    ¬ Real.sqrt
      ((dragSession
          (Host.mk Real.sqrt (fun x => if x ≤ -746 then 0 else Real.exp x) (fun _ => ""))
          initialState ⟨50, 50, sampleView⟩ [⟨50, 40000, sampleView⟩]).velocityX
        * (dragSession
          (Host.mk Real.sqrt (fun x => if x ≤ -746 then 0 else Real.exp x) (fun _ => ""))
          initialState ⟨50, 50, sampleView⟩ [⟨50, 40000, sampleView⟩]).velocityX
      + (dragSession
          (Host.mk Real.sqrt (fun x => if x ≤ -746 then 0 else Real.exp x) (fun _ => ""))
          initialState ⟨50, 50, sampleView⟩ [⟨50, 40000, sampleView⟩]).velocityY
        * (dragSession
          (Host.mk Real.sqrt (fun x => if x ≤ -746 then 0 else Real.exp x) (fun _ => ""))
          initialState ⟨50, 50, sampleView⟩ [⟨50, 40000, sampleView⟩]).velocityY) < 10 := by
  obtain ⟨hx, hy, hd, hs, hdd⟩ := far_drag_state (fun _ => "")
  have hsess : dragSession
      (Host.mk Real.sqrt (fun x => if x ≤ -746 then 0 else Real.exp x) (fun _ => ""))
      initialState ⟨50, 50, sampleView⟩ [⟨50, 40000, sampleView⟩]
      = endDrag
          (Host.mk Real.sqrt (fun x => if x ≤ -746 then 0 else Real.exp x) (fun _ => ""))
          (onDrag
            (Host.mk Real.sqrt (fun x => if x ≤ -746 then 0 else Real.exp x) (fun _ => ""))
            50 40000 sampleView (startDrag 50 50 sampleView initialState)) := rfl
  rw [hsess]
  obtain ⟨vx, vy⟩ := endDrag_velocity_of_gt _ _ hs hdd (by rw [hd]; norm_num)
  rw [hd, hx] at vx
  rw [hd, hy] at vy
  have vx0 : (endDrag
      (Host.mk Real.sqrt (fun x => if x ≤ -746 then 0 else Real.exp x) (fun _ => ""))
      (onDrag
        (Host.mk Real.sqrt (fun x => if x ≤ -746 then 0 else Real.exp x) (fun _ => ""))
        50 40000 sampleView (startDrag 50 50 sampleView initialState))).velocityX = 0 := by
    rw [vx]; norm_num
  have vy10 : (endDrag
      (Host.mk Real.sqrt (fun x => if x ≤ -746 then 0 else Real.exp x) (fun _ => ""))
      (onDrag
        (Host.mk Real.sqrt (fun x => if x ≤ -746 then 0 else Real.exp x) (fun _ => ""))
        50 40000 sampleView (startDrag 50 50 sampleView initialState))).velocityY = -10 := by
    rw [vy]; norm_num
  obtain ⟨ex, ey⟩ := endDrag_handle
    (Host.mk Real.sqrt (fun x => if x ≤ -746 then 0 else Real.exp x) (fun _ => ""))
    (onDrag
      (Host.mk Real.sqrt (fun x => if x ≤ -746 then 0 else Real.exp x) (fun _ => ""))
      50 40000 sampleView (startDrag 50 50 sampleView initialState))
  have hmag : Real.sqrt ((0 : ℝ) * 0 + -10 * -10) = 10 := by
    have : ((0 : ℝ) * 0 + -10 * -10) = 10 * 10 := by norm_num
    rw [this]
    exact Real.sqrt_mul_self (by norm_num)
  refine ⟨vx0, vy10, ?_, ?_, ?_⟩
  · rw [handleDistance_congr _ _ _ ex ey]
    exact hd
  · rw [vx0, vy10]; exact hmag
  · rw [vx0, vy10, hmag]; norm_num

/-- C16, amended: when a drag with movement is released with the handle
beyond the rest length, `endDrag` sets the velocity to
`-dir * (distance - 50) * 0.2` with `dir` the unit vector from the anchor to
the handle; its dot product with `handle - anchor` is strictly negative, its
magnitude is exactly `0.2 * (distance - 50)`, which is at most 10 when the
distance is at most 100, as it is after every `onDrag` update of an active
drag (whatever value in [0, 1] `Math.exp` returns). -/
theorem endDrag_seeds_inward_velocity (e : ℝ → ℝ) (fmt : ℝ → String) (s : State ℝ)
    (he0 : ∀ x, 0 ≤ e x) (he1 : ∀ x, x ≤ 0 → e x ≤ 1)
    (hs : s.isDragging = true) (hdd : s.didDrag = true)
    (hd : CORD_LENGTH < handleDistance (Host.mk Real.sqrt e fmt) s) :
    (endDrag (Host.mk Real.sqrt e fmt) s).velocityX
      = -((s.handleX - ANCHOR_X) / handleDistance (Host.mk Real.sqrt e fmt) s)
          * (handleDistance (Host.mk Real.sqrt e fmt) s - 50) * 0.2 ∧
    (endDrag (Host.mk Real.sqrt e fmt) s).velocityY
      = -((s.handleY - ANCHOR_Y) / handleDistance (Host.mk Real.sqrt e fmt) s)
          * (handleDistance (Host.mk Real.sqrt e fmt) s - 50) * 0.2 ∧
    (endDrag (Host.mk Real.sqrt e fmt) s).velocityX * (s.handleX - ANCHOR_X)
      + (endDrag (Host.mk Real.sqrt e fmt) s).velocityY * (s.handleY - ANCHOR_Y) < 0 ∧
    Real.sqrt ((endDrag (Host.mk Real.sqrt e fmt) s).velocityX
          * (endDrag (Host.mk Real.sqrt e fmt) s).velocityX
        + (endDrag (Host.mk Real.sqrt e fmt) s).velocityY
          * (endDrag (Host.mk Real.sqrt e fmt) s).velocityY)
      = 0.2 * (handleDistance (Host.mk Real.sqrt e fmt) s - 50) ∧
    (handleDistance (Host.mk Real.sqrt e fmt) s ≤ 100 →
      Real.sqrt ((endDrag (Host.mk Real.sqrt e fmt) s).velocityX
          * (endDrag (Host.mk Real.sqrt e fmt) s).velocityX
        + (endDrag (Host.mk Real.sqrt e fmt) s).velocityY
          * (endDrag (Host.mk Real.sqrt e fmt) s).velocityY) ≤ 10) ∧
    (∀ (t : State ℝ) (x y : ℝ) (v : View ℝ), t.isDragging = true →
      handleDistance (Host.mk Real.sqrt e fmt) (onDrag (Host.mk Real.sqrt e fmt) x y v t)
        ≤ 100) := by
  obtain ⟨hvx, hvy⟩ := endDrag_velocity_of_gt (Host.mk Real.sqrt e fmt) s hs hdd hd
  obtain ⟨d, hdef⟩ : ∃ d, d = handleDistance (Host.mk Real.sqrt e fmt) s := ⟨_, rfl⟩
  obtain ⟨dx, hdx⟩ : ∃ dx, dx = s.handleX - ANCHOR_X := ⟨_, rfl⟩
  obtain ⟨dy, hdy⟩ : ∃ dy, dy = s.handleY - ANCHOR_Y := ⟨_, rfl⟩
  have hd2 : d = Real.sqrt (dx * dx + dy * dy) := by rw [hdef, hdx, hdy]; rfl
  simp only [← hdef, ← hdx, ← hdy] at hvx hvy hd ⊢
  have h50 : (50 : ℝ) < d := hd
  have hdpos : 0 < d := by linarith
  have hsq : d * d = dx * dx + dy * dy := by
    rw [hd2]
    exact Real.mul_self_sqrt (by nlinarith [mul_self_nonneg dx, mul_self_nonneg dy])
  have hvx' : (endDrag (Host.mk Real.sqrt e fmt) s).velocityX
      = -(dx / d) * (d - 50) * 0.2 := hvx
  have hvy' : (endDrag (Host.mk Real.sqrt e fmt) s).velocityY
      = -(dy / d) * (d - 50) * 0.2 := hvy
  have hmag : Real.sqrt ((endDrag (Host.mk Real.sqrt e fmt) s).velocityX
          * (endDrag (Host.mk Real.sqrt e fmt) s).velocityX
        + (endDrag (Host.mk Real.sqrt e fmt) s).velocityY
          * (endDrag (Host.mk Real.sqrt e fmt) s).velocityY) = 0.2 * (d - 50) := by
    rw [hvx', hvy']
    have eq1 : -(dx / d) * (d - 50) * 0.2 * (-(dx / d) * (d - 50) * 0.2)
        + -(dy / d) * (d - 50) * 0.2 * (-(dy / d) * (d - 50) * 0.2)
        = (0.2 * (d - 50)) * (0.2 * (d - 50)) * ((dx * dx + dy * dy) / (d * d)) := by
      field_simp
      ring
    rw [eq1, ← hsq, div_self (by positivity), mul_one]
    exact Real.sqrt_mul_self (by linarith)
  refine ⟨hvx', hvy', ?_, hmag, ?_,
    fun t x y v ht => onDrag_handleDistance_host_le e fmt x y v t he0 he1 ht⟩
  · rw [hvx', hvy']
    have eq2 : -(dx / d) * (d - 50) * 0.2 * dx + -(dy / d) * (d - 50) * 0.2 * dy
        = -((d - 50) * 0.2 * ((dx * dx + dy * dy) / d)) := by
      field_simp
      ring
    rw [eq2, ← hsq, mul_self_div_self]
    have : 0 < (d - 50) * 0.2 * d :=
      mul_pos (mul_pos (by linarith) (by norm_num)) hdpos
    linarith
  · intro h100
    rw [hmag]
    linarith

/-- Witness for the amended C16: released at (98, 64), at distance 80 from
the anchor; the seeded velocity is (-3.6, -4.8). -/
theorem endDrag_seeds_inward_velocity_witness :
    (∀ x : ℝ, 0 ≤ Real.exp x) ∧ (∀ x : ℝ, x ≤ 0 → Real.exp x ≤ 1) ∧
    (stretchedState : State ℝ).isDragging = true ∧ (stretchedState : State ℝ).didDrag = true ∧
    CORD_LENGTH < handleDistance (Host.mk Real.sqrt Real.exp (fun _ => "")) stretchedState ∧
    (endDrag (Host.mk Real.sqrt Real.exp (fun _ => "")) stretchedState).velocityX = -3.6 ∧
    (endDrag (Host.mk Real.sqrt Real.exp (fun _ => "")) stretchedState).velocityY = -4.8 := by
  have h80 : handleDistance (Host.mk Real.sqrt Real.exp (fun _ => "")) stretchedState = 80 := by
    have : ((98 : ℝ) - 50) * (98 - 50) + (64 - 0) * (64 - 0) = 80 * 80 := by norm_num
    simp only [handleDistance, stretchedState, this]
    exact Real.sqrt_mul_self (by norm_num)
  have hd : CORD_LENGTH < handleDistance (Host.mk Real.sqrt Real.exp (fun _ => ""))
      stretchedState := by rw [h80]; norm_num
  have he0 : ∀ x : ℝ, 0 ≤ Real.exp x := fun x => (Real.exp_pos x).le
  have he1 : ∀ x : ℝ, x ≤ 0 → Real.exp x ≤ 1 := fun x hx => Real.exp_le_one_iff.mpr hx
  obtain ⟨a, b, _⟩ := endDrag_seeds_inward_velocity Real.exp (fun _ => "") stretchedState
    he0 he1 rfl rfl hd
  rw [h80] at a b
  refine ⟨he0, he1, rfl, rfl, hd, ?_, ?_⟩
  · rw [a]; norm_num [stretchedState]
  · rw [b]; norm_num [stretchedState]

end PullCord
